import Mathlib

/-!
VibeStream: playback engines and progress store.

A shallow embedding of `js/storage.js` (`LibraryManager`), `js/music-player.js`
(`MusicPlayer`) and `js/podcast-player.js` (`PodcastPlayer`).

Modelling conventions.

* JavaScript objects become structures and every method becomes a function that
  takes the receiver's state and returns the new state (explicit state passing).
* An optional property (`undefined` when absent) is an `Option`.
* Numbers that are counts are `Nat`, the queue cursor is an `Int` (it starts
  at `-1`), and times, percentages and the volume are rationals.  `%` on the
  cursor is JavaScript's truncating remainder, `Int.tmod`.
* A timestamp (`new Date().toISOString()`) is a `Nat`; chronological order is
  the order of the naturals.
* What a call takes from its surroundings (the clock, `Math.random()`, whether
  the audio resource opens) is passed in as a `Platform` value.
* The audio element is a record of the properties the engines use; an
  assignment to `currentTime` goes through `Audio.setCurrentTime`, the seek of
  the element, which limits the position to `[0, duration]`.
* An `async` method that may throw returns its new state together with an
  `Except` value: the state changes made before the throw are kept, as they
  are in the source.
* Items are passed by value: a queue holds the records handed to the engine,
  the mutable play-state fields are written through the `LibraryManager`.
-/

namespace VibeStream

/-! ## Data model -/

/-- A record of `library.music`. -/
structure Track where
  id : String
  title : String
  artist : String
  album : Option String
  genre : Option String
  audioFile : String
  coverFile : Option String
  addedDate : Nat
  playCount : Option Nat
  lastPlayed : Option Nat
  deriving DecidableEq, Repr

/-- A record of `library.podcasts`. -/
structure Episode where
  id : String
  title : String
  showName : String
  description : Option String
  audioFile : String
  coverFile : Option String
  addedDate : Nat
  playCount : Option Nat
  lastPlayed : Option Nat
  progress : Option ℚ
  percentComplete : Option ℚ
  lastListened : Option Nat
  completed : Option Bool
  completedAt : Option Nat
  deriving DecidableEq, Repr

/-- The document of `library.json`: two named lists. -/
structure Library where
  music : List Track
  podcasts : List Episode
  deriving DecidableEq, Repr

/-- The surroundings of one call: `now` is what `new Date()` reads, `random`
is what `Math.random()` returns, and `probe src` tells whether the audio
resource `src` can be opened, giving its duration when it can. -/
structure Platform where
  now : Nat
  random : ℚ
  probe : String → Option ℚ

/-- The value of `x || 0` for an optional count. -/
def orZero (x : Option Nat) : Nat := x.getD 0

/-- The value of `x || 0` for an optional number. -/
def orZeroQ (x : Option ℚ) : ℚ := x.getD 0

/-- The value of `arr[i]` for an integer index: `undefined` outside the array. -/
def index {α : Type} (arr : List α) (i : Int) : Option α :=
  if 0 ≤ i then arr.get? i.toNat else none

/-- `arr.sort(compareFn)`: the stable sort of the language, `a` staying before
`b` when `compareFn(a, b) ≤ 0`.  The comparators of the program are differences
of keys, for which the stable sort has one possible outcome; it is computed here
by insertion. -/
def arraySort {α : Type} (compareFn : α → α → Int) (arr : List α) : List α :=
  arr.insertionSort (fun a b => compareFn a b ≤ 0)

/-- `s.includes(searchString)`: whether `searchString` occurs in `s` as a run
of consecutive characters; the empty string occurs in every string. -/
def includes (s searchString : String) : Bool :=
  decide (searchString.toList <:+: s.toList)

/-- `toLowerCase()` on the letters `A` to `Z`, every other character left as it
is: the lower-casing used where one has to be computed. -/
def lowerAscii (s : String) : String :=
  String.mk (s.toList.map Char.toLower)

/-! ## `LibraryManager` (storage.js) -/

/-- The library manager with the browser globals its methods reach:
`library` is `this.library` (`null` before a load), `localStorage` holds the
serialised value of `this.library` per key (`JSON.stringify` followed by
`JSON.parse` gives the value back, so the blob is kept as the value, `none`
being the text `null`), and `userId` is
`window.authManager?.getCurrentUserId()`. -/
structure LibraryManager where
  library : Option Library
  localStorage : List (String × Option Library)
  userId : Option String
  deriving DecidableEq, Repr

/-- The kind argument of `incrementPlayCount` (`type`). -/
inductive Kind where
  | music
  | podcast
  deriving DecidableEq, Repr

namespace LibraryManager

/-- `getAllMusic()`: `this.library?.music || []`. -/
def getAllMusic (m : LibraryManager) : List Track :=
  match m.library with
  | some l => l.music
  | none => []

/-- `getAllPodcasts()`: `this.library?.podcasts || []`. -/
def getAllPodcasts (m : LibraryManager) : List Episode :=
  match m.library with
  | some l => l.podcasts
  | none => []

/-- `getMusicById(id)`: the first track with that id. -/
def getMusicById (m : LibraryManager) (id : String) : Option Track :=
  m.getAllMusic.find? (fun track => track.id == id)

/-- `getPodcastById(id)`: the first episode with that id. -/
def getPodcastById (m : LibraryManager) (id : String) : Option Episode :=
  m.getAllPodcasts.find? (fun ep => ep.id == id)

/-- The storage key: `vibestream_library_state_` followed by the user id, or by
`default` when there is none (an empty id is falsy too). -/
def storageKey (m : LibraryManager) : String :=
  "vibestream_library_state_" ++
    (match m.userId with
     | some u => if u = "" then "default" else u
     | none => "default")

/-- `localStorage.setItem(key, value)`. -/
def setItem (store : List (String × Option Library)) (key : String)
    (value : Option Library) : List (String × Option Library) :=
  (key, value) :: store.filter (fun kv => kv.1 != key)

/-- `localStorage.getItem(key)`: `null` when the key is absent. -/
def getItem (store : List (String × Option Library)) (key : String) :
    Option (Option Library) :=
  (store.find? (fun kv => kv.1 == key)).map Prod.snd

/-- `saveToLocalStorage()`: writes the whole library under the user's key. -/
def saveToLocalStorage (m : LibraryManager) : LibraryManager :=
  { m with localStorage := setItem m.localStorage m.storageKey m.library }

/-- Applies `f` to the first element that satisfies `p`: the mutation of the
object that `find` returned, seen in the array. -/
def updateFirst {α : Type} (p : α → Bool) (f : α → α) : List α → List α
  | [] => []
  | x :: xs => if p x then f x :: xs else x :: updateFirst p f xs

/-- `incrementPlayCount(id, type)`. -/
def incrementPlayCount (now : Nat) (m : LibraryManager) (id : String)
    (type : Kind := Kind.music) : LibraryManager :=
  match type with
  | Kind.music =>
    match m.getMusicById id, m.library with
    | some _, some l =>
      let music := updateFirst (fun track => track.id == id)
        (fun item => { item with playCount := some (orZero item.playCount + 1),
                                 lastPlayed := some now }) l.music
      saveToLocalStorage { m with library := some { l with music := music } }
    | _, _ => m
  | Kind.podcast =>
    match m.getPodcastById id, m.library with
    | some _, some l =>
      let podcasts := updateFirst (fun ep => ep.id == id)
        (fun item => { item with playCount := some (orZero item.playCount + 1),
                                 lastPlayed := some now }) l.podcasts
      saveToLocalStorage { m with library := some { l with podcasts := podcasts } }
    | _, _ => m

/-- The assignments of `updatePodcastProgress` to the episode it found. -/
def applyProgress (now : Nat) (progress percentComplete : ℚ) (podcast : Episode) : Episode :=
  let podcast := { podcast with progress := some progress,
                                percentComplete := some percentComplete,
                                lastListened := some now }
  if percentComplete ≥ 100 then
    { podcast with completed := some true, completedAt := some now }
  else podcast

/-- `updatePodcastProgress(id, progress, percentComplete)`. -/
def updatePodcastProgress (now : Nat) (m : LibraryManager) (id : String)
    (progress percentComplete : ℚ) : LibraryManager :=
  match m.getPodcastById id, m.library with
  | some _, some l =>
    let podcasts := updateFirst (fun ep => ep.id == id)
      (applyProgress now progress percentComplete) l.podcasts
    saveToLocalStorage { m with library := some { l with podcasts := podcasts } }
  | _, _ => m

/-- The body of the `forEach` over `this.library.music` in `mergeLibraries`. -/
def mergeTrack (savedMusic : List Track) (track : Track) : Track :=
  match savedMusic.find? (fun t => t.id == track.id) with
  | some saved => { track with playCount := some (orZero saved.playCount),
                               lastPlayed := saved.lastPlayed }
  | none => track

/-- The body of the `forEach` over `this.library.podcasts` in `mergeLibraries`. -/
def mergeEpisode (savedPodcasts : List Episode) (episode : Episode) : Episode :=
  match savedPodcasts.find? (fun e => e.id == episode.id) with
  | some saved => { episode with playCount := some (orZero saved.playCount),
                                 progress := some (orZeroQ saved.progress),
                                 percentComplete := some (orZeroQ saved.percentComplete),
                                 lastListened := saved.lastListened,
                                 completed := saved.completed,
                                 completedAt := saved.completedAt }
  | none => episode

/-- `mergeLibraries(savedLibrary)`.  Both lists of a `Library` are present, so
the two guards `savedLibrary.music && this.library.music` and
`savedLibrary.podcasts && this.library.podcasts` pass; on a `null` library the
method throws before it changes anything. -/
def mergeLibraries (m : LibraryManager) (savedLibrary : Library) : LibraryManager :=
  match m.library with
  | some l =>
    let music := l.music.map (mergeTrack savedLibrary.music)
    let podcasts := l.podcasts.map (mergeEpisode savedLibrary.podcasts)
    { m with library := some { music := music, podcasts := podcasts } }
  | none => m

/-- `loadFromLocalStorage()`: merges the blob saved under the user's key, if
there is one; a blob that parses to `null` makes `mergeLibraries` throw, which
the method catches. -/
def loadFromLocalStorage (m : LibraryManager) : LibraryManager :=
  match getItem m.localStorage m.storageKey with
  | some (some savedLibrary) => m.mergeLibraries savedLibrary
  | _ => m

/-- The comparator of `getPopularMusic`:
`(a, b) => (b.playCount || 0) - (a.playCount || 0)`. -/
def byPlayCount (a b : Track) : Int :=
  (orZero b.playCount : Int) - (orZero a.playCount : Int)

/-- The comparator of `getNewMusic`:
`(a, b) => new Date(b.addedDate) - new Date(a.addedDate)`. -/
def byAddedDate (a b : Track) : Int :=
  (b.addedDate : Int) - (a.addedDate : Int)

/-- The comparator of `getNewPodcasts`, the same expression on episodes. -/
def byAddedDateEpisode (a b : Episode) : Int :=
  (b.addedDate : Int) - (a.addedDate : Int)

/-- The comparator of `getInProgressPodcasts`:
`(a, b) => new Date(b.lastListened || 0) - new Date(a.lastListened || 0)`. -/
def byLastListened (a b : Episode) : Int :=
  (orZero b.lastListened : Int) - (orZero a.lastListened : Int)

/-- `getPopularMusic(limit = 6)`: the library manager after the call and the
value returned.  `getAllMusic()` hands out the array `this.library.music`
itself, and `sort` sorts the array it is called on, so the library's list is
left sorted; on a `null` library the array sorted is a new empty one. -/
def getPopularMusic (m : LibraryManager) (limit : Nat := 6) : LibraryManager × List Track :=
  match m.library with
  | some l =>
    let sorted := arraySort byPlayCount l.music
    ({ m with library := some { l with music := sorted } }, sorted.take limit)
  | none => (m, [])

/-- `getNewMusic(limit = 6)`: the library manager after the call and the value
returned; the array sorted is `this.library.music` itself, as in
`getPopularMusic`. -/
def getNewMusic (m : LibraryManager) (limit : Nat := 6) : LibraryManager × List Track :=
  match m.library with
  | some l =>
    let sorted := arraySort byAddedDate l.music
    ({ m with library := some { l with music := sorted } }, sorted.take limit)
  | none => (m, [])

/-- `getInProgressPodcasts()`.  `filter` builds a new array, which is the one
sorted, so the library is not written.  A comparison with an absent number is
false. -/
def getInProgressPodcasts (m : LibraryManager) : List Episode :=
  arraySort byLastListened
    (m.getAllPodcasts.filter (fun e =>
      (match e.progress with
       | some pr => decide (pr > 0)
       | none => false) &&
      (match e.percentComplete with
       | some pc => decide (pc < 100)
       | none => false)))

/-- `getNewPodcasts(limit = 6)`.  `filter` builds a new array, which is the one
sorted, so the library is not written. -/
def getNewPodcasts (m : LibraryManager) (limit : Nat := 6) : List Episode :=
  (arraySort byAddedDateEpisode
    (m.getAllPodcasts.filter (fun e => !(e.completed == some true)))).take limit

/-- `searchMusic(query)`; `toLowerCase` is the lower-casing of the language.
An optional field takes part when it is present and not the empty string. -/
def searchMusic (toLowerCase : String → String) (m : LibraryManager) (query : String) :
    List Track :=
  let lowerQuery := toLowerCase query
  m.getAllMusic.filter (fun track =>
    includes (toLowerCase track.title) lowerQuery ||
    includes (toLowerCase track.artist) lowerQuery ||
    (match track.album with
     | some album => album != "" && includes (toLowerCase album) lowerQuery
     | none => false) ||
    (match track.genre with
     | some genre => genre != "" && includes (toLowerCase genre) lowerQuery
     | none => false))

/-- `searchPodcasts(query)`. -/
def searchPodcasts (toLowerCase : String → String) (m : LibraryManager) (query : String) :
    List Episode :=
  let lowerQuery := toLowerCase query
  m.getAllPodcasts.filter (fun episode =>
    includes (toLowerCase episode.title) lowerQuery ||
    includes (toLowerCase episode.showName) lowerQuery ||
    (match episode.description with
     | some description => description != "" && includes (toLowerCase description) lowerQuery
     | none => false))

end LibraryManager

/-! ## The audio element -/

/-- The properties of the `Audio` element that the engines read and write.
`duration` is `none` while it is unknown (`NaN`). -/
structure Audio where
  src : String
  currentTime : ℚ
  duration : Option ℚ
  volume : ℚ
  paused : Bool
  playbackRate : ℚ
  deriving DecidableEq, Repr

namespace Audio

/-- `new Audio()`. -/
def new : Audio :=
  { src := "", currentTime := 0, duration := none, volume := 1, paused := true,
    playbackRate := 1 }

/-- `audio.load()`: the element starts over on its `src`, at position 0, with
the duration unknown until the resource is opened. -/
def load (a : Audio) : Audio :=
  { a with currentTime := 0, duration := none, paused := true }

/-- `audio.currentTime = t`: the element seeks to `t`, which it limits to
`[0, duration]`; while the duration is unknown (nothing has been opened yet) the
value is kept as the position to start from. -/
def setCurrentTime (a : Audio) (t : ℚ) : Audio :=
  match a.duration with
  | some d => { a with currentTime := max 0 (min d t) }
  | none => { a with currentTime := t }

/-- The element once `audio.play()` has opened a resource of duration `d`. -/
def opened (a : Audio) (d : ℚ) : Audio :=
  { a with duration := some d, paused := false }

end Audio

/-- What a rejected load reports: `typeError` is the `TypeError` of reading
`audioFile` of `undefined`, `notSupported` the rejection of `audio.play()` when
the resource cannot be opened. -/
inductive PlaybackError where
  | typeError
  | notSupported
  deriving DecidableEq, Repr

/-- The callbacks an engine invokes on whoever registered them. -/
inductive Notification where
  | onTimeUpdate
  | onMetadataLoaded
  | onPlaybackEnded
  | onPlaybackError
  deriving DecidableEq, Repr

/-- The outcome of one engine method: the engine and the library after the
call, the value returned (or the error thrown), and the callbacks invoked, in
order. -/
structure Step (σ α : Type) where
  player : σ
  library : LibraryManager
  result : Except PlaybackError α
  emitted : List Notification := []

/-! ## `MusicPlayer` (music-player.js) -/

/-- The values of `repeatMode`. -/
inductive RepeatMode where
  | off
  | all
  | one
  deriving DecidableEq, Repr

/-- The fields of a `MusicPlayer`; `this.library` is passed to the methods. -/
structure MusicPlayer where
  audio : Audio
  currentTrack : Option Track
  queue : List Track
  currentIndex : Int
  isPlaying : Bool
  isShuffle : Bool
  repeatMode : RepeatMode
  deriving DecidableEq, Repr

namespace MusicPlayer

/-- The state the constructor leaves. -/
def new : MusicPlayer :=
  { audio := Audio.new, currentTrack := none, queue := [], currentIndex := -1,
    isPlaying := false, isShuffle := false, repeatMode := RepeatMode.off }

/-- `playTrack(track, queue = null, startIndex = 0)`. -/
def playTrack (pf : Platform) (lib : LibraryManager) (p : MusicPlayer)
    (track : Option Track) (queue : Option (List Track) := none)
    (startIndex : Int := 0) : Step MusicPlayer Bool :=
  let p := match queue with
    | some q => { p with queue := q, currentIndex := startIndex }
    | none => p
  let p := { p with currentTrack := track }
  match track with
  | none => { player := p, library := lib, result := .error .typeError }
  | some t =>
    let p := { p with audio := Audio.load { p.audio with src := t.audioFile } }
    match pf.probe t.audioFile with
    | none => { player := p, library := lib, result := .error .notSupported }
    | some d =>
      let p := { p with audio := p.audio.opened d, isPlaying := true }
      { player := p, library := lib.incrementPlayCount pf.now t.id Kind.music,
        result := .ok true }

/-- `play()`. -/
def play (p : MusicPlayer) : MusicPlayer :=
  if p.audio.src ≠ "" then
    { p with audio := { p.audio with paused := false }, isPlaying := true }
  else p

/-- `pause()`. -/
def pause (p : MusicPlayer) : MusicPlayer :=
  { p with audio := { p.audio with paused := true }, isPlaying := false }

/-- `togglePlay()`. -/
def togglePlay (p : MusicPlayer) : MusicPlayer :=
  if p.isPlaying then p.pause else p.play

/-- `next()`. -/
def next (pf : Platform) (lib : LibraryManager) (p : MusicPlayer) :
    Step MusicPlayer (Option Track) :=
  if p.queue.length = 0 then { player := p, library := lib, result := .ok none }
  else
    let p := if p.isShuffle then
        { p with currentIndex := Int.floor (pf.random * p.queue.length) }
      else
        { p with currentIndex := (p.currentIndex + 1).tmod p.queue.length }
    let nextTrack := index p.queue p.currentIndex
    let r := playTrack pf lib p nextTrack (some p.queue) p.currentIndex
    { player := r.player, library := r.library, result := r.result.map (fun _ => nextTrack) }

/-- `previous()`. -/
def previous (pf : Platform) (lib : LibraryManager) (p : MusicPlayer) :
    Step MusicPlayer (Option Track) :=
  if p.queue.length = 0 then { player := p, library := lib, result := .ok none }
  else if p.audio.currentTime > 3 then
    { player := { p with audio := p.audio.setCurrentTime 0 }, library := lib,
      result := .ok p.currentTrack }
  else
    let p := if p.isShuffle then
        { p with currentIndex := Int.floor (pf.random * p.queue.length) }
      else
        { p with currentIndex := (p.currentIndex - 1 + p.queue.length).tmod p.queue.length }
    let prevTrack := index p.queue p.currentIndex
    let r := playTrack pf lib p prevTrack (some p.queue) p.currentIndex
    { player := r.player, library := r.library, result := r.result.map (fun _ => prevTrack) }

/-- `seek(time)`. -/
def seek (p : MusicPlayer) (time : ℚ) : MusicPlayer :=
  { p with audio := p.audio.setCurrentTime time }

/-- `setVolume(volume)`. -/
def setVolume (p : MusicPlayer) (volume : ℚ) : MusicPlayer :=
  { p with audio := { p.audio with volume := max 0 (min 1 volume) } }

/-- `getVolume()`. -/
def getVolume (p : MusicPlayer) : ℚ := p.audio.volume

/-- `toggleShuffle()`: the new state and the value returned. -/
def toggleShuffle (p : MusicPlayer) : MusicPlayer × Bool :=
  let p := { p with isShuffle := !p.isShuffle }
  (p, p.isShuffle)

/-- The array `modes` of `toggleRepeat`. -/
def modes : List RepeatMode := [RepeatMode.off, RepeatMode.all, RepeatMode.one]

/-- `toggleRepeat()`: the new state and the value returned. -/
def toggleRepeat (p : MusicPlayer) : MusicPlayer × RepeatMode :=
  let currentIndex := modes.indexOf p.repeatMode
  let p := { p with repeatMode := modes.getD ((currentIndex + 1) % modes.length) p.repeatMode }
  (p, p.repeatMode)

/-- `onTrackEnded()`, the listener of the element's `ended` event. -/
def onTrackEnded (pf : Platform) (lib : LibraryManager) (p : MusicPlayer) :
    Step MusicPlayer Unit :=
  if p.repeatMode = RepeatMode.one then
    { player := play { p with audio := p.audio.setCurrentTime 0 }, library := lib,
      result := .ok () }
  else if p.repeatMode = RepeatMode.all ∨ p.currentIndex < (p.queue.length : Int) - 1 then
    let r := next pf lib p
    { player := r.player, library := r.library, result := r.result.map (fun _ => ()) }
  else
    { player := { p with isPlaying := false }, library := lib, result := .ok (),
      emitted := [Notification.onPlaybackEnded] }

/-- `getCurrentTime()`. -/
def getCurrentTime (p : MusicPlayer) : ℚ := p.audio.currentTime

/-- `getDuration()`. -/
def getDuration (p : MusicPlayer) : Option ℚ := p.audio.duration

end MusicPlayer

/-! ## `PodcastPlayer` (podcast-player.js) -/

/-- The fields of a `PodcastPlayer`; `this.library` is passed to the methods.
`progressSaveInterval` tells whether an interval timer is held. -/
structure PodcastPlayer where
  audio : Audio
  currentEpisode : Option Episode
  queue : List Episode
  currentIndex : Int
  isPlaying : Bool
  progressSaveInterval : Bool
  deriving DecidableEq, Repr

namespace PodcastPlayer

/-- The state the constructor leaves. -/
def new : PodcastPlayer :=
  { audio := Audio.new, currentEpisode := none, queue := [], currentIndex := -1,
    isPlaying := false, progressSaveInterval := false }

/-- The element after the resume step of `playEpisode`:
`if (episode.progress && episode.progress > 0) audio.currentTime = episode.progress`. -/
def resume (a : Audio) (episode : Episode) : Audio :=
  match episode.progress with
  | some pr => if pr > 0 then a.setCurrentTime pr else a
  | none => a

/-- `playEpisode(episode, queue = null, startIndex = 0)`. -/
def playEpisode (pf : Platform) (lib : LibraryManager) (p : PodcastPlayer)
    (episode : Option Episode) (queue : Option (List Episode) := none)
    (startIndex : Int := 0) : Step PodcastPlayer Bool :=
  let p := match queue with
    | some q => { p with queue := q, currentIndex := startIndex }
    | none => p
  let p := { p with currentEpisode := episode }
  match episode with
  | none => { player := p, library := lib, result := .error .typeError }
  | some e =>
    let p := { p with audio := resume (Audio.load { p.audio with src := e.audioFile }) e }
    match pf.probe e.audioFile with
    | none => { player := p, library := lib, result := .error .notSupported }
    | some d =>
      let p := { p with audio := p.audio.opened d, isPlaying := true }
      { player := p, library := lib.incrementPlayCount pf.now e.id Kind.podcast,
        result := .ok true }

/-- `play()`. -/
def play (p : PodcastPlayer) : PodcastPlayer :=
  if p.audio.src ≠ "" then
    { p with audio := { p.audio with paused := false }, isPlaying := true }
  else p

/-- `pause()`. -/
def pause (p : PodcastPlayer) : PodcastPlayer :=
  { p with audio := { p.audio with paused := true }, isPlaying := false }

/-- `togglePlay()`. -/
def togglePlay (p : PodcastPlayer) : PodcastPlayer :=
  if p.isPlaying then p.pause else p.play

/-- `next()`. -/
def next (pf : Platform) (lib : LibraryManager) (p : PodcastPlayer) :
    Step PodcastPlayer (Option Episode) :=
  if p.queue.length = 0 then { player := p, library := lib, result := .ok none }
  else
    let p := { p with currentIndex := (p.currentIndex + 1).tmod p.queue.length }
    let nextEpisode := index p.queue p.currentIndex
    let r := playEpisode pf lib p nextEpisode (some p.queue) p.currentIndex
    { player := r.player, library := r.library,
      result := r.result.map (fun _ => nextEpisode) }

/-- `previous()`. -/
def previous (pf : Platform) (lib : LibraryManager) (p : PodcastPlayer) :
    Step PodcastPlayer (Option Episode) :=
  if p.queue.length = 0 then { player := p, library := lib, result := .ok none }
  else if p.audio.currentTime > 3 then
    { player := { p with audio := p.audio.setCurrentTime 0 }, library := lib,
      result := .ok p.currentEpisode }
  else
    let p := { p with
      currentIndex := (p.currentIndex - 1 + p.queue.length).tmod p.queue.length }
    let prevEpisode := index p.queue p.currentIndex
    let r := playEpisode pf lib p prevEpisode (some p.queue) p.currentIndex
    { player := r.player, library := r.library,
      result := r.result.map (fun _ => prevEpisode) }

/-- `seek(time)`. -/
def seek (p : PodcastPlayer) (time : ℚ) : PodcastPlayer :=
  { p with audio := p.audio.setCurrentTime time }

/-- `setVolume(volume)`. -/
def setVolume (p : PodcastPlayer) (volume : ℚ) : PodcastPlayer :=
  { p with audio := { p.audio with volume := max 0 (min 1 volume) } }

/-- `getVolume()`. -/
def getVolume (p : PodcastPlayer) : ℚ := p.audio.volume

/-- `getCurrentTime()`. -/
def getCurrentTime (p : PodcastPlayer) : ℚ := p.audio.currentTime

/-- `getDuration()`. -/
def getDuration (p : PodcastPlayer) : Option ℚ := p.audio.duration

/-- `onEpisodeEnded()`, the listener of the element's `ended` event. -/
def onEpisodeEnded (pf : Platform) (lib : LibraryManager) (p : PodcastPlayer) :
    Step PodcastPlayer Unit :=
  let lib := match p.currentEpisode with
    | some e => lib.updatePodcastProgress pf.now e.id 0 100
    | none => lib
  if p.currentIndex < (p.queue.length : Int) - 1 then
    let r := next pf lib p
    { player := r.player, library := r.library, result := r.result.map (fun _ => ()) }
  else
    { player := { p with isPlaying := false }, library := lib, result := .ok (),
      emitted := [Notification.onPlaybackEnded] }

/-- `skipForward(seconds = 30)`.  While the duration is unknown (`NaN`) the
minimum is `NaN`, which the element refuses as a position, so the position
stays. -/
def skipForward (p : PodcastPlayer) (seconds : ℚ := 30) : PodcastPlayer :=
  match p.audio.duration with
  | some duration =>
    { p with audio := p.audio.setCurrentTime (min (p.audio.currentTime + seconds) duration) }
  | none => p

/-- `skipBackward(seconds = 30)`. -/
def skipBackward (p : PodcastPlayer) (seconds : ℚ := 30) : PodcastPlayer :=
  { p with audio := p.audio.setCurrentTime (max (p.audio.currentTime - seconds) 0) }

end PodcastPlayer

/-! ## `VibeStreamApp` (app.js) -/

/-- The coordinator once `init()` has built the two engines and
`setupPlayerEvents()` has registered its handlers on them.  `currentMode` and
`activePlayer` hold `'music'` or `'podcast'`; what the methods write to the page
is left out. -/
structure VibeStreamApp where
  library : LibraryManager
  musicPlayer : MusicPlayer
  podcastPlayer : PodcastPlayer
  activePlayer : Option Kind
  currentMode : Kind
  currentPlayingCardId : Option String
  deriving DecidableEq, Repr

namespace VibeStreamApp

/-- `next()`: `getActivePlayerInstance()` is the music engine when `currentMode`
is `'music'` and the podcast engine otherwise, and `next()` is called on it. -/
def next (pf : Platform) (app : VibeStreamApp) : VibeStreamApp × Except PlaybackError Unit :=
  match app.currentMode with
  | Kind.music =>
    let r := app.musicPlayer.next pf app.library
    ({ app with musicPlayer := r.player, library := r.library }, r.result.map (fun _ => ()))
  | Kind.podcast =>
    let r := app.podcastPlayer.next pf app.library
    ({ app with podcastPlayer := r.player, library := r.library }, r.result.map (fun _ => ()))

/-- `onPlaybackEnded()`: calls `this.next()` and does not wait for it. -/
def onPlaybackEnded (pf : Platform) (app : VibeStreamApp) : VibeStreamApp :=
  (app.next pf).1

/-- The handler that `setupPlayerEvents()` registered for a callback of either
engine; the handlers for time updates, metadata and errors only write to the
page. -/
def handle (pf : Platform) (app : VibeStreamApp) : Notification → VibeStreamApp
  | Notification.onPlaybackEnded => app.onPlaybackEnded pf
  | Notification.onPlaybackError => app
  | Notification.onTimeUpdate => app
  | Notification.onMetadataLoaded => app

/-- The `ended` event of the music engine's element: the engine's listener
`onTrackEnded()` runs, and each callback it invokes runs the coordinator's
handler. -/
def musicAudioEnded (pf : Platform) (app : VibeStreamApp) : VibeStreamApp :=
  let r := app.musicPlayer.onTrackEnded pf app.library
  r.emitted.foldl (handle pf) { app with musicPlayer := r.player, library := r.library }

/-- The `ended` event of the podcast engine's element, with `onEpisodeEnded()`
as the listener. -/
def podcastAudioEnded (pf : Platform) (app : VibeStreamApp) : VibeStreamApp :=
  let r := app.podcastPlayer.onEpisodeEnded pf app.library
  r.emitted.foldl (handle pf) { app with podcastPlayer := r.player, library := r.library }

end VibeStreamApp

/-! ## Runs of consecutive calls -/

/-- The cursor after each of the consecutive `next()` calls of a music engine,
one call per element of `pfs`, together with what each call returned. -/
def musicNextRun : List Platform → LibraryManager → MusicPlayer →
    List (Int × Except PlaybackError (Option Track))
  | [], _, _ => []
  | pf :: pfs, lib, p =>
    let r := MusicPlayer.next pf lib p
    (r.player.currentIndex, r.result) :: musicNextRun pfs r.library r.player

/-- The engine after the consecutive `next()` calls of `musicNextRun`. -/
def musicNextEnd : List Platform → LibraryManager → MusicPlayer → MusicPlayer
  | [], _, p => p
  | pf :: pfs, lib, p =>
    let r := MusicPlayer.next pf lib p
    musicNextEnd pfs r.library r.player

/-- The cursor after each of the consecutive `next()` calls of a podcast
engine, together with what each call returned. -/
def podcastNextRun : List Platform → LibraryManager → PodcastPlayer →
    List (Int × Except PlaybackError (Option Episode))
  | [], _, _ => []
  | pf :: pfs, lib, p =>
    let r := PodcastPlayer.next pf lib p
    (r.player.currentIndex, r.result) :: podcastNextRun pfs r.library r.player

/-- The engine after the consecutive `next()` calls of `podcastNextRun`. -/
def podcastNextEnd : List Platform → LibraryManager → PodcastPlayer → PodcastPlayer
  | [], _, p => p
  | pf :: pfs, lib, p =>
    let r := PodcastPlayer.next pf lib p
    podcastNextEnd pfs r.library r.player

/-! ## The invariant of the data model -/

/-- The invariant the data model states for an episode:
`completed == true` iff `percentComplete >= 100` (an absent percentage counts
as 0). -/
def completionInvariant (e : Episode) : Prop :=
  e.completed = some true ↔ orZeroQ e.percentComplete ≥ 100

instance (e : Episode) : Decidable (completionInvariant e) := by
  unfold completionInvariant
  infer_instance

/-! ## The play state of the data model, persist and restore -/

/-- The PlayState of a track as the data model reads it: the play count with an
absent count as 0, and the optional time of the last play. -/
structure TrackPlayState where
  playCount : Nat
  lastPlayed : Option Nat
  deriving DecidableEq, Repr

/-- The PlayState of an episode as the data model reads it, absent numbers as 0
and an absent `completed` as false. -/
structure EpisodePlayState where
  playCount : Nat
  lastPlayed : Option Nat
  position : ℚ
  percentComplete : ℚ
  lastListened : Option Nat
  completed : Bool
  completedAt : Option Nat
  deriving DecidableEq, Repr

/-- The PlayState carried by a track record. -/
def Track.playState (t : Track) : TrackPlayState :=
  { playCount := orZero t.playCount, lastPlayed := t.lastPlayed }

/-- The PlayState carried by an episode record. -/
def Episode.playState (e : Episode) : EpisodePlayState :=
  { playCount := orZero e.playCount, lastPlayed := e.lastPlayed,
    position := orZeroQ e.progress, percentComplete := orZeroQ e.percentComplete,
    lastListened := e.lastListened, completed := e.completed == some true,
    completedAt := e.completedAt }

/-- An episode PlayState with `lastPlayed` left out. -/
def EpisodePlayState.withoutLastPlayed (s : EpisodePlayState) : EpisodePlayState :=
  { s with lastPlayed := none }

/-- A mutating call on the progress store: `recordPlay` is `incrementPlayCount`,
`recordProgress` is `updatePodcastProgress`; `now` is the clock at the call. -/
inductive StoreOp where
  | recordPlay (now : Nat) (id : String) (kind : Kind)
  | recordProgress (now : Nat) (id : String) (position percentComplete : ℚ)

/-- The library manager after one call. -/
def StoreOp.apply (m : LibraryManager) : StoreOp → LibraryManager
  | StoreOp.recordPlay now id kind => m.incrementPlayCount now id kind
  | StoreOp.recordProgress now id position pct => m.updatePodcastProgress now id position pct

/-- The library manager after a sequence of calls, in order. -/
def applyOps (ops : List StoreOp) (m : LibraryManager) : LibraryManager :=
  ops.foldl StoreOp.apply m

/-- Persist and restore: `m` saves its state (`saveToLocalStorage`), then a new
session of the same user loads `catalog` afresh and merges what was saved
(`loadFromLocalStorage`). -/
def restoreOnto (catalog : Library) (m : LibraryManager) : LibraryManager :=
  LibraryManager.loadFromLocalStorage
    { library := some catalog, localStorage := m.saveToLocalStorage.localStorage,
      userId := m.userId }

/-- The library manager after consecutive `incrementPlayCount(id, type)` calls,
one per clock reading of `nows`. -/
def recordPlays (nows : List Nat) (m : LibraryManager) (id : String) (type : Kind) :
    LibraryManager :=
  nows.foldl (fun m now => m.incrementPlayCount now id type) m

/-- The static fields of a track: all but the PlayState. -/
def Track.staticFields (t : Track) :
    String × String × String × Option String × Option String × String × Option String × Nat :=
  (t.id, t.title, t.artist, t.album, t.genre, t.audioFile, t.coverFile, t.addedDate)

/-- The static fields of an episode: all but the PlayState. -/
def Episode.staticFields (e : Episode) :
    String × String × String × Option String × String × Option String × Nat :=
  (e.id, e.title, e.showName, e.description, e.audioFile, e.coverFile, e.addedDate)

/-- An episode that has a position above 0 and a percentage below 100, both
present. -/
def Episode.partlyHeard (e : Episode) : Prop :=
  (∃ pr, e.progress = some pr ∧ 0 < pr) ∧ (∃ pc, e.percentComplete = some pc ∧ pc < 100)

instance (e : Episode) : Decidable e.partlyHeard := by
  unfold Episode.partlyHeard
  cases e.progress <;> cases e.percentComplete <;> simp <;> infer_instance

/-- The match a search is specified by, for a track: the lower-cased query is
a substring of the lower-cased title, of the lower-cased artist, or of the
lower-cased album or genre when the track has one. -/
def Track.matchesQuery (toLowerCase : String → String) (query : String) (t : Track) : Prop :=
  (toLowerCase query).toList <:+: (toLowerCase t.title).toList ∨
  (toLowerCase query).toList <:+: (toLowerCase t.artist).toList ∨
  (∃ a, t.album = some a ∧ (toLowerCase query).toList <:+: (toLowerCase a).toList) ∨
  (∃ g, t.genre = some g ∧ (toLowerCase query).toList <:+: (toLowerCase g).toList)

instance (toLowerCase : String → String) (query : String) (t : Track) :
    Decidable (t.matchesQuery toLowerCase query) := by
  unfold Track.matchesQuery
  cases t.album <;> cases t.genre <;> simp <;> infer_instance

/-- The match a search is specified by, for an episode: the lower-cased query is
a substring of the lower-cased title, of the lower-cased show, or of the
lower-cased description when the episode has one. -/
def Episode.matchesQuery (toLowerCase : String → String) (query : String) (e : Episode) :
    Prop :=
  (toLowerCase query).toList <:+: (toLowerCase e.title).toList ∨
  (toLowerCase query).toList <:+: (toLowerCase e.showName).toList ∨
  (∃ d, e.description = some d ∧ (toLowerCase query).toList <:+: (toLowerCase d).toList)

instance (toLowerCase : String → String) (query : String) (e : Episode) :
    Decidable (e.matchesQuery toLowerCase query) := by
  unfold Episode.matchesQuery
  cases e.description <;> simp <;> infer_instance

/-! ## Sample data -/

/-- A track with the given id and no play state. -/
def sampleTrack (id : String) : Track :=
  { id := id, title := id, artist := "artist", album := none, genre := none,
    audioFile := id ++ ".mp3", coverFile := none, addedDate := 0, playCount := none,
    lastPlayed := none }

/-- An episode with the given id and no play state. -/
def sampleEpisode (id : String) : Episode :=
  { id := id, title := id, showName := "show", description := none,
    audioFile := id ++ ".mp3", coverFile := none, addedDate := 0, playCount := none,
    lastPlayed := none, progress := none, percentComplete := none, lastListened := none,
    completed := none, completedAt := none }

/-- A catalog of three tracks and three episodes. -/
def sampleLibrary : Library :=
  { music := [sampleTrack "t0", sampleTrack "t1", sampleTrack "t2"],
    podcasts := [sampleEpisode "e0", sampleEpisode "e1", sampleEpisode "e2"] }

/-- A saved library: a track that is not in the sample catalog, and track `t1`
with four plays, the last at time 8. -/
def sampleSaved : Library :=
  { music := [{ sampleTrack "gone" with playCount := some 9 },
              { sampleTrack "t1" with playCount := some 4, lastPlayed := some 8 }],
    podcasts := [] }

/-- A library manager that has loaded `sampleLibrary`, with nothing stored. -/
def sampleManager : LibraryManager :=
  { library := some sampleLibrary, localStorage := [], userId := none }

/-- A platform on which every resource opens, with a duration of 600 seconds. -/
def samplePlatform (now : Nat) : Platform :=
  { now := now, random := 0, probe := fun _ => some 600 }

/-- A catalog with play state: track `t2` is the most played and `t1` the
newest; episode `e0` is the newest and completed, `e2` is half heard. -/
def chartLibrary : Library :=
  { music := [{ sampleTrack "t0" with playCount := some 1, addedDate := 10 },
              { sampleTrack "t1" with addedDate := 30 },
              { sampleTrack "t2" with playCount := some 5, addedDate := 20 }],
    podcasts := [{ sampleEpisode "e0" with addedDate := 30, percentComplete := some 100,
                                           completed := some true },
                 { sampleEpisode "e1" with addedDate := 10 },
                 { sampleEpisode "e2" with addedDate := 20, progress := some 50,
                                           percentComplete := some 40 }] }

/-- A library manager that has loaded `chartLibrary`. -/
def chartManager : LibraryManager :=
  { library := some chartLibrary, localStorage := [], userId := none }

/-- A catalog of episodes in different states of progress: `e0` has a
percentage but no position, `e1` a position but the percentage 0, `e2` is partly
heard and has no `lastListened`, `e3` is partly heard and was listened to at
9. -/
def progressLibrary : Library :=
  { music := [],
    podcasts := [{ sampleEpisode "e0" with percentComplete := some 50, lastListened := some 7 },
                 { sampleEpisode "e1" with progress := some 30, percentComplete := some 0,
                                           lastListened := some 5 },
                 { sampleEpisode "e2" with progress := some 50, percentComplete := some 40 },
                 { sampleEpisode "e3" with progress := some 10, percentComplete := some 20,
                                           lastListened := some 9 }] }

/-- A library manager that has loaded `progressLibrary`. -/
def progressManager : LibraryManager :=
  { library := some progressLibrary, localStorage := [], userId := none }

/-- A platform on which no resource opens. -/
def deadPlatform (now : Nat) : Platform :=
  { now := now, random := 0, probe := fun _ => none }

/-- A music engine on the three sample tracks with the cursor at `i`. -/
def sampleMusic (i : Int) : MusicPlayer :=
  { MusicPlayer.new with queue := sampleLibrary.music, currentIndex := i,
                         currentTrack := index sampleLibrary.music i,
                         audio := { Audio.new with src := "t.mp3" } }

/-- A podcast engine on the three sample episodes with the cursor at `i`. -/
def samplePodcast (i : Int) : PodcastPlayer :=
  { PodcastPlayer.new with queue := sampleLibrary.podcasts, currentIndex := i,
                           currentEpisode := index sampleLibrary.podcasts i,
                           audio := { Audio.new with src := "e.mp3" } }

/-- A coordinator in music mode over the sample catalog, its music engine on
the three sample tracks with the cursor at `i`. -/
def sampleApp (i : Int) : VibeStreamApp :=
  { library := sampleManager, musicPlayer := sampleMusic i, podcastPlayer := PodcastPlayer.new,
    activePlayer := some Kind.music, currentMode := Kind.music, currentPlayingCardId := none }

/-- A platform on which every resource opens, with a duration of 600 seconds,
but the ones of track `t1` and of episode `e1`. -/
def brokenPlatform (now : Nat) : Platform :=
  { now := now, random := 0,
    probe := fun src => if src = "t1.mp3" ∨ src = "e1.mp3" then none else some 600 }

/-- The load of track `t0` into a new music engine, with the sample tracks as
queue: the resource opens, so the engine is playing with the cursor at 0. -/
def playingMusic : Step MusicPlayer Bool :=
  MusicPlayer.playTrack (brokenPlatform 1) sampleManager MusicPlayer.new
    (some (sampleTrack "t0")) (some sampleLibrary.music) 0

/-- The load of episode `e2` into a new podcast engine, with the sample
episodes as queue: the resource opens, so the engine is playing with the cursor
at 2. -/
def playingPodcast : Step PodcastPlayer Bool :=
  PodcastPlayer.playEpisode (brokenPlatform 1) sampleManager PodcastPlayer.new
    (some (sampleEpisode "e2")) (some sampleLibrary.podcasts) 2

/-! ## Lemmas on the audio element -/

theorem setCurrentTime_zero (a : Audio) :
    a.setCurrentTime 0 = { a with currentTime := 0 } := by
  unfold Audio.setCurrentTime
  cases a.duration with
  | none => rfl
  | some d =>
    have h : max (0 : ℚ) (min d 0) = 0 := max_eq_left (min_le_right d 0)
    simp only [h]

theorem setCurrentTime_fields (a : Audio) (t : ℚ) :
    (a.setCurrentTime t).src = a.src ∧ (a.setCurrentTime t).duration = a.duration ∧
    (a.setCurrentTime t).volume = a.volume ∧ (a.setCurrentTime t).paused = a.paused ∧
    (a.setCurrentTime t).playbackRate = a.playbackRate := by
  unfold Audio.setCurrentTime
  cases a.duration <;> simp

theorem setCurrentTime_known (a : Audio) (t d : ℚ) (h : a.duration = some d) :
    a.setCurrentTime t = { a with currentTime := max 0 (min d t) } := by
  unfold Audio.setCurrentTime
  rw [h]

theorem setCurrentTime_unknown (a : Audio) (t : ℚ) (h : a.duration = none) :
    a.setCurrentTime t = { a with currentTime := t } := by
  unfold Audio.setCurrentTime
  rw [h]

theorem setCurrentTime_in_range (a : Audio) (t d : ℚ) (h : a.duration = some d)
    (h0 : 0 ≤ t) (h1 : t ≤ d) :
    a.setCurrentTime t = { a with currentTime := t } := by
  rw [setCurrentTime_known a t d h, min_eq_right h1, max_eq_right h0]

/-! ## Lemmas on the cursor arithmetic -/

theorem tmod_cursor (a : Int) (n : Nat) (ha : 0 ≤ a) : a.tmod (n : Int) = a % (n : Int) :=
  Int.tmod_eq_emod ha (Int.ofNat_nonneg n)

theorem cursor_in_range (a : Int) (n : Nat) (hn : 0 < n) :
    0 ≤ a % (n : Int) ∧ a % (n : Int) < (n : Int) :=
  ⟨Int.emod_nonneg a (by omega), Int.emod_lt_of_pos a (by omega)⟩

theorem index_isSome {α : Type} (arr : List α) (i : Int) (h0 : 0 ≤ i)
    (h1 : i < (arr.length : Int)) : ∃ x, index arr i = some x := by
  have hlt : i.toNat < arr.length := by omega
  refine ⟨arr.get ⟨i.toNat, hlt⟩, ?_⟩
  simp [index, h0, List.getElem?_eq_getElem hlt]

/-! ## Lemmas on one `next()` call -/

theorem music_next_step (pf : Platform) (lib : LibraryManager) (p : MusicPlayer)
    (hq : p.queue ≠ []) (hs : p.isShuffle = false) (hi : 0 ≤ p.currentIndex)
    (hopen : ∀ t ∈ p.queue, (pf.probe t.audioFile).isSome) :
    (MusicPlayer.next pf lib p).player.queue = p.queue ∧
    (MusicPlayer.next pf lib p).player.isShuffle = false ∧
    (MusicPlayer.next pf lib p).player.currentIndex
      = (p.currentIndex + 1) % (p.queue.length : Int) ∧
    (MusicPlayer.next pf lib p).result
      = .ok (index p.queue ((p.currentIndex + 1) % (p.queue.length : Int))) := by
  have hlen : 0 < p.queue.length := List.length_pos.mpr hq
  have hne : p.queue.length ≠ 0 := by omega
  have hc := cursor_in_range (p.currentIndex + 1) p.queue.length hlen
  obtain ⟨t, ht⟩ := index_isSome p.queue _ hc.1 hc.2
  have htm : t ∈ p.queue := by
    simp only [index, hc.1, if_true] at ht
    exact List.get?_mem ht
  obtain ⟨d, hd⟩ := Option.isSome_iff_exists.mp (hopen t htm)
  simp [MusicPlayer.next, hne, hs, MusicPlayer.playTrack, tmod_cursor _ _ (show (0:Int) ≤ p.currentIndex + 1 by omega), ht, hd, Except.map]

theorem podcast_next_step (pf : Platform) (lib : LibraryManager) (p : PodcastPlayer)
    (hq : p.queue ≠ []) (hi : 0 ≤ p.currentIndex)
    (hopen : ∀ e ∈ p.queue, (pf.probe e.audioFile).isSome) :
    (PodcastPlayer.next pf lib p).player.queue = p.queue ∧
    (PodcastPlayer.next pf lib p).player.currentIndex
      = (p.currentIndex + 1) % (p.queue.length : Int) ∧
    (PodcastPlayer.next pf lib p).result
      = .ok (index p.queue ((p.currentIndex + 1) % (p.queue.length : Int))) := by
  have hlen : 0 < p.queue.length := List.length_pos.mpr hq
  have hne : p.queue.length ≠ 0 := by omega
  have hc := cursor_in_range (p.currentIndex + 1) p.queue.length hlen
  obtain ⟨e, he⟩ := index_isSome p.queue _ hc.1 hc.2
  have hem : e ∈ p.queue := by
    simp only [index, hc.1, if_true] at he
    exact List.get?_mem he
  obtain ⟨d, hd⟩ := Option.isSome_iff_exists.mp (hopen e hem)
  simp [PodcastPlayer.next, hne, PodcastPlayer.playEpisode,
    tmod_cursor _ _ (show (0:Int) ≤ p.currentIndex + 1 by omega), he, hd, Except.map]

/-! ## Lemmas on the library -/

theorem find_updateFirst {α : Type} (p : α → Bool) (f : α → α) (hf : ∀ x, p (f x) = p x) :
    ∀ l : List α, (LibraryManager.updateFirst p f l).find? p = (l.find? p).map f := by
  intro l
  induction l with
  | nil => rfl
  | cons x xs ih =>
    by_cases hx : p x = true
    · simp [LibraryManager.updateFirst, hx, List.find?, hf]
    · simp [LibraryManager.updateFirst, hx, List.find?, ih]

theorem applyProgress_id (now : Nat) (progress pct : ℚ) (e : Episode) :
    (LibraryManager.applyProgress now progress pct e).id = e.id := by
  unfold LibraryManager.applyProgress
  by_cases h : pct ≥ 100 <;> simp [h]

theorem getPodcastById_updatePodcastProgress (now : Nat) (m : LibraryManager) (id : String)
    (progress pct : ℚ) (e0 : Episode) (h : m.getPodcastById id = some e0) :
    (m.updatePodcastProgress now id progress pct).getPodcastById id
      = some (LibraryManager.applyProgress now progress pct e0) := by
  cases hl : m.library with
  | none => simp [LibraryManager.getPodcastById, LibraryManager.getAllPodcasts, hl] at h
  | some l =>
    have h2 : l.podcasts.find? (fun ep => ep.id == id) = some e0 := by
      simpa [LibraryManager.getPodcastById, LibraryManager.getAllPodcasts, hl] using h
    have hfind := find_updateFirst (fun ep : Episode => ep.id == id)
      (LibraryManager.applyProgress now progress pct)
      (fun x => by simp [applyProgress_id]) l.podcasts
    simp only [LibraryManager.updatePodcastProgress, h, hl, LibraryManager.saveToLocalStorage,
      LibraryManager.getPodcastById, LibraryManager.getAllPodcasts, hfind, h2, Option.map_some']

/-! ## Lemmas on persist and restore -/

theorem find_of_nodup {α : Type} (key : α → String) :
    ∀ (l : List α), (l.map key).Nodup → ∀ x ∈ l,
      l.find? (fun t => key t == key x) = some x := by
  intro l
  induction l with
  | nil => intro _ x hx; cases hx
  | cons a l ih =>
    intro hnd x hx
    rw [List.map_cons, List.nodup_cons] at hnd
    rcases List.mem_cons.mp hx with h | h
    · subst h
      simp [List.find?]
    · have hne : key a ≠ key x := by
        intro heq
        exact hnd.1 (heq ▸ List.mem_map_of_mem key h)
      have hb : (key a == key x) = false := by simpa using hne
      rw [List.find?, hb]
      exact ih hnd.2 x h

theorem updateFirst_map_key {α : Type} (key : α → String) (p : α → Bool) (f : α → α)
    (hf : ∀ x, key (f x) = key x) :
    ∀ l : List α, (LibraryManager.updateFirst p f l).map key = l.map key := by
  intro l
  induction l with
  | nil => rfl
  | cons x xs ih =>
    by_cases hx : p x = true
    · simp [LibraryManager.updateFirst, hx, hf]
    · simp [LibraryManager.updateFirst, hx, ih]

theorem getItem_setItem (store : List (String × Option Library)) (key : String)
    (value : Option Library) :
    LibraryManager.getItem (LibraryManager.setItem store key value) key = some value := by
  simp [LibraryManager.getItem, LibraryManager.setItem, List.find?]

/-- What the calls on the progress store keep of a catalog: the library stays
loaded, with the same ids in the same order, for the same user. -/
theorem apply_keeps_ids (music podcasts : List String) (uid : Option String)
    (op : StoreOp) (m : LibraryManager)
    (h : ∃ L, m.library = some L ∧ L.music.map Track.id = music ∧
      L.podcasts.map Episode.id = podcasts ∧ m.userId = uid) :
    ∃ L, (op.apply m).library = some L ∧ L.music.map Track.id = music ∧
      L.podcasts.map Episode.id = podcasts ∧ (op.apply m).userId = uid := by
  obtain ⟨L, hL, hmu, hpo, hu⟩ := h
  cases op with
  | recordPlay now id kind =>
    cases kind with
    | music =>
      cases hf : m.getMusicById id with
      | none =>
        exact ⟨L, by simp [StoreOp.apply, LibraryManager.incrementPlayCount, hf, hL], hmu, hpo,
          by simp [StoreOp.apply, LibraryManager.incrementPlayCount, hf, hu]⟩
      | some t =>
        refine ⟨{ L with music := (LibraryManager.updateFirst (fun track => track.id == id)
            (fun item => { item with playCount := some (orZero item.playCount + 1),
                                     lastPlayed := some now }) L.music) }, ?_, ?_, hpo, ?_⟩
        · simp only [StoreOp.apply, LibraryManager.incrementPlayCount, hf, hL,
            LibraryManager.saveToLocalStorage]
        · rw [← hmu]
          exact updateFirst_map_key Track.id (fun track => track.id == id)
            (fun item => { item with playCount := some (orZero item.playCount + 1),
                                     lastPlayed := some now }) (fun _ => rfl) L.music
        · simp [StoreOp.apply, LibraryManager.incrementPlayCount, hf, hL,
            LibraryManager.saveToLocalStorage, hu]
    | podcast =>
      cases hf : m.getPodcastById id with
      | none =>
        exact ⟨L, by simp [StoreOp.apply, LibraryManager.incrementPlayCount, hf, hL], hmu, hpo,
          by simp [StoreOp.apply, LibraryManager.incrementPlayCount, hf, hu]⟩
      | some e =>
        refine ⟨{ L with podcasts := (LibraryManager.updateFirst (fun ep => ep.id == id)
            (fun item => { item with playCount := some (orZero item.playCount + 1),
                                     lastPlayed := some now }) L.podcasts) }, ?_, hmu, ?_, ?_⟩
        · simp only [StoreOp.apply, LibraryManager.incrementPlayCount, hf, hL,
            LibraryManager.saveToLocalStorage]
        · rw [← hpo]
          exact updateFirst_map_key Episode.id (fun ep => ep.id == id)
            (fun item => { item with playCount := some (orZero item.playCount + 1),
                                     lastPlayed := some now }) (fun _ => rfl) L.podcasts
        · simp [StoreOp.apply, LibraryManager.incrementPlayCount, hf, hL,
            LibraryManager.saveToLocalStorage, hu]
  | recordProgress now id position pct =>
    cases hf : m.getPodcastById id with
    | none =>
      exact ⟨L, by simp [StoreOp.apply, LibraryManager.updatePodcastProgress, hf, hL], hmu, hpo,
        by simp [StoreOp.apply, LibraryManager.updatePodcastProgress, hf, hu]⟩
    | some e =>
      refine ⟨{ L with podcasts := (LibraryManager.updateFirst (fun ep => ep.id == id)
          (LibraryManager.applyProgress now position pct) L.podcasts) }, ?_, hmu, ?_, ?_⟩
      · simp only [StoreOp.apply, LibraryManager.updatePodcastProgress, hf, hL,
          LibraryManager.saveToLocalStorage]
      · rw [← hpo]
        exact updateFirst_map_key Episode.id _ _ (applyProgress_id now position pct) L.podcasts
      · simp [StoreOp.apply, LibraryManager.updatePodcastProgress, hf, hL,
          LibraryManager.saveToLocalStorage, hu]

theorem applyOps_keeps_ids (music podcasts : List String) (uid : Option String)
    (ops : List StoreOp) :
    ∀ m : LibraryManager,
      (∃ L, m.library = some L ∧ L.music.map Track.id = music ∧
        L.podcasts.map Episode.id = podcasts ∧ m.userId = uid) →
      ∃ L, (applyOps ops m).library = some L ∧ L.music.map Track.id = music ∧
        L.podcasts.map Episode.id = podcasts ∧ (applyOps ops m).userId = uid := by
  induction ops with
  | nil => intro m h; exact h
  | cons op ops ih =>
    intro m h
    exact ih (op.apply m) (apply_keeps_ids music podcasts uid op m h)

theorem mergeTrack_playState (whole : List Track) (hnd : (whole.map Track.id).Nodup) :
    ∀ (lc ls : List Track), lc.map Track.id = ls.map Track.id → (∀ x ∈ ls, x ∈ whole) →
      (lc.map (LibraryManager.mergeTrack whole)).map Track.playState
        = ls.map Track.playState := by
  intro lc
  induction lc with
  | nil =>
    intro ls hids _
    cases ls with
    | nil => rfl
    | cons s ls => simp at hids
  | cons c lc ih =>
    intro ls hids hsub
    cases ls with
    | nil => simp at hids
    | cons s ls =>
      simp only [List.map_cons, List.cons.injEq] at hids
      have hfind := find_of_nodup Track.id whole hnd s (hsub s (List.mem_cons_self _ _))
      rw [← hids.1] at hfind
      simp only [List.map_cons]
      rw [ih ls hids.2 (fun x hx => hsub x (List.mem_cons_of_mem _ hx))]
      congr 1
      simp [LibraryManager.mergeTrack, hfind, Track.playState, orZero]

theorem mergeEpisode_playState (whole : List Episode) (hnd : (whole.map Episode.id).Nodup) :
    ∀ (lc ls : List Episode), lc.map Episode.id = ls.map Episode.id → (∀ x ∈ ls, x ∈ whole) →
      (lc.map (LibraryManager.mergeEpisode whole)).map
          (fun e => e.playState.withoutLastPlayed)
        = ls.map (fun e => e.playState.withoutLastPlayed) ∧
      (lc.map (LibraryManager.mergeEpisode whole)).map Episode.lastPlayed
        = lc.map Episode.lastPlayed := by
  intro lc
  induction lc with
  | nil =>
    intro ls hids _
    cases ls with
    | nil => exact ⟨rfl, rfl⟩
    | cons s ls => simp at hids
  | cons c lc ih =>
    intro ls hids hsub
    cases ls with
    | nil => simp at hids
    | cons s ls =>
      simp only [List.map_cons, List.cons.injEq] at hids
      have hfind := find_of_nodup Episode.id whole hnd s (hsub s (List.mem_cons_self _ _))
      rw [← hids.1] at hfind
      obtain ⟨ih1, ih2⟩ := ih ls hids.2 (fun x hx => hsub x (List.mem_cons_of_mem _ hx))
      simp only [List.map_cons]
      rw [ih1, ih2]
      constructor
      · congr 1
        simp [LibraryManager.mergeEpisode, hfind, Episode.playState,
          EpisodePlayState.withoutLastPlayed, orZero, orZeroQ]
      · congr 1
        simp [LibraryManager.mergeEpisode, hfind]

/-- Persist and restore on a catalog with unique ids, after any calls on the
progress store: the restored library reproduces the PlayState of every track,
and of every episode apart from `lastPlayed`, which is the one the catalog was
loaded with. -/
theorem restore_roundtrip_but_episode_lastPlayed (cat : Library)
    (store : List (String × Option Library)) (uid : Option String) (ops : List StoreOp)
    (hm : (cat.music.map Track.id).Nodup) (hp : (cat.podcasts.map Episode.id).Nodup) :
    ∃ L R, (applyOps ops { library := some cat, localStorage := store, userId := uid }).library
        = some L ∧
      (restoreOnto cat
        (applyOps ops { library := some cat, localStorage := store, userId := uid })).library
        = some R ∧
      R.music.map Track.playState = L.music.map Track.playState ∧
      R.podcasts.map (fun e => e.playState.withoutLastPlayed)
        = L.podcasts.map (fun e => e.playState.withoutLastPlayed) ∧
      R.podcasts.map Episode.lastPlayed = cat.podcasts.map Episode.lastPlayed := by
  obtain ⟨L, hL, hmu, hpo, hu⟩ := applyOps_keeps_ids (cat.music.map Track.id)
    (cat.podcasts.map Episode.id) uid ops
    { library := some cat, localStorage := store, userId := uid } ⟨cat, rfl, rfl, rfl, rfl⟩
  have hndm : (L.music.map Track.id).Nodup := by rw [hmu]; exact hm
  have hndp : (L.podcasts.map Episode.id).Nodup := by rw [hpo]; exact hp
  have hrest : (restoreOnto cat
      (applyOps ops { library := some cat, localStorage := store, userId := uid })).library
      = some { music := cat.music.map (LibraryManager.mergeTrack L.music),
               podcasts := cat.podcasts.map (LibraryManager.mergeEpisode L.podcasts) } := by
    simp only [restoreOnto, LibraryManager.loadFromLocalStorage, LibraryManager.saveToLocalStorage,
      LibraryManager.storageKey, getItem_setItem, hL, LibraryManager.mergeLibraries]
  obtain ⟨he1, he2⟩ := mergeEpisode_playState L.podcasts hndp cat.podcasts L.podcasts hpo.symm
    (fun _ hx => hx)
  exact ⟨L, _, hL, hrest,
    mergeTrack_playState L.music hndm cat.music L.music hmu.symm (fun _ hx => hx), he1, he2⟩

/-! ## Lemmas on a load and on `previous()` -/

theorem playTrack_some_fields (pf : Platform) (lib : LibraryManager) (p : MusicPlayer)
    (t : Track) (q : List Track) (i : Int) :
    (MusicPlayer.playTrack pf lib p (some t) (some q) i).player.currentIndex = i ∧
    (MusicPlayer.playTrack pf lib p (some t) (some q) i).player.queue = q ∧
    (MusicPlayer.playTrack pf lib p (some t) (some q) i).player.currentTrack = some t ∧
    (MusicPlayer.playTrack pf lib p (some t) (some q) i).player.audio.src = t.audioFile ∧
    (MusicPlayer.playTrack pf lib p (some t) (some q) i).player.isShuffle = p.isShuffle ∧
    (MusicPlayer.playTrack pf lib p (some t) (some q) i).player.repeatMode = p.repeatMode := by
  cases h : pf.probe t.audioFile <;>
    simp [MusicPlayer.playTrack, h, Audio.load, Audio.opened]

theorem playTrack_some_ok (pf : Platform) (lib : LibraryManager) (p : MusicPlayer)
    (t : Track) (q : List Track) (i : Int) (d : ℚ) (hd : pf.probe t.audioFile = some d) :
    (MusicPlayer.playTrack pf lib p (some t) (some q) i).result = .ok true ∧
    (MusicPlayer.playTrack pf lib p (some t) (some q) i).player.isPlaying = true ∧
    (MusicPlayer.playTrack pf lib p (some t) (some q) i).player.audio.currentTime = 0 ∧
    (MusicPlayer.playTrack pf lib p (some t) (some q) i).library
      = lib.incrementPlayCount pf.now t.id Kind.music := by
  unfold MusicPlayer.playTrack
  simp [hd, Audio.load, Audio.opened]

theorem playEpisode_some_fields (pf : Platform) (lib : LibraryManager) (p : PodcastPlayer)
    (e : Episode) (q : List Episode) (i : Int) :
    (PodcastPlayer.playEpisode pf lib p (some e) (some q) i).player.currentIndex = i ∧
    (PodcastPlayer.playEpisode pf lib p (some e) (some q) i).player.queue = q ∧
    (PodcastPlayer.playEpisode pf lib p (some e) (some q) i).player.currentEpisode = some e ∧
    (PodcastPlayer.playEpisode pf lib p (some e) (some q) i).player.audio.src = e.audioFile := by
  have hsrc : ∀ a : Audio, (PodcastPlayer.resume a e).src = a.src := by
    intro a
    unfold PodcastPlayer.resume
    cases e.progress with
    | none => rfl
    | some pr => by_cases h : pr > 0 <;> simp [h, (setCurrentTime_fields a pr).1]
  cases h : pf.probe e.audioFile <;>
    simp [PodcastPlayer.playEpisode, h, Audio.load, Audio.opened, hsrc]

theorem playEpisode_some_ok (pf : Platform) (lib : LibraryManager) (p : PodcastPlayer)
    (e : Episode) (q : List Episode) (i : Int) (d : ℚ) (hd : pf.probe e.audioFile = some d) :
    (PodcastPlayer.playEpisode pf lib p (some e) (some q) i).result = .ok true ∧
    (PodcastPlayer.playEpisode pf lib p (some e) (some q) i).player.isPlaying = true ∧
    (PodcastPlayer.playEpisode pf lib p (some e) (some q) i).library
      = lib.incrementPlayCount pf.now e.id Kind.podcast := by
  unfold PodcastPlayer.playEpisode
  simp [hd]

theorem music_previous_eq (pf : Platform) (lib : LibraryManager) (p : MusicPlayer)
    (hq : p.queue ≠ []) (hs : p.isShuffle = false) (hi : 0 ≤ p.currentIndex)
    (ht : p.audio.currentTime ≤ 3) (c : Int)
    (hc : c = (p.currentIndex - 1 + (p.queue.length : Int)) % (p.queue.length : Int)) :
    MusicPlayer.previous pf lib p =
      { player := (MusicPlayer.playTrack pf lib { p with currentIndex := c }
            (index p.queue c) (some p.queue) c).player,
        library := (MusicPlayer.playTrack pf lib { p with currentIndex := c }
            (index p.queue c) (some p.queue) c).library,
        result := (MusicPlayer.playTrack pf lib { p with currentIndex := c }
            (index p.queue c) (some p.queue) c).result.map (fun _ => index p.queue c) } := by
  have hlen : 0 < p.queue.length := List.length_pos.mpr hq
  have hne : p.queue.length ≠ 0 := by omega
  have hnt : ¬ p.audio.currentTime > 3 := not_lt.mpr ht
  have htm := tmod_cursor (p.currentIndex - 1 + (p.queue.length : Int)) p.queue.length
    (by omega)
  unfold MusicPlayer.previous
  rw [if_neg hne, if_neg hnt]
  simp only [hs, htm, ← hc, Bool.false_eq_true, if_false]

theorem podcast_previous_eq (pf : Platform) (lib : LibraryManager) (p : PodcastPlayer)
    (hq : p.queue ≠ []) (hi : 0 ≤ p.currentIndex)
    (ht : p.audio.currentTime ≤ 3) (c : Int)
    (hc : c = (p.currentIndex - 1 + (p.queue.length : Int)) % (p.queue.length : Int)) :
    PodcastPlayer.previous pf lib p =
      { player := (PodcastPlayer.playEpisode pf lib { p with currentIndex := c }
            (index p.queue c) (some p.queue) c).player,
        library := (PodcastPlayer.playEpisode pf lib { p with currentIndex := c }
            (index p.queue c) (some p.queue) c).library,
        result := (PodcastPlayer.playEpisode pf lib { p with currentIndex := c }
            (index p.queue c) (some p.queue) c).result.map (fun _ => index p.queue c) } := by
  have hlen : 0 < p.queue.length := List.length_pos.mpr hq
  have hne : p.queue.length ≠ 0 := by omega
  have hnt : ¬ p.audio.currentTime > 3 := not_lt.mpr ht
  have htm := tmod_cursor (p.currentIndex - 1 + (p.queue.length : Int)) p.queue.length
    (by omega)
  unfold PodcastPlayer.previous
  rw [if_neg hne, if_neg hnt]
  simp only [htm, ← hc]

theorem music_next_eq (pf : Platform) (lib : LibraryManager) (p : MusicPlayer)
    (hq : p.queue ≠ []) (hs : p.isShuffle = false) (hi : 0 ≤ p.currentIndex) (c : Int)
    (hc : c = (p.currentIndex + 1) % (p.queue.length : Int)) :
    MusicPlayer.next pf lib p =
      { player := (MusicPlayer.playTrack pf lib { p with currentIndex := c }
            (index p.queue c) (some p.queue) c).player,
        library := (MusicPlayer.playTrack pf lib { p with currentIndex := c }
            (index p.queue c) (some p.queue) c).library,
        result := (MusicPlayer.playTrack pf lib { p with currentIndex := c }
            (index p.queue c) (some p.queue) c).result.map (fun _ => index p.queue c) } := by
  have hlen : 0 < p.queue.length := List.length_pos.mpr hq
  have hne : p.queue.length ≠ 0 := by omega
  have htm := tmod_cursor (p.currentIndex + 1) p.queue.length (by omega)
  unfold MusicPlayer.next
  rw [if_neg hne]
  simp only [hs, htm, ← hc, Bool.false_eq_true, if_false]

/-! ## Lemmas on runs of `next()` calls -/

/-- The cursor reached `k + 1` calls after cursor `i` in a queue of length `n`. -/
theorem cursor_shift (i : Int) (n : Nat) (k : Nat) :
    ((i + 1) % (n : Int) + 1 + (k : Int)) % (n : Int)
      = (i + 1 + ((k + 1 : Nat) : Int)) % (n : Int) := by
  rw [add_assoc, Int.emod_add_emod]
  congr 1
  push_cast
  ring

theorem musicNextRun_eq (pfs : List Platform) :
    ∀ (lib : LibraryManager) (p : MusicPlayer), p.queue ≠ [] → p.isShuffle = false →
      0 ≤ p.currentIndex →
      (∀ pf ∈ pfs, ∀ t ∈ p.queue, (pf.probe t.audioFile).isSome) →
      musicNextRun pfs lib p = (List.range pfs.length).map (fun k : Nat =>
        ((p.currentIndex + 1 + (k : Int)) % (p.queue.length : Int),
         Except.ok (index p.queue ((p.currentIndex + 1 + (k : Int)) % (p.queue.length : Int))))) := by
  induction pfs with
  | nil => intro lib p _ _ _ _; simp [musicNextRun]
  | cons pf pfs ih =>
    intro lib p hq hs hi hopen
    have hstep := music_next_step pf lib p hq hs hi
      (hopen pf (List.mem_cons_self _ _))
    obtain ⟨h1, h2, h3, h4⟩ := hstep
    have hlen : 0 < p.queue.length := List.length_pos.mpr hq
    have hc := cursor_in_range (p.currentIndex + 1) p.queue.length hlen
    have ih2 := ih (MusicPlayer.next pf lib p).library (MusicPlayer.next pf lib p).player
      (by rw [h1]; exact hq) h2 (by rw [h3]; exact hc.1)
      (by rw [h1]; exact fun pf2 hpf2 => hopen pf2 (List.mem_cons_of_mem _ hpf2))
    simp only [musicNextRun, List.length_cons, List.range_succ_eq_map, List.map_cons,
      List.map_map]
    rw [ih2, h1, h3, h4]
    congr 1
    · simp
    · apply List.map_congr_left
      intro k _
      simp only [Function.comp, Nat.succ_eq_add_one]
      rw [cursor_shift]

theorem musicNextEnd_cursor (pfs : List Platform) :
    ∀ (lib : LibraryManager) (p : MusicPlayer), p.queue ≠ [] → p.isShuffle = false →
      0 ≤ p.currentIndex → p.currentIndex < (p.queue.length : Int) →
      (∀ pf ∈ pfs, ∀ t ∈ p.queue, (pf.probe t.audioFile).isSome) →
      (musicNextEnd pfs lib p).currentIndex
        = (p.currentIndex + (pfs.length : Int)) % (p.queue.length : Int) := by
  induction pfs with
  | nil =>
    intro lib p _ _ hi hl _
    simp [musicNextEnd, Int.emod_eq_of_lt hi hl]
  | cons pf pfs ih =>
    intro lib p hq hs hi _ hopen
    obtain ⟨h1, h2, h3, _⟩ := music_next_step pf lib p hq hs hi
      (hopen pf (List.mem_cons_self _ _))
    have hlen : 0 < p.queue.length := List.length_pos.mpr hq
    have hc := cursor_in_range (p.currentIndex + 1) p.queue.length hlen
    have ih2 := ih (MusicPlayer.next pf lib p).library (MusicPlayer.next pf lib p).player
      (by rw [h1]; exact hq) h2 (by rw [h3]; exact hc.1) (by rw [h1, h3]; exact hc.2)
      (by rw [h1]; exact fun pf2 hpf2 => hopen pf2 (List.mem_cons_of_mem _ hpf2))
    simp only [musicNextEnd, List.length_cons]
    rw [ih2, h1, h3, Int.emod_add_emod]
    congr 1
    push_cast
    ring

theorem podcastNextRun_eq (pfs : List Platform) :
    ∀ (lib : LibraryManager) (p : PodcastPlayer), p.queue ≠ [] →
      0 ≤ p.currentIndex →
      (∀ pf ∈ pfs, ∀ e ∈ p.queue, (pf.probe e.audioFile).isSome) →
      podcastNextRun pfs lib p = (List.range pfs.length).map (fun k : Nat =>
        ((p.currentIndex + 1 + (k : Int)) % (p.queue.length : Int),
         Except.ok (index p.queue ((p.currentIndex + 1 + (k : Int)) % (p.queue.length : Int))))) := by
  induction pfs with
  | nil => intro lib p _ _ _; simp [podcastNextRun]
  | cons pf pfs ih =>
    intro lib p hq hi hopen
    obtain ⟨h1, h3, h4⟩ := podcast_next_step pf lib p hq hi
      (hopen pf (List.mem_cons_self _ _))
    have hlen : 0 < p.queue.length := List.length_pos.mpr hq
    have hc := cursor_in_range (p.currentIndex + 1) p.queue.length hlen
    have ih2 := ih (PodcastPlayer.next pf lib p).library (PodcastPlayer.next pf lib p).player
      (by rw [h1]; exact hq) (by rw [h3]; exact hc.1)
      (by rw [h1]; exact fun pf2 hpf2 => hopen pf2 (List.mem_cons_of_mem _ hpf2))
    simp only [podcastNextRun, List.length_cons, List.range_succ_eq_map, List.map_cons,
      List.map_map]
    rw [ih2, h1, h3, h4]
    congr 1
    · simp
    · apply List.map_congr_left
      intro k _
      simp only [Function.comp, Nat.succ_eq_add_one]
      rw [cursor_shift]

theorem podcastNextEnd_cursor (pfs : List Platform) :
    ∀ (lib : LibraryManager) (p : PodcastPlayer), p.queue ≠ [] →
      0 ≤ p.currentIndex → p.currentIndex < (p.queue.length : Int) →
      (∀ pf ∈ pfs, ∀ e ∈ p.queue, (pf.probe e.audioFile).isSome) →
      (podcastNextEnd pfs lib p).currentIndex
        = (p.currentIndex + (pfs.length : Int)) % (p.queue.length : Int) := by
  induction pfs with
  | nil =>
    intro lib p _ hi hl _
    simp [podcastNextEnd, Int.emod_eq_of_lt hi hl]
  | cons pf pfs ih =>
    intro lib p hq hi _ hopen
    obtain ⟨h1, h3, _⟩ := podcast_next_step pf lib p hq hi
      (hopen pf (List.mem_cons_self _ _))
    have hlen : 0 < p.queue.length := List.length_pos.mpr hq
    have hc := cursor_in_range (p.currentIndex + 1) p.queue.length hlen
    have ih2 := ih (PodcastPlayer.next pf lib p).library (PodcastPlayer.next pf lib p).player
      (by rw [h1]; exact hq) (by rw [h3]; exact hc.1) (by rw [h1, h3]; exact hc.2)
      (by rw [h1]; exact fun pf2 hpf2 => hopen pf2 (List.mem_cons_of_mem _ hpf2))
    simp only [podcastNextEnd, List.length_cons]
    rw [ih2, h1, h3, Int.emod_add_emod]
    congr 1
    push_cast
    ring

/-- In one full cycle of the circular rule from cursor `i`, every index of
`[0, n)` occurs exactly once. -/
theorem cycle_count_one (i : Int) (n : Nat) (j : Nat) (hj : j < n) :
    ((List.range n).map (fun k : Nat => (i + 1 + (k : Int)) % (n : Int))).count (j : Int) = 1 := by
  have hn : (0 : Int) < (n : Int) := by omega
  apply List.count_eq_one_of_mem
  · apply List.Nodup.map_on _ (List.nodup_range n)
    intro x hx y hy hxy
    rw [List.mem_range] at hx hy
    have h1 : ((x : Int)) ≡ (y : Int) [ZMOD (n : Int)] :=
      Int.ModEq.add_left_cancel' (i + 1) hxy
    have h2 : (x : Int) % (n : Int) = (y : Int) % (n : Int) := h1
    rw [Int.emod_eq_of_lt (by omega) (by omega), Int.emod_eq_of_lt (by omega) (by omega)] at h2
    exact_mod_cast h2
  · rw [List.mem_map]
    have hk := cursor_in_range ((j : Int) - i - 1) n (by omega)
    refine ⟨(((j : Int) - i - 1) % (n : Int)).toNat, ?_, ?_⟩
    · rw [List.mem_range]
      omega
    · rw [Int.toNat_of_nonneg hk.1, Int.add_emod_emod]
      have : i + 1 + ((j : Int) - i - 1) = (j : Int) := by ring
      rw [this]
      exact Int.emod_eq_of_lt (by omega) (by omega)

/-! ## The claims -/

/-- C1. In the music engine with shuffle off, and in the podcast engine, from a
non-empty queue of length `len` and a cursor `i` with `0 ≤ i < len`, when every
load succeeds, `len` consecutive `next()` calls set the cursor to `(i+1) % len`,
`(i+2) % len`, ... and return the item at the new cursor each time; every index
of `[0, len)` is visited exactly once and the cursor is `i` again after the
last call. -/
theorem next_full_cycle :
    (∀ (pfs : List Platform) (lib : LibraryManager) (p : MusicPlayer),
      p.queue ≠ [] → p.isShuffle = false →
      0 ≤ p.currentIndex → p.currentIndex < (p.queue.length : Int) →
      pfs.length = p.queue.length →
      (∀ pf ∈ pfs, ∀ t ∈ p.queue, (pf.probe t.audioFile).isSome) →
      musicNextRun pfs lib p = (List.range p.queue.length).map (fun k : Nat =>
        ((p.currentIndex + 1 + (k : Int)) % (p.queue.length : Int),
         Except.ok (index p.queue ((p.currentIndex + 1 + (k : Int)) % (p.queue.length : Int)))))
      ∧ (∀ j : Nat, j < p.queue.length →
          ((musicNextRun pfs lib p).map Prod.fst).count (j : Int) = 1)
      ∧ (musicNextEnd pfs lib p).currentIndex = p.currentIndex) ∧
    (∀ (pfs : List Platform) (lib : LibraryManager) (p : PodcastPlayer),
      p.queue ≠ [] →
      0 ≤ p.currentIndex → p.currentIndex < (p.queue.length : Int) →
      pfs.length = p.queue.length →
      (∀ pf ∈ pfs, ∀ e ∈ p.queue, (pf.probe e.audioFile).isSome) →
      podcastNextRun pfs lib p = (List.range p.queue.length).map (fun k : Nat =>
        ((p.currentIndex + 1 + (k : Int)) % (p.queue.length : Int),
         Except.ok (index p.queue ((p.currentIndex + 1 + (k : Int)) % (p.queue.length : Int)))))
      ∧ (∀ j : Nat, j < p.queue.length →
          ((podcastNextRun pfs lib p).map Prod.fst).count (j : Int) = 1)
      ∧ (podcastNextEnd pfs lib p).currentIndex = p.currentIndex) := by
  constructor
  · intro pfs lib p hq hs hi hl hlen hopen
    have hrun := musicNextRun_eq pfs lib p hq hs hi hopen
    rw [hlen] at hrun
    refine ⟨hrun, ?_, ?_⟩
    · intro j hj
      rw [hrun, List.map_map]
      exact cycle_count_one p.currentIndex p.queue.length j hj
    · rw [musicNextEnd_cursor pfs lib p hq hs hi hl hopen, hlen, Int.add_emod_self]
      exact Int.emod_eq_of_lt hi hl
  · intro pfs lib p hq hi hl hlen hopen
    have hrun := podcastNextRun_eq pfs lib p hq hi hopen
    rw [hlen] at hrun
    refine ⟨hrun, ?_, ?_⟩
    · intro j hj
      rw [hrun, List.map_map]
      exact cycle_count_one p.currentIndex p.queue.length j hj
    · rw [podcastNextEnd_cursor pfs lib p hq hi hl hopen, hlen, Int.add_emod_self]
      exact Int.emod_eq_of_lt hi hl

/-- C1, at the three sample tracks and episodes from cursor 1: the cursors
visited are 2, 0, 1. -/
theorem next_full_cycle_witness :
    (musicNextRun [samplePlatform 1, samplePlatform 2, samplePlatform 3] sampleManager
        (sampleMusic 1)).map Prod.fst = [2, 0, 1] ∧
    (musicNextEnd [samplePlatform 1, samplePlatform 2, samplePlatform 3] sampleManager
        (sampleMusic 1)).currentIndex = 1 ∧
    (podcastNextRun [samplePlatform 1, samplePlatform 2, samplePlatform 3] sampleManager
        (samplePodcast 1)).map Prod.fst = [2, 0, 1] ∧
    (podcastNextEnd [samplePlatform 1, samplePlatform 2, samplePlatform 3] sampleManager
        (samplePodcast 1)).currentIndex = 1 := by
  have hm := next_full_cycle.1 [samplePlatform 1, samplePlatform 2, samplePlatform 3]
    sampleManager (sampleMusic 1) (by simp [sampleMusic, sampleLibrary]) rfl (by decide)
    (by decide) rfl (by intro pf hpf t _; simp [samplePlatform] at hpf; rcases hpf with h | h | h <;> simp [h])
  have hp := next_full_cycle.2 [samplePlatform 1, samplePlatform 2, samplePlatform 3]
    sampleManager (samplePodcast 1) (by simp [samplePodcast, sampleLibrary]) (by decide)
    (by decide) rfl (by intro pf hpf t _; simp [samplePlatform] at hpf; rcases hpf with h | h | h <;> simp [h])
  refine ⟨?_, hm.2.2, ?_, hp.2.2⟩
  · rw [hm.1]; decide
  · rw [hp.1]; decide

/-- C2. In both engines, with a non-empty queue and whatever the mode flags,
`previous()` called while the playback position is above 3 seconds changes
nothing but the position, which becomes 0: the cursor, the queue, the current
item, the playing flag and the mode flags stay, the current item is returned,
the library (so every play count) is untouched and no callback is invoked. -/
theorem previous_restarts_after_three_seconds :
    (∀ (pf : Platform) (lib : LibraryManager) (p : MusicPlayer),
      p.queue ≠ [] → p.audio.currentTime > 3 →
      (MusicPlayer.previous pf lib p).player
        = { p with audio := { p.audio with currentTime := 0 } } ∧
      (MusicPlayer.previous pf lib p).player.currentIndex = p.currentIndex ∧
      (MusicPlayer.previous pf lib p).player.queue = p.queue ∧
      (MusicPlayer.previous pf lib p).player.currentTrack = p.currentTrack ∧
      (MusicPlayer.previous pf lib p).player.audio.currentTime = 0 ∧
      (MusicPlayer.previous pf lib p).result = .ok p.currentTrack ∧
      (MusicPlayer.previous pf lib p).library = lib ∧
      (MusicPlayer.previous pf lib p).emitted = []) ∧
    (∀ (pf : Platform) (lib : LibraryManager) (p : PodcastPlayer),
      p.queue ≠ [] → p.audio.currentTime > 3 →
      (PodcastPlayer.previous pf lib p).player
        = { p with audio := { p.audio with currentTime := 0 } } ∧
      (PodcastPlayer.previous pf lib p).player.currentIndex = p.currentIndex ∧
      (PodcastPlayer.previous pf lib p).player.queue = p.queue ∧
      (PodcastPlayer.previous pf lib p).player.currentEpisode = p.currentEpisode ∧
      (PodcastPlayer.previous pf lib p).player.audio.currentTime = 0 ∧
      (PodcastPlayer.previous pf lib p).result = .ok p.currentEpisode ∧
      (PodcastPlayer.previous pf lib p).library = lib ∧
      (PodcastPlayer.previous pf lib p).emitted = []) := by
  constructor
  · intro pf lib p hq ht
    have hne : p.queue.length ≠ 0 := by
      have := List.length_pos.mpr hq
      omega
    simp [MusicPlayer.previous, hne, ht, setCurrentTime_zero]
  · intro pf lib p hq ht
    have hne : p.queue.length ≠ 0 := by
      have := List.length_pos.mpr hq
      omega
    simp [PodcastPlayer.previous, hne, ht, setCurrentTime_zero]

/-- C2, at the sample engines 10 seconds into the item at cursor 1, the music
engine with shuffle on and repeat all. -/
theorem previous_restarts_after_three_seconds_witness :
    (MusicPlayer.previous (samplePlatform 1) sampleManager
      { sampleMusic 1 with audio := { (sampleMusic 1).audio with currentTime := 10 },
                           isShuffle := true, repeatMode := RepeatMode.all }).player.currentIndex = 1 ∧
    (MusicPlayer.previous (samplePlatform 1) sampleManager
      { sampleMusic 1 with audio := { (sampleMusic 1).audio with currentTime := 10 },
                           isShuffle := true, repeatMode := RepeatMode.all }).result
      = .ok (some (sampleTrack "t1")) ∧
    (PodcastPlayer.previous (samplePlatform 1) sampleManager
      { samplePodcast 1 with audio := { (samplePodcast 1).audio with currentTime := 10 } }).player.currentIndex = 1 ∧
    (PodcastPlayer.previous (samplePlatform 1) sampleManager
      { samplePodcast 1 with audio := { (samplePodcast 1).audio with currentTime := 10 } }).library
      = sampleManager := by
  have hm := previous_restarts_after_three_seconds.1 (samplePlatform 1) sampleManager
    { sampleMusic 1 with audio := { (sampleMusic 1).audio with currentTime := 10 },
                         isShuffle := true, repeatMode := RepeatMode.all }
    (by simp [sampleMusic, sampleLibrary]) (by norm_num)
  have hp := previous_restarts_after_three_seconds.2 (samplePlatform 1) sampleManager
    { samplePodcast 1 with audio := { (samplePodcast 1).audio with currentTime := 10 } }
    (by simp [samplePodcast, sampleLibrary]) (by norm_num)
  refine ⟨hm.2.1, ?_, hp.2.1, hp.2.2.2.2.2.2.1⟩
  rw [hm.2.2.2.2.2.1]
  rfl

/-- C3. In the podcast engine, and in the music engine with shuffle off, from a
non-empty queue of length `len` and a cursor `i` with `0 ≤ i < len`,
`previous()` called while the playback position is at most 3 seconds sets the
cursor to `(i - 1 + len) % len` (from index 0 to `len - 1`), makes the item at
the new cursor the current item with its file as the source of the element, and,
the resource opening, returns that item with the engine playing. -/
theorem previous_moves_circularly :
    (∀ (pf : Platform) (lib : LibraryManager) (p : MusicPlayer),
      p.queue ≠ [] → p.isShuffle = false →
      0 ≤ p.currentIndex → p.currentIndex < (p.queue.length : Int) →
      p.audio.currentTime ≤ 3 →
      (MusicPlayer.previous pf lib p).player.currentIndex
        = (p.currentIndex - 1 + (p.queue.length : Int)) % (p.queue.length : Int) ∧
      (p.currentIndex = 0 →
        (MusicPlayer.previous pf lib p).player.currentIndex = (p.queue.length : Int) - 1) ∧
      (MusicPlayer.previous pf lib p).player.queue = p.queue ∧
      ∃ t, index p.queue ((p.currentIndex - 1 + (p.queue.length : Int)) % (p.queue.length : Int))
            = some t ∧
        (MusicPlayer.previous pf lib p).player.currentTrack = some t ∧
        (MusicPlayer.previous pf lib p).player.audio.src = t.audioFile ∧
        ((pf.probe t.audioFile).isSome →
          (MusicPlayer.previous pf lib p).result = .ok (some t) ∧
          (MusicPlayer.previous pf lib p).player.isPlaying = true)) ∧
    (∀ (pf : Platform) (lib : LibraryManager) (p : PodcastPlayer),
      p.queue ≠ [] →
      0 ≤ p.currentIndex → p.currentIndex < (p.queue.length : Int) →
      p.audio.currentTime ≤ 3 →
      (PodcastPlayer.previous pf lib p).player.currentIndex
        = (p.currentIndex - 1 + (p.queue.length : Int)) % (p.queue.length : Int) ∧
      (p.currentIndex = 0 →
        (PodcastPlayer.previous pf lib p).player.currentIndex = (p.queue.length : Int) - 1) ∧
      (PodcastPlayer.previous pf lib p).player.queue = p.queue ∧
      ∃ e, index p.queue ((p.currentIndex - 1 + (p.queue.length : Int)) % (p.queue.length : Int))
            = some e ∧
        (PodcastPlayer.previous pf lib p).player.currentEpisode = some e ∧
        (PodcastPlayer.previous pf lib p).player.audio.src = e.audioFile ∧
        ((pf.probe e.audioFile).isSome →
          (PodcastPlayer.previous pf lib p).result = .ok (some e) ∧
          (PodcastPlayer.previous pf lib p).player.isPlaying = true)) := by
  constructor
  · intro pf lib p hq hs hi hl ht
    have hlen : 0 < p.queue.length := List.length_pos.mpr hq
    have hc := cursor_in_range (p.currentIndex - 1 + (p.queue.length : Int)) p.queue.length hlen
    obtain ⟨t, hidx⟩ := index_isSome p.queue _ hc.1 hc.2
    have heq := music_previous_eq pf lib p hq hs hi ht _ rfl
    rw [hidx] at heq
    obtain ⟨f1, f2, f3, f4, _, _⟩ := playTrack_some_fields pf lib
      { p with currentIndex := (p.currentIndex - 1 + (p.queue.length : Int)) % (p.queue.length : Int) }
      t p.queue ((p.currentIndex - 1 + (p.queue.length : Int)) % (p.queue.length : Int))
    have hcur : (MusicPlayer.previous pf lib p).player.currentIndex
        = (p.currentIndex - 1 + (p.queue.length : Int)) % (p.queue.length : Int) := by
      rw [heq]; exact f1
    refine ⟨hcur, ?_, ?_, t, hidx, ?_, ?_, ?_⟩
    · intro h0
      rw [hcur, h0]
      have : (0 : Int) - 1 + (p.queue.length : Int) = (p.queue.length : Int) - 1 := by ring
      rw [this]
      exact Int.emod_eq_of_lt (by omega) (by omega)
    · rw [heq]; exact f2
    · rw [heq]; exact f3
    · rw [heq]; exact f4
    · intro hsome
      obtain ⟨d, hd⟩ := Option.isSome_iff_exists.mp hsome
      obtain ⟨g1, g2, _, _⟩ := playTrack_some_ok pf lib
        { p with currentIndex := (p.currentIndex - 1 + (p.queue.length : Int)) % (p.queue.length : Int) }
        t p.queue ((p.currentIndex - 1 + (p.queue.length : Int)) % (p.queue.length : Int)) d hd
      rw [heq]
      exact ⟨by simp only [g1]; rfl, g2⟩
  · intro pf lib p hq hi hl ht
    have hlen : 0 < p.queue.length := List.length_pos.mpr hq
    have hc := cursor_in_range (p.currentIndex - 1 + (p.queue.length : Int)) p.queue.length hlen
    obtain ⟨e, hidx⟩ := index_isSome p.queue _ hc.1 hc.2
    have heq := podcast_previous_eq pf lib p hq hi ht _ rfl
    rw [hidx] at heq
    obtain ⟨f1, f2, f3, f4⟩ := playEpisode_some_fields pf lib
      { p with currentIndex := (p.currentIndex - 1 + (p.queue.length : Int)) % (p.queue.length : Int) }
      e p.queue ((p.currentIndex - 1 + (p.queue.length : Int)) % (p.queue.length : Int))
    have hcur : (PodcastPlayer.previous pf lib p).player.currentIndex
        = (p.currentIndex - 1 + (p.queue.length : Int)) % (p.queue.length : Int) := by
      rw [heq]; exact f1
    refine ⟨hcur, ?_, ?_, e, hidx, ?_, ?_, ?_⟩
    · intro h0
      rw [hcur, h0]
      have : (0 : Int) - 1 + (p.queue.length : Int) = (p.queue.length : Int) - 1 := by ring
      rw [this]
      exact Int.emod_eq_of_lt (by omega) (by omega)
    · rw [heq]; exact f2
    · rw [heq]; exact f3
    · rw [heq]; exact f4
    · intro hsome
      obtain ⟨d, hd⟩ := Option.isSome_iff_exists.mp hsome
      obtain ⟨g1, g2, _⟩ := playEpisode_some_ok pf lib
        { p with currentIndex := (p.currentIndex - 1 + (p.queue.length : Int)) % (p.queue.length : Int) }
        e p.queue ((p.currentIndex - 1 + (p.queue.length : Int)) % (p.queue.length : Int)) d hd
      rw [heq]
      exact ⟨by simp only [g1]; rfl, g2⟩

/-- C3, at the sample engines exactly 3 seconds into the item at cursor 0: the
cursor wraps to 2 and the item at index 2 is returned. -/
theorem previous_moves_circularly_witness :
    (MusicPlayer.previous (samplePlatform 1) sampleManager
      { sampleMusic 0 with audio := { (sampleMusic 0).audio with currentTime := 3 } }).player.currentIndex = 2 ∧
    (PodcastPlayer.previous (samplePlatform 1) sampleManager
      { samplePodcast 0 with audio := { (samplePodcast 0).audio with currentTime := 3 } }).player.currentIndex = 2 := by
  have hm := previous_moves_circularly.1 (samplePlatform 1) sampleManager
    { sampleMusic 0 with audio := { (sampleMusic 0).audio with currentTime := 3 } }
    (by simp [sampleMusic, sampleLibrary]) rfl (by decide) (by decide) (le_refl _)
  have hp := previous_moves_circularly.2 (samplePlatform 1) sampleManager
    { samplePodcast 0 with audio := { (samplePodcast 0).audio with currentTime := 3 } }
    (by simp [samplePodcast, sampleLibrary]) (by decide) (by decide) (le_refl _)
  exact ⟨by rw [hm.1]; decide, by rw [hp.1]; decide⟩

/-- C4, as stated, fails: an episode completed at 100 percent and then reported
at 50 percent keeps `completed = true` with `percentComplete = 50`. -/
theorem recordProgress_invariant_counterexample :
    ∃ e, ((sampleManager.updatePodcastProgress 1 "e0" 0 100).updatePodcastProgress 2 "e0" 300 50).getPodcastById "e0"
        = some e ∧
      e.completed = some true ∧ e.percentComplete = some 50 ∧ ¬ completionInvariant e := by
  have h0 : sampleManager.getPodcastById "e0" = some (sampleEpisode "e0") := by
    simp [LibraryManager.getPodcastById, LibraryManager.getAllPodcasts, sampleManager,
      sampleLibrary, sampleEpisode, List.find?]
  have h1 := getPodcastById_updatePodcastProgress 1 sampleManager "e0" 0 100 _ h0
  have h2 := getPodcastById_updatePodcastProgress 2 _ "e0" 300 50 _ h1
  refine ⟨_, h2, ?_, ?_, ?_⟩
  · norm_num [LibraryManager.applyProgress]
  · norm_num [LibraryManager.applyProgress]
  · norm_num [completionInvariant, LibraryManager.applyProgress, orZeroQ]

/-- C4, amended. After `updatePodcastProgress` on an episode of the catalog the
episode carries the given position and percentage and the call time as
`lastListened`, and it is completed iff the percentage is at least 100 or it was
completed before the call: at 100 or above `completed` is true and `completedAt`
is the call time, below 100 `completed` and `completedAt` keep their values.  So
the invariant holds after the call whenever the episode was not completed
before it. -/
theorem recordProgress_completed (now : Nat) (m : LibraryManager) (id : String)
    (progress pct : ℚ) (e0 : Episode) (h : m.getPodcastById id = some e0) :
    ∃ e1, (m.updatePodcastProgress now id progress pct).getPodcastById id = some e1 ∧
      e1.progress = some progress ∧ e1.percentComplete = some pct ∧
      e1.lastListened = some now ∧
      (e1.completed = some true ↔ (pct ≥ 100 ∨ e0.completed = some true)) ∧
      (pct ≥ 100 → e1.completed = some true ∧ e1.completedAt = some now) ∧
      (pct < 100 → e1.completed = e0.completed ∧ e1.completedAt = e0.completedAt) ∧
      (e0.completed ≠ some true → completionInvariant e1) := by
  refine ⟨_, getPodcastById_updatePodcastProgress now m id progress pct e0 h, ?_⟩
  by_cases hp : pct ≥ 100
  · have hn : ¬ pct < 100 := not_lt.mpr hp
    simp [LibraryManager.applyProgress, hp, hn, completionInvariant, orZeroQ]
  · have hl : pct < 100 := not_le.mp hp
    have hp2 : ¬ (100 ≤ pct) := hp
    simp [LibraryManager.applyProgress, hp2, hl, completionInvariant, orZeroQ]

/-- C4 amended, at the sample catalog: a first report of 100 percent completes
the episode. -/
theorem recordProgress_completed_witness :
    ∃ e1, (sampleManager.updatePodcastProgress 7 "e0" 0 100).getPodcastById "e0" = some e1 ∧
      e1.percentComplete = some 100 ∧ e1.completed = some true ∧ e1.completedAt = some 7 := by
  obtain ⟨e1, h1, _, h3, _, _, h6, _⟩ := recordProgress_completed 7 sampleManager "e0" 0 100
    (sampleEpisode "e0")
    (by simp [LibraryManager.getPodcastById, LibraryManager.getAllPodcasts, sampleManager,
      sampleLibrary, sampleEpisode, List.find?])
  exact ⟨e1, h1, h3, (h6 (le_refl _)).1, (h6 (le_refl _)).2⟩

/-- C6. In both engines `setVolume(v)` stores `max(0, min(1, v))` as the volume
and changes nothing else: the stored volume lies in `[0, 1]`, is `v` itself when
`0 ≤ v ≤ 1`, is 0 for every `v < 0` and 1 for every `v > 1`. -/
theorem setVolume_clamps (v : ℚ) :
    (∀ p : MusicPlayer,
      p.setVolume v = { p with audio := { p.audio with volume := max 0 (min 1 v) } } ∧
      (p.setVolume v).getVolume = max 0 (min 1 v) ∧
      0 ≤ (p.setVolume v).getVolume ∧ (p.setVolume v).getVolume ≤ 1 ∧
      (0 ≤ v → v ≤ 1 → (p.setVolume v).getVolume = v) ∧
      (v < 0 → (p.setVolume v).getVolume = 0) ∧
      (1 < v → (p.setVolume v).getVolume = 1)) ∧
    (∀ p : PodcastPlayer,
      p.setVolume v = { p with audio := { p.audio with volume := max 0 (min 1 v) } } ∧
      (p.setVolume v).getVolume = max 0 (min 1 v) ∧
      0 ≤ (p.setVolume v).getVolume ∧ (p.setVolume v).getVolume ≤ 1 ∧
      (0 ≤ v → v ≤ 1 → (p.setVolume v).getVolume = v) ∧
      (v < 0 → (p.setVolume v).getVolume = 0) ∧
      (1 < v → (p.setVolume v).getVolume = 1)) := by
  have hlo : (0 : ℚ) ≤ max 0 (min 1 v) := le_max_left _ _
  have hhi : max 0 (min 1 v) ≤ (1 : ℚ) := max_le (by norm_num) (min_le_left _ _)
  have hmid : 0 ≤ v → v ≤ 1 → max 0 (min 1 v) = v := by
    intro h0 h1
    rw [min_eq_right h1, max_eq_right h0]
  have hneg : v < 0 → max 0 (min 1 v) = 0 := by
    intro h
    exact max_eq_left (le_trans (min_le_right _ _) (le_of_lt h))
  have hbig : 1 < v → max 0 (min 1 v) = 1 := by
    intro h
    rw [min_eq_left (le_of_lt h)]
    exact max_eq_right (by norm_num)
  exact ⟨fun p => ⟨rfl, rfl, hlo, hhi, hmid, hneg, hbig⟩,
    fun p => ⟨rfl, rfl, hlo, hhi, hmid, hneg, hbig⟩⟩

/-- C6, at the two inputs named by the claim: `setVolume(-0.5)` gives 0 and
`setVolume(1.7)` gives 1, in both engines. -/
theorem setVolume_clamps_witness :
    ((sampleMusic 0).setVolume (-1 / 2)).getVolume = 0 ∧
    ((sampleMusic 0).setVolume (17 / 10)).getVolume = 1 ∧
    ((samplePodcast 0).setVolume (-1 / 2)).getVolume = 0 ∧
    ((samplePodcast 0).setVolume (17 / 10)).getVolume = 1 :=
  ⟨((setVolume_clamps (-1 / 2)).1 (sampleMusic 0)).2.2.2.2.2.1 (by norm_num),
   ((setVolume_clamps (17 / 10)).1 (sampleMusic 0)).2.2.2.2.2.2 (by norm_num),
   ((setVolume_clamps (-1 / 2)).2 (samplePodcast 0)).2.2.2.2.2.1 (by norm_num),
   ((setVolume_clamps (17 / 10)).2 (samplePodcast 0)).2.2.2.2.2.2 (by norm_num)⟩

/-- C7. In both engines, on an element of duration `d ≥ 0`, `seek(t)` leaves
the playback position at `t` clamped to `[0, d]`, for every `t`: the engine
assigns `t` to the position of its audio element, which limits it to
`[0, d]`. So the position lies in `[0, d]`, it is `t` itself when
`0 ≤ t ≤ d`, 0 when `t < 0` and `d` when `t > d`; in particular `seek(-10)`
gives 0 and `seek(d + 100)` gives `d`. Nothing else of the engine changes. -/
theorem seek_clamps (t d : ℚ) (hd : 0 ≤ d) :
    (∀ p : MusicPlayer, p.audio.duration = some d →
      (p.seek t).getCurrentTime = max 0 (min d t) ∧
      0 ≤ (p.seek t).getCurrentTime ∧ (p.seek t).getCurrentTime ≤ d ∧
      (0 ≤ t → t ≤ d → (p.seek t).getCurrentTime = t) ∧
      (t < 0 → (p.seek t).getCurrentTime = 0) ∧
      (d < t → (p.seek t).getCurrentTime = d) ∧
      (p.seek (-10)).getCurrentTime = 0 ∧
      (p.seek (d + 100)).getCurrentTime = d ∧
      p.seek t = { p with audio := { p.audio with currentTime := max 0 (min d t) } }) ∧
    (∀ p : PodcastPlayer, p.audio.duration = some d →
      (p.seek t).getCurrentTime = max 0 (min d t) ∧
      0 ≤ (p.seek t).getCurrentTime ∧ (p.seek t).getCurrentTime ≤ d ∧
      (0 ≤ t → t ≤ d → (p.seek t).getCurrentTime = t) ∧
      (t < 0 → (p.seek t).getCurrentTime = 0) ∧
      (d < t → (p.seek t).getCurrentTime = d) ∧
      (p.seek (-10)).getCurrentTime = 0 ∧
      (p.seek (d + 100)).getCurrentTime = d ∧
      p.seek t = { p with audio := { p.audio with currentTime := max 0 (min d t) } }) := by
  have hlo : (0 : ℚ) ≤ max 0 (min d t) := le_max_left _ _
  have hhi : max 0 (min d t) ≤ d := max_le hd (min_le_left _ _)
  have hmid : 0 ≤ t → t ≤ d → max 0 (min d t) = t := by
    intro h0 h1
    rw [min_eq_right h1, max_eq_right h0]
  have hneg : ∀ u : ℚ, u < 0 → max 0 (min d u) = 0 := by
    intro u h
    exact max_eq_left (le_trans (min_le_right _ _) (le_of_lt h))
  have hbig : ∀ u : ℚ, d < u → max 0 (min d u) = d := by
    intro u h
    rw [min_eq_left (le_of_lt h)]
    exact max_eq_right hd
  have hten : max 0 (min d (-10)) = 0 := hneg (-10) (by norm_num)
  have hfar : max 0 (min d (d + 100)) = d := hbig (d + 100) (by linarith)
  constructor
  · intro p h
    have hs : ∀ u : ℚ, (p.seek u).getCurrentTime = max 0 (min d u) := by
      intro u
      unfold MusicPlayer.seek MusicPlayer.getCurrentTime
      rw [setCurrentTime_known p.audio u d h]
    have he : p.seek t = { p with audio := { p.audio with currentTime := max 0 (min d t) } } := by
      unfold MusicPlayer.seek
      rw [setCurrentTime_known p.audio t d h]
    refine ⟨hs t, ?_, ?_, ?_, ?_, ?_, ?_, ?_, he⟩
    · rw [hs t]; exact hlo
    · rw [hs t]; exact hhi
    · intro h0 h1; rw [hs t]; exact hmid h0 h1
    · intro h0; rw [hs t]; exact hneg t h0
    · intro h1; rw [hs t]; exact hbig t h1
    · rw [hs (-10)]; exact hten
    · rw [hs (d + 100)]; exact hfar
  · intro p h
    have hs : ∀ u : ℚ, (p.seek u).getCurrentTime = max 0 (min d u) := by
      intro u
      unfold PodcastPlayer.seek PodcastPlayer.getCurrentTime
      rw [setCurrentTime_known p.audio u d h]
    have he : p.seek t = { p with audio := { p.audio with currentTime := max 0 (min d t) } } := by
      unfold PodcastPlayer.seek
      rw [setCurrentTime_known p.audio t d h]
    refine ⟨hs t, ?_, ?_, ?_, ?_, ?_, ?_, ?_, he⟩
    · rw [hs t]; exact hlo
    · rw [hs t]; exact hhi
    · intro h0 h1; rw [hs t]; exact hmid h0 h1
    · intro h0; rw [hs t]; exact hneg t h0
    · intro h1; rw [hs t]; exact hbig t h1
    · rw [hs (-10)]; exact hten
    · rw [hs (d + 100)]; exact hfar

/-- C7, at the two inputs named by the claim on an element of duration 600:
`seek(-10)` gives position 0 and `seek(600 + 100)` gives position 600, in both
engines; `seek(120)` gives 120. -/
theorem seek_clamps_witness :
    (MusicPlayer.seek { sampleMusic 0 with audio := { (sampleMusic 0).audio with duration := some 600 } }
        (-10)).getCurrentTime = 0 ∧
    (MusicPlayer.seek { sampleMusic 0 with audio := { (sampleMusic 0).audio with duration := some 600 } }
        (600 + 100)).getCurrentTime = 600 ∧
    (PodcastPlayer.seek { samplePodcast 0 with audio := { (samplePodcast 0).audio with duration := some 600 } }
        (-10)).getCurrentTime = 0 ∧
    (PodcastPlayer.seek { samplePodcast 0 with audio := { (samplePodcast 0).audio with duration := some 600 } }
        (600 + 100)).getCurrentTime = 600 ∧
    (PodcastPlayer.seek { samplePodcast 0 with audio := { (samplePodcast 0).audio with duration := some 600 } }
        120).getCurrentTime = 120 :=
  ⟨((seek_clamps 0 600 (by norm_num)).1
      { sampleMusic 0 with audio := { (sampleMusic 0).audio with duration := some 600 } } rfl).2.2.2.2.2.2.1,
   ((seek_clamps 0 600 (by norm_num)).1
      { sampleMusic 0 with audio := { (sampleMusic 0).audio with duration := some 600 } } rfl).2.2.2.2.2.2.2.1,
   ((seek_clamps 0 600 (by norm_num)).2
      { samplePodcast 0 with audio := { (samplePodcast 0).audio with duration := some 600 } } rfl).2.2.2.2.2.2.1,
   ((seek_clamps 0 600 (by norm_num)).2
      { samplePodcast 0 with audio := { (samplePodcast 0).audio with duration := some 600 } } rfl).2.2.2.2.2.2.2.1,
   ((seek_clamps 120 600 (by norm_num)).2
      { samplePodcast 0 with audio := { (samplePodcast 0).audio with duration := some 600 } } rfl).2.2.2.1
      (by norm_num) (by norm_num)⟩

/-- C8. In the music engine, with `repeat = off` and the cursor at the last
index `len - 1` of the queue, the natural end of the current track only clears
the playing flag: the cursor, the queue, the current track and the element (so its
source: no other track is loaded) stay, the library is untouched, and the
`ended` callback is invoked exactly once. -/
theorem ended_at_last_index_goes_idle (pf : Platform) (lib : LibraryManager) (p : MusicPlayer)
    (hr : p.repeatMode = RepeatMode.off)
    (hi : p.currentIndex = (p.queue.length : Int) - 1) :
    (MusicPlayer.onTrackEnded pf lib p).player = { p with isPlaying := false } ∧
    (MusicPlayer.onTrackEnded pf lib p).player.currentIndex = p.currentIndex ∧
    (MusicPlayer.onTrackEnded pf lib p).player.currentTrack = p.currentTrack ∧
    (MusicPlayer.onTrackEnded pf lib p).player.queue = p.queue ∧
    (MusicPlayer.onTrackEnded pf lib p).player.audio = p.audio ∧
    (MusicPlayer.onTrackEnded pf lib p).player.isPlaying = false ∧
    (MusicPlayer.onTrackEnded pf lib p).library = lib ∧
    (MusicPlayer.onTrackEnded pf lib p).emitted = [Notification.onPlaybackEnded] ∧
    (MusicPlayer.onTrackEnded pf lib p).emitted.count Notification.onPlaybackEnded = 1 := by
  have h1 : ¬ (p.repeatMode = RepeatMode.one) := by rw [hr]; decide
  have h2 : ¬ (p.repeatMode = RepeatMode.all ∨ p.currentIndex < (p.queue.length : Int) - 1) := by
    rw [hr, hi]
    simp
  unfold MusicPlayer.onTrackEnded
  rw [if_neg h1, if_neg h2]
  simp

/-- C8, at the scenario of the claim: three tracks, shuffle off, repeat off,
started at index 0; the natural ends of index 0 and index 1 advance to index 2,
and the natural end of index 2 leaves the cursor at 2, not playing, with one
`ended` callback. -/
theorem ended_at_last_index_goes_idle_witness :
    (MusicPlayer.onTrackEnded (samplePlatform 4) sampleManager
      (MusicPlayer.onTrackEnded (samplePlatform 3) sampleManager
        (MusicPlayer.onTrackEnded (samplePlatform 2) sampleManager
          (MusicPlayer.playTrack (samplePlatform 1) sampleManager MusicPlayer.new
            (some (sampleTrack "t0")) (some sampleLibrary.music) 0).player).player).player).player.currentIndex = 2 ∧
    (MusicPlayer.onTrackEnded (samplePlatform 4) sampleManager
      (MusicPlayer.onTrackEnded (samplePlatform 3) sampleManager
        (MusicPlayer.onTrackEnded (samplePlatform 2) sampleManager
          (MusicPlayer.playTrack (samplePlatform 1) sampleManager MusicPlayer.new
            (some (sampleTrack "t0")) (some sampleLibrary.music) 0).player).player).player).player.isPlaying = false ∧
    (MusicPlayer.onTrackEnded (samplePlatform 4) sampleManager
      (MusicPlayer.onTrackEnded (samplePlatform 3) sampleManager
        (MusicPlayer.onTrackEnded (samplePlatform 2) sampleManager
          (MusicPlayer.playTrack (samplePlatform 1) sampleManager MusicPlayer.new
            (some (sampleTrack "t0")) (some sampleLibrary.music) 0).player).player).player).emitted
      = [Notification.onPlaybackEnded] := by
  have h := ended_at_last_index_goes_idle (samplePlatform 4) sampleManager
    (MusicPlayer.onTrackEnded (samplePlatform 3) sampleManager
      (MusicPlayer.onTrackEnded (samplePlatform 2) sampleManager
        (MusicPlayer.playTrack (samplePlatform 1) sampleManager MusicPlayer.new
          (some (sampleTrack "t0")) (some sampleLibrary.music) 0).player).player).player
    (by decide) (by decide)
  exact ⟨by rw [h.2.1]; decide, h.2.2.2.2.2.1, h.2.2.2.2.2.2.2.1⟩

/-- C9. In the music engine with shuffle off, from a non-empty queue of length
`len` and a cursor `i ≥ 0` (so for every `i` in `[0, len)`), the natural end of the current track with
`repeat = all`, or with `repeat = off` and `i < len - 1`, sets the cursor to
`(i + 1) % len` and makes the track at that index the current track, its file
the source of the element; the resource opening, the engine is playing it from
position 0 and one play of it is recorded.  No `ended` callback is invoked.
At the last index (so with `repeat = all`) the new cursor is 0. -/
theorem ended_advances (pf : Platform) (lib : LibraryManager) (p : MusicPlayer)
    (hq : p.queue ≠ []) (hs : p.isShuffle = false) (hi : 0 ≤ p.currentIndex)
    (hr : p.repeatMode = RepeatMode.all ∨
      (p.repeatMode = RepeatMode.off ∧ p.currentIndex < (p.queue.length : Int) - 1)) :
    (MusicPlayer.onTrackEnded pf lib p).player.currentIndex
      = (p.currentIndex + 1) % (p.queue.length : Int) ∧
    (p.currentIndex = (p.queue.length : Int) - 1 →
      (MusicPlayer.onTrackEnded pf lib p).player.currentIndex = 0) ∧
    (MusicPlayer.onTrackEnded pf lib p).player.queue = p.queue ∧
    (MusicPlayer.onTrackEnded pf lib p).emitted = [] ∧
    ∃ t, index p.queue ((p.currentIndex + 1) % (p.queue.length : Int)) = some t ∧
      (MusicPlayer.onTrackEnded pf lib p).player.currentTrack = some t ∧
      (MusicPlayer.onTrackEnded pf lib p).player.audio.src = t.audioFile ∧
      ((pf.probe t.audioFile).isSome →
        (MusicPlayer.onTrackEnded pf lib p).result = .ok () ∧
        (MusicPlayer.onTrackEnded pf lib p).player.isPlaying = true ∧
        (MusicPlayer.onTrackEnded pf lib p).player.audio.currentTime = 0 ∧
        (MusicPlayer.onTrackEnded pf lib p).library
          = lib.incrementPlayCount pf.now t.id Kind.music) := by
  have hlen : 0 < p.queue.length := List.length_pos.mpr hq
  have h1 : ¬ (p.repeatMode = RepeatMode.one) := by
    rcases hr with h | ⟨h, _⟩ <;> rw [h] <;> decide
  have h2 : p.repeatMode = RepeatMode.all ∨ p.currentIndex < (p.queue.length : Int) - 1 := by
    rcases hr with h | ⟨_, h⟩
    · exact Or.inl h
    · exact Or.inr h
  have hended : MusicPlayer.onTrackEnded pf lib p =
      { player := (MusicPlayer.next pf lib p).player,
        library := (MusicPlayer.next pf lib p).library,
        result := (MusicPlayer.next pf lib p).result.map (fun _ => ()) } := by
    unfold MusicPlayer.onTrackEnded
    rw [if_neg h1, if_pos h2]
  have hc := cursor_in_range (p.currentIndex + 1) p.queue.length hlen
  obtain ⟨t, hidx⟩ := index_isSome p.queue _ hc.1 hc.2
  have heq := music_next_eq pf lib p hq hs hi _ rfl
  rw [hidx] at heq
  rw [heq] at hended
  obtain ⟨f1, f2, f3, f4, _, _⟩ := playTrack_some_fields pf lib
    { p with currentIndex := (p.currentIndex + 1) % (p.queue.length : Int) }
    t p.queue ((p.currentIndex + 1) % (p.queue.length : Int))
  have hcur : (MusicPlayer.onTrackEnded pf lib p).player.currentIndex
      = (p.currentIndex + 1) % (p.queue.length : Int) := by
    rw [hended]; exact f1
  refine ⟨hcur, ?_, ?_, ?_, t, hidx, ?_, ?_, ?_⟩
  · intro hlast
    rw [hcur, hlast, sub_add_cancel]
    exact Int.emod_self
  · rw [hended]; exact f2
  · rw [hended]
  · rw [hended]; exact f3
  · rw [hended]; exact f4
  · intro hsome
    obtain ⟨d, hd⟩ := Option.isSome_iff_exists.mp hsome
    obtain ⟨g1, g2, g3, g4⟩ := playTrack_some_ok pf lib
      { p with currentIndex := (p.currentIndex + 1) % (p.queue.length : Int) }
      t p.queue ((p.currentIndex + 1) % (p.queue.length : Int)) d hd
    rw [hended]
    exact ⟨by simp only [g1]; rfl, g2, g3, g4⟩

/-- C9, at the scenario of the claim: three tracks, shuffle off, `repeat = all`,
natural end at index 2: the cursor wraps to index 0 and the first track is
loaded and playing. -/
theorem ended_advances_witness :
    (MusicPlayer.onTrackEnded (samplePlatform 1) sampleManager
      { sampleMusic 2 with repeatMode := RepeatMode.all }).player.currentIndex = 0 ∧
    (MusicPlayer.onTrackEnded (samplePlatform 1) sampleManager
      { sampleMusic 2 with repeatMode := RepeatMode.all }).player.currentTrack
      = some (sampleTrack "t0") ∧
    (MusicPlayer.onTrackEnded (samplePlatform 1) sampleManager
      { sampleMusic 2 with repeatMode := RepeatMode.all }).player.isPlaying = true := by
  have h := ended_advances (samplePlatform 1) sampleManager
    { sampleMusic 2 with repeatMode := RepeatMode.all }
    (by simp [sampleMusic, sampleLibrary]) rfl (by decide) (Or.inl rfl)
  obtain ⟨_, h2, _, _, t, ht, h5, _, h7⟩ := h
  have ht0 : t = sampleTrack "t0" := by
    have : index (sampleMusic 2).queue ((2 + 1) % 3) = some (sampleTrack "t0") := by decide
    exact Option.some.inj (ht.symm.trans this)
  subst ht0
  exact ⟨h2 (by decide), h5, (h7 rfl).2.1⟩

/-- C10. In the music engine with `repeat = one`, whatever the queue, the
cursor and the shuffle setting, the natural end of the current track puts the
position back to 0 and leaves the cursor, the queue, the current track, the
source of the element and the library as they are, invoking no callback; the
element having a source (the track that ended), the engine is playing. -/
theorem ended_repeat_one_restarts (pf : Platform) (lib : LibraryManager) (p : MusicPlayer)
    (hr : p.repeatMode = RepeatMode.one) (hsrc : p.audio.src ≠ "") :
    (MusicPlayer.onTrackEnded pf lib p).player
      = { p with audio := { p.audio with currentTime := 0, paused := false },
                 isPlaying := true } ∧
    (MusicPlayer.onTrackEnded pf lib p).player.audio.currentTime = 0 ∧
    (MusicPlayer.onTrackEnded pf lib p).player.isPlaying = true ∧
    (MusicPlayer.onTrackEnded pf lib p).player.currentIndex = p.currentIndex ∧
    (MusicPlayer.onTrackEnded pf lib p).player.queue = p.queue ∧
    (MusicPlayer.onTrackEnded pf lib p).player.currentTrack = p.currentTrack ∧
    (MusicPlayer.onTrackEnded pf lib p).player.audio.src = p.audio.src ∧
    (MusicPlayer.onTrackEnded pf lib p).library = lib ∧
    (MusicPlayer.onTrackEnded pf lib p).emitted = [] := by
  unfold MusicPlayer.onTrackEnded
  rw [if_pos hr]
  simp [MusicPlayer.play, hsrc, setCurrentTime_zero]

/-- C10, at the last of three tracks with shuffle on: the cursor stays at 2,
the position is 0 and the engine is playing. -/
theorem ended_repeat_one_restarts_witness :
    (MusicPlayer.onTrackEnded (samplePlatform 1) sampleManager
      { sampleMusic 2 with repeatMode := RepeatMode.one, isShuffle := true,
                           audio := { (sampleMusic 2).audio with currentTime := 200 } }).player.currentIndex = 2 ∧
    (MusicPlayer.onTrackEnded (samplePlatform 1) sampleManager
      { sampleMusic 2 with repeatMode := RepeatMode.one, isShuffle := true,
                           audio := { (sampleMusic 2).audio with currentTime := 200 } }).player.audio.currentTime = 0 ∧
    (MusicPlayer.onTrackEnded (samplePlatform 1) sampleManager
      { sampleMusic 2 with repeatMode := RepeatMode.one, isShuffle := true,
                           audio := { (sampleMusic 2).audio with currentTime := 200 } }).player.isPlaying = true := by
  have h := ended_repeat_one_restarts (samplePlatform 1) sampleManager
    { sampleMusic 2 with repeatMode := RepeatMode.one, isShuffle := true,
                         audio := { (sampleMusic 2).audio with currentTime := 200 } }
    rfl (by decide)
  exact ⟨h.2.2.2.1, h.2.1, h.2.2.1⟩

/-- C5, at a failing input. On the sample catalog, after one `recordPlay` of
episode `e0` at time 5, the episode has play count 1 and `lastPlayed = 5`;
persisting and restoring onto the freshly loaded catalog brings back the play
count 1 but not `lastPlayed`, which is absent again, so the PlayState of `e0` is
not reproduced.  For a track the same steps bring back both. -/
theorem restore_drops_episode_lastPlayed :
    ((applyOps [StoreOp.recordPlay 5 "e0" Kind.podcast] sampleManager).getPodcastById "e0").map
        Episode.playState
      = some { playCount := 1, lastPlayed := some 5, position := 0, percentComplete := 0,
               lastListened := none, completed := false, completedAt := none } ∧
    ((restoreOnto sampleLibrary
        (applyOps [StoreOp.recordPlay 5 "e0" Kind.podcast] sampleManager)).getPodcastById "e0").map
        Episode.playState
      = some { playCount := 1, lastPlayed := none, position := 0, percentComplete := 0,
               lastListened := none, completed := false, completedAt := none } ∧
    ((applyOps [StoreOp.recordPlay 5 "t0" Kind.music] sampleManager).getMusicById "t0").map
        Track.playState
      = some { playCount := 1, lastPlayed := some 5 } ∧
    ((restoreOnto sampleLibrary
        (applyOps [StoreOp.recordPlay 5 "t0" Kind.music] sampleManager)).getMusicById "t0").map
        Track.playState
      = some { playCount := 1, lastPlayed := some 5 } := by
  refine ⟨?_, ?_, ?_, ?_⟩ <;> decide

/-! ## Lemmas on the mode flags -/

theorem modes_successor (m : RepeatMode) :
    MusicPlayer.modes.getD ((MusicPlayer.modes.indexOf m + 1) % MusicPlayer.modes.length) m
      = (match m with
        | RepeatMode.off => RepeatMode.all
        | RepeatMode.all => RepeatMode.one
        | RepeatMode.one => RepeatMode.off) := by
  cases m <;> decide

theorem toggleRepeat_eq (p : MusicPlayer) :
    p.toggleRepeat = ({ p with repeatMode := (match p.repeatMode with
        | RepeatMode.off => RepeatMode.all
        | RepeatMode.all => RepeatMode.one
        | RepeatMode.one => RepeatMode.off) },
      (match p.repeatMode with
        | RepeatMode.off => RepeatMode.all
        | RepeatMode.all => RepeatMode.one
        | RepeatMode.one => RepeatMode.off)) := by
  simp only [MusicPlayer.toggleRepeat, modes_successor]

/-- C11. `toggleRepeat()` stores and returns the successor of the current mode
in the cycle off, all, one, off, and changes no other field of the engine; from
`off`, three consecutive calls return `all`, `one`, `off`; from any mode, three
calls give the engine back as it was. -/
theorem toggleRepeat_cycles (p : MusicPlayer) :
    p.toggleRepeat.2 = (match p.repeatMode with
      | RepeatMode.off => RepeatMode.all
      | RepeatMode.all => RepeatMode.one
      | RepeatMode.one => RepeatMode.off) ∧
    p.toggleRepeat.1 = { p with repeatMode := p.toggleRepeat.2 } ∧
    (p.repeatMode = RepeatMode.off →
      p.toggleRepeat.2 = RepeatMode.all ∧
      p.toggleRepeat.1.toggleRepeat.2 = RepeatMode.one ∧
      p.toggleRepeat.1.toggleRepeat.1.toggleRepeat.2 = RepeatMode.off) ∧
    p.toggleRepeat.1.toggleRepeat.1.toggleRepeat.1 = p := by
  rcases p with ⟨a, ct, q, ci, ip, sh, rm⟩
  simp only [toggleRepeat_eq]
  cases rm <;> simp

/-- C11, at a new engine, whose mode is `off`: three calls return `all`, `one`,
`off`. -/
theorem toggleRepeat_cycles_witness :
    MusicPlayer.new.toggleRepeat.2 = RepeatMode.all ∧
    MusicPlayer.new.toggleRepeat.1.toggleRepeat.2 = RepeatMode.one ∧
    MusicPlayer.new.toggleRepeat.1.toggleRepeat.1.toggleRepeat.2 = RepeatMode.off :=
  (toggleRepeat_cycles MusicPlayer.new).2.2.1 rfl

/-- C12. A podcast load whose resource opens returns `true` with the engine
playing the episode handed in, from the episode's saved position when that is
above 0 and from 0 when it is absent or not above 0; a music load whose
resource opens plays the track from position 0. -/
theorem load_start_position :
    (∀ (pf : Platform) (lib : LibraryManager) (p : PodcastPlayer) (e : Episode)
        (queue : Option (List Episode)) (startIndex : Int) (d : ℚ),
      pf.probe e.audioFile = some d →
      (PodcastPlayer.playEpisode pf lib p (some e) queue startIndex).result = .ok true ∧
      (PodcastPlayer.playEpisode pf lib p (some e) queue startIndex).player.isPlaying = true ∧
      (PodcastPlayer.playEpisode pf lib p (some e) queue startIndex).player.currentEpisode
        = some e ∧
      (PodcastPlayer.playEpisode pf lib p (some e) queue startIndex).player.audio.paused
        = false ∧
      (∀ pos, e.progress = some pos → 0 < pos →
        (PodcastPlayer.playEpisode pf lib p (some e) queue startIndex).player.audio.currentTime
          = pos) ∧
      (∀ pos, e.progress = some pos → pos ≤ 0 →
        (PodcastPlayer.playEpisode pf lib p (some e) queue startIndex).player.audio.currentTime
          = 0) ∧
      (e.progress = none →
        (PodcastPlayer.playEpisode pf lib p (some e) queue startIndex).player.audio.currentTime
          = 0)) ∧
    (∀ (pf : Platform) (lib : LibraryManager) (p : MusicPlayer) (t : Track)
        (queue : Option (List Track)) (startIndex : Int) (d : ℚ),
      pf.probe t.audioFile = some d →
      (MusicPlayer.playTrack pf lib p (some t) queue startIndex).result = .ok true ∧
      (MusicPlayer.playTrack pf lib p (some t) queue startIndex).player.isPlaying = true ∧
      (MusicPlayer.playTrack pf lib p (some t) queue startIndex).player.currentTrack
        = some t ∧
      (MusicPlayer.playTrack pf lib p (some t) queue startIndex).player.audio.paused
        = false ∧
      (MusicPlayer.playTrack pf lib p (some t) queue startIndex).player.audio.currentTime
        = 0) := by
  constructor
  · intro pf lib p e queue startIndex d hd
    refine ⟨?_, ?_, ?_, ?_, ?_, ?_, ?_⟩
    · simp [PodcastPlayer.playEpisode, hd]
    · simp [PodcastPlayer.playEpisode, hd]
    · cases queue <;> simp [PodcastPlayer.playEpisode, hd]
    · simp [PodcastPlayer.playEpisode, hd, Audio.opened]
    · intro pos hpos h0
      simp [PodcastPlayer.playEpisode, hd, Audio.opened, Audio.load, PodcastPlayer.resume,
        Audio.setCurrentTime, hpos, h0]
    · intro pos hpos h0
      have hn : ¬ (0 < pos) := not_lt.mpr h0
      simp [PodcastPlayer.playEpisode, hd, Audio.opened, Audio.load, PodcastPlayer.resume,
        hpos, hn]
    · intro hnone
      simp [PodcastPlayer.playEpisode, hd, Audio.opened, Audio.load, PodcastPlayer.resume,
        hnone]
  · intro pf lib p t queue startIndex d hd
    refine ⟨?_, ?_, ?_, ?_, ?_⟩
    · simp [MusicPlayer.playTrack, hd]
    · simp [MusicPlayer.playTrack, hd]
    · cases queue <;> simp [MusicPlayer.playTrack, hd]
    · simp [MusicPlayer.playTrack, hd, Audio.opened]
    · simp [MusicPlayer.playTrack, hd, Audio.opened, Audio.load]

/-- C12, at the scenario of the claim: an episode with saved position 120 and
duration 600 starts at 120 seconds. -/
theorem load_start_position_witness :
    (PodcastPlayer.playEpisode { now := 1, random := 0, probe := fun _ => some 600 }
      sampleManager PodcastPlayer.new
      (some { sampleEpisode "e0" with progress := some 120 })
      (some sampleLibrary.podcasts) 0).player.audio.currentTime = 120 ∧
    (PodcastPlayer.playEpisode { now := 1, random := 0, probe := fun _ => some 600 }
      sampleManager PodcastPlayer.new
      (some { sampleEpisode "e0" with progress := some 120 })
      (some sampleLibrary.podcasts) 0).player.audio.duration = some 600 ∧
    (MusicPlayer.playTrack (samplePlatform 1) sampleManager
      { sampleMusic 1 with audio := { (sampleMusic 1).audio with currentTime := 42 } }
      (some (sampleTrack "t0")) (some sampleLibrary.music) 0).player.audio.currentTime = 0 := by
  have h := load_start_position.1 { now := 1, random := 0, probe := fun _ => some 600 }
    sampleManager PodcastPlayer.new { sampleEpisode "e0" with progress := some 120 }
    (some sampleLibrary.podcasts) 0 600 rfl
  have hm := load_start_position.2 (samplePlatform 1) sampleManager
    { sampleMusic 1 with audio := { (sampleMusic 1).audio with currentTime := 42 } }
    (sampleTrack "t0") (some sampleLibrary.music) 0 600 rfl
  exact ⟨h.2.2.2.2.1 120 rfl (by norm_num), rfl, hm.2.2.2.2⟩

/-! ## Lemmas on the end of an episode -/

theorem find_updateFirst_other {α : Type} (p q : α → Bool) (f : α → α)
    (hf : ∀ x, p (f x) = p x) :
    ∀ (l : List α) (x : α), l.find? p = some x →
      (LibraryManager.updateFirst q f l).find? p = some x ∨
      (LibraryManager.updateFirst q f l).find? p = some (f x) := by
  intro l
  induction l with
  | nil => intro x h; simp at h
  | cons a l ih =>
    intro x h
    by_cases hq : q a = true
    · by_cases hp : p a = true
      · have hx : a = x := by simpa [List.find?, hp] using h
        subst hx
        right
        simp [LibraryManager.updateFirst, hq, List.find?, hf, hp]
      · have hx : l.find? p = some x := by simpa [List.find?, hp] using h
        left
        simp [LibraryManager.updateFirst, hq, List.find?, hf, hp, hx]
    · by_cases hp : p a = true
      · have hx : a = x := by simpa [List.find?, hp] using h
        subst hx
        left
        simp [LibraryManager.updateFirst, hq, List.find?, hp]
      · have hx : l.find? p = some x := by simpa [List.find?, hp] using h
        rcases ih x hx with h1 | h1
        · left
          simp [LibraryManager.updateFirst, hq, List.find?, hp, h1]
        · right
          simp [LibraryManager.updateFirst, hq, List.find?, hp, h1]

/-- A recorded play leaves the progress fields of every episode as they are. -/
theorem incrementPlayCount_keeps_progress (now : Nat) (lib : LibraryManager) (id2 : String)
    (kind : Kind) (id : String) (e1 : Episode) (h : lib.getPodcastById id = some e1) :
    ∃ e2, (lib.incrementPlayCount now id2 kind).getPodcastById id = some e2 ∧
      e2.progress = e1.progress ∧ e2.percentComplete = e1.percentComplete ∧
      e2.completed = e1.completed ∧ e2.completedAt = e1.completedAt ∧
      e2.lastListened = e1.lastListened := by
  cases hl : lib.library with
  | none => simp [LibraryManager.getPodcastById, LibraryManager.getAllPodcasts, hl] at h
  | some l =>
    have h2 : l.podcasts.find? (fun ep => ep.id == id) = some e1 := by
      simpa [LibraryManager.getPodcastById, LibraryManager.getAllPodcasts, hl] using h
    cases kind with
    | music =>
      cases hf : lib.getMusicById id2 with
      | none =>
        exact ⟨e1, by simp [LibraryManager.incrementPlayCount, hf, h], rfl, rfl, rfl, rfl, rfl⟩
      | some t =>
        refine ⟨e1, ?_, rfl, rfl, rfl, rfl, rfl⟩
        simp only [LibraryManager.incrementPlayCount, hf, hl, LibraryManager.saveToLocalStorage,
          LibraryManager.getPodcastById, LibraryManager.getAllPodcasts, h2]
    | podcast =>
      cases hf : lib.getPodcastById id2 with
      | none =>
        exact ⟨e1, by simp [LibraryManager.incrementPlayCount, hf, h], rfl, rfl, rfl, rfl, rfl⟩
      | some e =>
        have hlib : (lib.incrementPlayCount now id2 Kind.podcast).getPodcastById id
            = (LibraryManager.updateFirst (fun ep => ep.id == id2)
                (fun item => { item with playCount := some (orZero item.playCount + 1),
                                         lastPlayed := some now }) l.podcasts).find?
                (fun ep => ep.id == id) := by
          have hinc : lib.incrementPlayCount now id2 Kind.podcast
              = LibraryManager.saveToLocalStorage { lib with library := some { l with
                  podcasts := (LibraryManager.updateFirst (fun ep => ep.id == id2)
                    (fun item => { item with playCount := some (orZero item.playCount + 1),
                                             lastPlayed := some now }) l.podcasts) } } := by
            simp only [LibraryManager.incrementPlayCount, hf, hl]
          rw [hinc]
          simp only [LibraryManager.saveToLocalStorage, LibraryManager.getPodcastById,
            LibraryManager.getAllPodcasts]
        rcases find_updateFirst_other (fun ep : Episode => ep.id == id)
          (fun ep => ep.id == id2)
          (fun item => { item with playCount := some (orZero item.playCount + 1),
                                   lastPlayed := some now })
          (fun _ => rfl) l.podcasts e1 h2 with h3 | h3
        · exact ⟨e1, hlib.trans h3, rfl, rfl, rfl, rfl, rfl⟩
        · exact ⟨_, hlib.trans h3, rfl, rfl, rfl, rfl, rfl⟩

theorem playEpisode_library (pf : Platform) (lib : LibraryManager) (p : PodcastPlayer)
    (e : Episode) (q : Option (List Episode)) (i : Int) :
    (PodcastPlayer.playEpisode pf lib p (some e) q i).library = lib ∨
    (PodcastPlayer.playEpisode pf lib p (some e) q i).library
      = lib.incrementPlayCount pf.now e.id Kind.podcast := by
  cases h : pf.probe e.audioFile <;> simp [PodcastPlayer.playEpisode, h]

theorem podcast_next_eq (pf : Platform) (lib : LibraryManager) (p : PodcastPlayer)
    (hq : p.queue ≠ []) (hi : -1 ≤ p.currentIndex) (c : Int)
    (hc : c = (p.currentIndex + 1) % (p.queue.length : Int)) :
    PodcastPlayer.next pf lib p =
      { player := (PodcastPlayer.playEpisode pf lib { p with currentIndex := c }
            (index p.queue c) (some p.queue) c).player,
        library := (PodcastPlayer.playEpisode pf lib { p with currentIndex := c }
            (index p.queue c) (some p.queue) c).library,
        result := (PodcastPlayer.playEpisode pf lib { p with currentIndex := c }
            (index p.queue c) (some p.queue) c).result.map (fun _ => index p.queue c) } := by
  have hlen : 0 < p.queue.length := List.length_pos.mpr hq
  have hne : p.queue.length ≠ 0 := by omega
  have htm := tmod_cursor (p.currentIndex + 1) p.queue.length (by omega)
  unfold PodcastPlayer.next
  rw [if_neg hne]
  simp only [htm, ← hc]

/-- C13. In the podcast engine, at the natural end of a current episode that is
in the catalog, with a cursor `i ≥ -1` (the initial `-1` or an index), the
library is first written: when the call is over the episode has
`percentComplete = 100` and `completed = true`.  Then, if `i < len - 1`, the
cursor is `i + 1`, `queue[i + 1]` is the current episode and the source of the
element, playing when its resource opens, and no callback is invoked;
otherwise only the playing flag of the engine changes, to false, and the
`ended` callback is invoked once. -/
theorem episode_ended_marks_and_advances (pf : Platform) (lib : LibraryManager)
    (p : PodcastPlayer) (e e0 : Episode) (hcur : p.currentEpisode = some e)
    (hcat : lib.getPodcastById e.id = some e0) (hi : -1 ≤ p.currentIndex) :
    (∃ e1, (PodcastPlayer.onEpisodeEnded pf lib p).library.getPodcastById e.id = some e1 ∧
      e1.percentComplete = some 100 ∧ e1.completed = some true) ∧
    (p.currentIndex < (p.queue.length : Int) - 1 →
      (PodcastPlayer.onEpisodeEnded pf lib p).player.currentIndex = p.currentIndex + 1 ∧
      (PodcastPlayer.onEpisodeEnded pf lib p).player.queue = p.queue ∧
      (PodcastPlayer.onEpisodeEnded pf lib p).emitted = [] ∧
      ∃ x, index p.queue (p.currentIndex + 1) = some x ∧
        (PodcastPlayer.onEpisodeEnded pf lib p).player.currentEpisode = some x ∧
        (PodcastPlayer.onEpisodeEnded pf lib p).player.audio.src = x.audioFile ∧
        ((pf.probe x.audioFile).isSome →
          (PodcastPlayer.onEpisodeEnded pf lib p).result = .ok () ∧
          (PodcastPlayer.onEpisodeEnded pf lib p).player.isPlaying = true)) ∧
    (¬ (p.currentIndex < (p.queue.length : Int) - 1) →
      (PodcastPlayer.onEpisodeEnded pf lib p).player = { p with isPlaying := false } ∧
      (PodcastPlayer.onEpisodeEnded pf lib p).player.currentIndex = p.currentIndex ∧
      (PodcastPlayer.onEpisodeEnded pf lib p).player.isPlaying = false ∧
      (PodcastPlayer.onEpisodeEnded pf lib p).emitted = [Notification.onPlaybackEnded] ∧
      (PodcastPlayer.onEpisodeEnded pf lib p).library
        = lib.updatePodcastProgress pf.now e.id 0 100) := by
  have hmark := getPodcastById_updatePodcastProgress pf.now lib e.id 0 100 e0 hcat
  have hpc : (LibraryManager.applyProgress pf.now 0 100 e0).percentComplete = some 100 := by
    simp [LibraryManager.applyProgress]
  have hco : (LibraryManager.applyProgress pf.now 0 100 e0).completed = some true := by
    simp [LibraryManager.applyProgress]
  by_cases hlt : p.currentIndex < (p.queue.length : Int) - 1
  · have hended : PodcastPlayer.onEpisodeEnded pf lib p =
        { player := (PodcastPlayer.next pf (lib.updatePodcastProgress pf.now e.id 0 100) p).player,
          library := (PodcastPlayer.next pf (lib.updatePodcastProgress pf.now e.id 0 100) p).library,
          result := (PodcastPlayer.next pf (lib.updatePodcastProgress pf.now e.id 0 100) p).result.map
            (fun _ => ()) } := by
      unfold PodcastPlayer.onEpisodeEnded
      simp only [hcur]
      rw [if_pos hlt]
    have hq : p.queue ≠ [] := by
      intro h0
      rw [h0] at hlt
      simp at hlt
      omega
    have hc : p.currentIndex + 1 = (p.currentIndex + 1) % (p.queue.length : Int) :=
      (Int.emod_eq_of_lt (by omega) (by omega)).symm
    obtain ⟨x, hidx⟩ := index_isSome p.queue (p.currentIndex + 1) (by omega) (by omega)
    have heq := podcast_next_eq pf (lib.updatePodcastProgress pf.now e.id 0 100) p hq hi _ hc
    rw [hidx] at heq
    rw [heq] at hended
    obtain ⟨f1, f2, f3, f4⟩ := playEpisode_some_fields pf
      (lib.updatePodcastProgress pf.now e.id 0 100)
      { p with currentIndex := p.currentIndex + 1 } x p.queue (p.currentIndex + 1)
    refine ⟨?_, fun _ => ⟨?_, ?_, ?_, x, hidx, ?_, ?_, ?_⟩, fun hn => absurd hlt hn⟩
    · rw [hended]
      rcases playEpisode_library pf (lib.updatePodcastProgress pf.now e.id 0 100)
        { p with currentIndex := p.currentIndex + 1 } x (some p.queue) (p.currentIndex + 1)
        with h1 | h1
      · exact ⟨_, by simp only [h1]; exact hmark, hpc, hco⟩
      · obtain ⟨e2, g1, _, g3, g4, _, _⟩ := incrementPlayCount_keeps_progress pf.now
          (lib.updatePodcastProgress pf.now e.id 0 100) x.id Kind.podcast e.id _ hmark
        exact ⟨e2, by simp only [h1]; exact g1, g3.trans hpc, g4.trans hco⟩
    · rw [hended]; exact f1
    · rw [hended]; exact f2
    · rw [hended]
    · rw [hended]; exact f3
    · rw [hended]; exact f4
    · intro hsome
      obtain ⟨d, hd⟩ := Option.isSome_iff_exists.mp hsome
      obtain ⟨g1, g2, _⟩ := playEpisode_some_ok pf (lib.updatePodcastProgress pf.now e.id 0 100)
        { p with currentIndex := p.currentIndex + 1 } x p.queue (p.currentIndex + 1) d hd
      rw [hended]
      exact ⟨by simp only [g1]; rfl, g2⟩
  · have hended : PodcastPlayer.onEpisodeEnded pf lib p =
        { player := { p with isPlaying := false },
          library := lib.updatePodcastProgress pf.now e.id 0 100, result := .ok (),
          emitted := [Notification.onPlaybackEnded] } := by
      unfold PodcastPlayer.onEpisodeEnded
      simp only [hcur]
      rw [if_neg hlt]
    refine ⟨?_, fun h => absurd h hlt, fun _ => ?_⟩
    · rw [hended]
      exact ⟨_, hmark, hpc, hco⟩
    · rw [hended]
      exact ⟨rfl, rfl, rfl, rfl, rfl⟩

/-- C13, at the scenario of the spec: the episode `e0` of the sample catalog,
loaded from saved position 120 as the only item of the queue, ends; the library
then has it at 100 percent and completed, the cursor stays at 0, the engine is
not playing and `ended` is reported.  With the three sample episodes as the
queue the cursor moves from 0 to 1. -/
theorem episode_ended_marks_and_advances_witness :
    (((PodcastPlayer.onEpisodeEnded (samplePlatform 9) sampleManager
        (PodcastPlayer.playEpisode (samplePlatform 1) sampleManager PodcastPlayer.new
          (some { sampleEpisode "e0" with progress := some 120 })
          (some [{ sampleEpisode "e0" with progress := some 120 }]) 0).player).library.getPodcastById
        "e0").map (fun e => (e.percentComplete, e.completed)) = some (some 100, some true)) ∧
    (PodcastPlayer.onEpisodeEnded (samplePlatform 9) sampleManager
        (PodcastPlayer.playEpisode (samplePlatform 1) sampleManager PodcastPlayer.new
          (some { sampleEpisode "e0" with progress := some 120 })
          (some [{ sampleEpisode "e0" with progress := some 120 }]) 0).player).emitted
      = [Notification.onPlaybackEnded] ∧
    (PodcastPlayer.onEpisodeEnded (samplePlatform 9) sampleManager
      (samplePodcast 0)).player.currentIndex = 1 := by
  have h := episode_ended_marks_and_advances (samplePlatform 9) sampleManager
    (PodcastPlayer.playEpisode (samplePlatform 1) sampleManager PodcastPlayer.new
      (some { sampleEpisode "e0" with progress := some 120 })
      (some [{ sampleEpisode "e0" with progress := some 120 }]) 0).player
    { sampleEpisode "e0" with progress := some 120 } (sampleEpisode "e0") rfl (by decide)
    (by decide)
  have h2 := episode_ended_marks_and_advances (samplePlatform 9) sampleManager
    (samplePodcast 0) (sampleEpisode "e0") (sampleEpisode "e0") (by decide) (by decide)
    (by decide)
  obtain ⟨⟨e1, ha, hb, hc⟩, _, hidle⟩ := h
  refine ⟨?_, (hidle (by decide)).2.2.2.1, ?_⟩
  · have ha2 : (PodcastPlayer.onEpisodeEnded (samplePlatform 9) sampleManager
        (PodcastPlayer.playEpisode (samplePlatform 1) sampleManager PodcastPlayer.new
          (some { sampleEpisode "e0" with progress := some 120 })
          (some [{ sampleEpisode "e0" with progress := some 120 }]) 0).player).library.getPodcastById
        "e0" = some e1 := ha
    rw [ha2]
    simp [hb, hc]
  · have := (h2.2.1 (by decide)).1
    rw [this]
    rfl

/-! ## Lemmas on a recorded play -/

theorem updateFirst_split {α : Type} (p : α → Bool) (f : α → α) :
    ∀ (l : List α) (t : α), l.find? p = some t →
      ∃ pre post, l = pre ++ t :: post ∧ (∀ x ∈ pre, p x = false) ∧
        LibraryManager.updateFirst p f l = pre ++ f t :: post := by
  intro l
  induction l with
  | nil => intro t h; simp at h
  | cons a l ih =>
    intro t h
    by_cases hp : p a = true
    · have hx : a = t := by simpa [List.find?, hp] using h
      subst hx
      exact ⟨[], l, rfl, by simp, by simp [LibraryManager.updateFirst, hp]⟩
    · have hx : l.find? p = some t := by simpa [List.find?, hp] using h
      obtain ⟨pre, post, h1, h2, h3⟩ := ih t hx
      refine ⟨a :: pre, post, by rw [h1]; rfl, ?_, by simp [LibraryManager.updateFirst, hp, h3]⟩
      intro x hx2
      rcases List.mem_cons.mp hx2 with h4 | h4
      · subst h4; simpa using hp
      · exact h2 x h4

theorem incrementPlayCount_music_eq (now : Nat) (m : LibraryManager) (id : String)
    (t : Track) (l : Library) (hl : m.library = some l) (h : m.getMusicById id = some t) :
    m.incrementPlayCount now id Kind.music
      = LibraryManager.saveToLocalStorage { m with library := some { l with
          music := (LibraryManager.updateFirst (fun track => track.id == id)
            (fun item => { item with playCount := some (orZero item.playCount + 1),
                                     lastPlayed := some now }) l.music) } } := by
  simp only [LibraryManager.incrementPlayCount, h, hl]

theorem incrementPlayCount_podcast_eq (now : Nat) (m : LibraryManager) (id : String)
    (e : Episode) (l : Library) (hl : m.library = some l) (h : m.getPodcastById id = some e) :
    m.incrementPlayCount now id Kind.podcast
      = LibraryManager.saveToLocalStorage { m with library := some { l with
          podcasts := (LibraryManager.updateFirst (fun ep => ep.id == id)
            (fun item => { item with playCount := some (orZero item.playCount + 1),
                                     lastPlayed := some now }) l.podcasts) } } := by
  simp only [LibraryManager.incrementPlayCount, h, hl]

theorem getMusicById_incrementPlayCount (now : Nat) (m : LibraryManager) (id : String)
    (t : Track) (h : m.getMusicById id = some t) :
    (m.incrementPlayCount now id Kind.music).getMusicById id
      = some { t with playCount := some (orZero t.playCount + 1), lastPlayed := some now } := by
  cases hl : m.library with
  | none => simp [LibraryManager.getMusicById, LibraryManager.getAllMusic, hl] at h
  | some l =>
    have h2 : l.music.find? (fun track => track.id == id) = some t := by
      simpa [LibraryManager.getMusicById, LibraryManager.getAllMusic, hl] using h
    rw [incrementPlayCount_music_eq now m id t l hl h]
    have hfind := find_updateFirst (fun track : Track => track.id == id)
      (fun item => { item with playCount := some (orZero item.playCount + 1),
                               lastPlayed := some now })
      (fun _ => rfl) l.music
    simp only [LibraryManager.saveToLocalStorage, LibraryManager.getMusicById,
      LibraryManager.getAllMusic, hfind, h2, Option.map_some']

theorem getPodcastById_incrementPlayCount (now : Nat) (m : LibraryManager) (id : String)
    (e : Episode) (h : m.getPodcastById id = some e) :
    (m.incrementPlayCount now id Kind.podcast).getPodcastById id
      = some { e with playCount := some (orZero e.playCount + 1), lastPlayed := some now } := by
  cases hl : m.library with
  | none => simp [LibraryManager.getPodcastById, LibraryManager.getAllPodcasts, hl] at h
  | some l =>
    have h2 : l.podcasts.find? (fun ep => ep.id == id) = some e := by
      simpa [LibraryManager.getPodcastById, LibraryManager.getAllPodcasts, hl] using h
    rw [incrementPlayCount_podcast_eq now m id e l hl h]
    have hfind := find_updateFirst (fun ep : Episode => ep.id == id)
      (fun item => { item with playCount := some (orZero item.playCount + 1),
                               lastPlayed := some now })
      (fun _ => rfl) l.podcasts
    simp only [LibraryManager.saveToLocalStorage, LibraryManager.getPodcastById,
      LibraryManager.getAllPodcasts, hfind, h2, Option.map_some']

theorem recordPlays_music_count (nows : List Nat) :
    ∀ (m : LibraryManager) (id : String) (t : Track), m.getMusicById id = some t →
      ((recordPlays nows m id Kind.music).getMusicById id).map (fun x => orZero x.playCount)
        = some (orZero t.playCount + nows.length) := by
  induction nows with
  | nil => intro m id t h; simp [recordPlays, h]
  | cons now nows ih =>
    intro m id t h
    have h1 := getMusicById_incrementPlayCount now m id t h
    have h2 := ih (m.incrementPlayCount now id Kind.music) id _ h1
    simp only [recordPlays, List.foldl_cons] at h2 ⊢
    rw [h2]
    simp [orZero]
    omega

theorem recordPlays_podcast_count (nows : List Nat) :
    ∀ (m : LibraryManager) (id : String) (e : Episode), m.getPodcastById id = some e →
      ((recordPlays nows m id Kind.podcast).getPodcastById id).map (fun x => orZero x.playCount)
        = some (orZero e.playCount + nows.length) := by
  induction nows with
  | nil => intro m id e h; simp [recordPlays, h]
  | cons now nows ih =>
    intro m id e h
    have h1 := getPodcastById_incrementPlayCount now m id e h
    have h2 := ih (m.incrementPlayCount now id Kind.podcast) id _ h1
    simp only [recordPlays, List.foldl_cons] at h2 ⊢
    rw [h2]
    simp [orZero]
    omega

/-- C14. `incrementPlayCount(id, type)` for an id of the given kind in the
catalog rewrites the item found (the first with that id): its `playCount`
becomes the former count, an absent one read as 0, plus 1, its `lastPlayed` the
clock reading; its other fields, the items before and after it and the list of
the other kind are as before.  After `k` consecutive calls the count is the
former count plus `k`.  For an id that is not in the catalog the call changes
nothing. -/
theorem recordPlay_increments :
    (∀ (now : Nat) (m : LibraryManager) (id : String) (t : Track),
      m.getMusicById id = some t →
      ∃ l pre post, m.library = some l ∧ l.music = pre ++ t :: post ∧
        (∀ x ∈ pre, x.id ≠ id) ∧
        (m.incrementPlayCount now id Kind.music).library
          = some { music := pre ++ { t with playCount := some (orZero t.playCount + 1),
                                            lastPlayed := some now } :: post,
                   podcasts := l.podcasts }) ∧
    (∀ (now : Nat) (m : LibraryManager) (id : String) (e : Episode),
      m.getPodcastById id = some e →
      ∃ l pre post, m.library = some l ∧ l.podcasts = pre ++ e :: post ∧
        (∀ x ∈ pre, x.id ≠ id) ∧
        (m.incrementPlayCount now id Kind.podcast).library
          = some { music := l.music,
                   podcasts := pre ++ { e with playCount := some (orZero e.playCount + 1),
                                               lastPlayed := some now } :: post }) ∧
    (∀ (nows : List Nat) (m : LibraryManager) (id : String) (t : Track),
      m.getMusicById id = some t →
      ((recordPlays nows m id Kind.music).getMusicById id).map (fun x => orZero x.playCount)
        = some (orZero t.playCount + nows.length)) ∧
    (∀ (nows : List Nat) (m : LibraryManager) (id : String) (e : Episode),
      m.getPodcastById id = some e →
      ((recordPlays nows m id Kind.podcast).getPodcastById id).map (fun x => orZero x.playCount)
        = some (orZero e.playCount + nows.length)) ∧
    (∀ (now : Nat) (m : LibraryManager) (id : String),
      m.getMusicById id = none → m.incrementPlayCount now id Kind.music = m) ∧
    (∀ (now : Nat) (m : LibraryManager) (id : String),
      m.getPodcastById id = none → m.incrementPlayCount now id Kind.podcast = m) := by
  refine ⟨?_, ?_, fun nows m id t h => recordPlays_music_count nows m id t h,
    fun nows m id e h => recordPlays_podcast_count nows m id e h, ?_, ?_⟩
  · intro now m id t h
    cases hl : m.library with
    | none => simp [LibraryManager.getMusicById, LibraryManager.getAllMusic, hl] at h
    | some l =>
      have h2 : l.music.find? (fun track => track.id == id) = some t := by
        simpa [LibraryManager.getMusicById, LibraryManager.getAllMusic, hl] using h
      obtain ⟨pre, post, h3, h4, h5⟩ := updateFirst_split (fun track : Track => track.id == id)
        (fun item => { item with playCount := some (orZero item.playCount + 1),
                                 lastPlayed := some now }) l.music t h2
      refine ⟨l, pre, post, rfl, h3, ?_, ?_⟩
      · intro x hx
        simpa using h4 x hx
      · rw [incrementPlayCount_music_eq now m id t l hl h, h5]
        rfl
  · intro now m id e h
    cases hl : m.library with
    | none => simp [LibraryManager.getPodcastById, LibraryManager.getAllPodcasts, hl] at h
    | some l =>
      have h2 : l.podcasts.find? (fun ep => ep.id == id) = some e := by
        simpa [LibraryManager.getPodcastById, LibraryManager.getAllPodcasts, hl] using h
      obtain ⟨pre, post, h3, h4, h5⟩ := updateFirst_split (fun ep : Episode => ep.id == id)
        (fun item => { item with playCount := some (orZero item.playCount + 1),
                                 lastPlayed := some now }) l.podcasts e h2
      refine ⟨l, pre, post, rfl, h3, ?_, ?_⟩
      · intro x hx
        simpa using h4 x hx
      · rw [incrementPlayCount_podcast_eq now m id e l hl h, h5]
        rfl
  · intro now m id h
    simp [LibraryManager.incrementPlayCount, h]
  · intro now m id h
    simp [LibraryManager.incrementPlayCount, h]

/-- C14, at the sample catalog: three recorded plays of track `t1` give it the
count 3, and a play of an id that is not in the catalog leaves the library
manager as it is. -/
theorem recordPlay_increments_witness :
    ((recordPlays [1, 2, 3] sampleManager "t1" Kind.music).getMusicById "t1").map
        (fun x => orZero x.playCount) = some 3 ∧
    sampleManager.incrementPlayCount 1 "nothing" Kind.music = sampleManager :=
  ⟨recordPlay_increments.2.2.1 [1, 2, 3] sampleManager "t1" (sampleTrack "t1") (by decide),
   recordPlay_increments.2.2.2.2.1 1 sampleManager "nothing" (by decide)⟩

/-- C15. `mergeLibraries(savedLibrary)` on a loaded catalog gives the catalog's
items, in the catalog's order, with their static fields.  Item by item: a track
whose id occurs in the saved tracks has the PlayState of the first saved track
with that id; an episode whose id occurs in the saved episodes has the play
count, position, percentage, `lastListened`, `completed` and `completedAt` of
the first saved episode with that id, and the `lastPlayed` it was loaded with;
an item whose id does not occur is the item as loaded.  A saved id that is not
in the catalog is not among the ids of the result. -/
theorem mergeLibraries_keeps_catalog (m : LibraryManager) (cat saved : Library)
    (hcat : m.library = some cat) :
    ∃ R, (m.mergeLibraries saved).library = some R ∧
      R.music.map Track.staticFields = cat.music.map Track.staticFields ∧
      R.podcasts.map Episode.staticFields = cat.podcasts.map Episode.staticFields ∧
      List.Forall₂ (fun c r =>
        match saved.music.find? (fun s => s.id == c.id) with
        | some s => r.playState = s.playState
        | none => r = c) cat.music R.music ∧
      List.Forall₂ (fun c r =>
        match saved.podcasts.find? (fun s => s.id == c.id) with
        | some s => r.playState.withoutLastPlayed = s.playState.withoutLastPlayed ∧
            r.lastPlayed = c.lastPlayed
        | none => r = c) cat.podcasts R.podcasts ∧
      (∀ s ∈ saved.music, s.id ∉ cat.music.map Track.id → s.id ∉ R.music.map Track.id) ∧
      (∀ s ∈ saved.podcasts, s.id ∉ cat.podcasts.map Episode.id →
        s.id ∉ R.podcasts.map Episode.id) := by
  have hts : ∀ c : Track, (LibraryManager.mergeTrack saved.music c).staticFields
      = c.staticFields := by
    intro c
    unfold LibraryManager.mergeTrack
    cases saved.music.find? (fun t => t.id == c.id) <;> rfl
  have hes : ∀ c : Episode, (LibraryManager.mergeEpisode saved.podcasts c).staticFields
      = c.staticFields := by
    intro c
    unfold LibraryManager.mergeEpisode
    cases saved.podcasts.find? (fun t => t.id == c.id) <;> rfl
  have hstm : (cat.music.map (LibraryManager.mergeTrack saved.music)).map Track.staticFields
      = cat.music.map Track.staticFields := by
    rw [List.map_map]
    exact List.map_congr_left (fun c _ => hts c)
  have hste : (cat.podcasts.map (LibraryManager.mergeEpisode saved.podcasts)).map
      Episode.staticFields = cat.podcasts.map Episode.staticFields := by
    rw [List.map_map]
    exact List.map_congr_left (fun c _ => hes c)
  have hidm : (cat.music.map (LibraryManager.mergeTrack saved.music)).map Track.id
      = cat.music.map Track.id := by
    have := congrArg (List.map (fun x : String × String × String × Option String ×
      Option String × String × Option String × Nat => x.1)) hstm
    simpa [List.map_map, Function.comp, Track.staticFields] using this
  have hide : (cat.podcasts.map (LibraryManager.mergeEpisode saved.podcasts)).map Episode.id
      = cat.podcasts.map Episode.id := by
    have := congrArg (List.map (fun x : String × String × String × Option String ×
      String × Option String × Nat => x.1)) hste
    simpa [List.map_map, Function.comp, Episode.staticFields] using this
  refine ⟨{ music := cat.music.map (LibraryManager.mergeTrack saved.music),
            podcasts := cat.podcasts.map (LibraryManager.mergeEpisode saved.podcasts) },
    by simp only [LibraryManager.mergeLibraries, hcat], hstm, hste, ?_, ?_, ?_, ?_⟩
  · rw [List.forall₂_map_right_iff, List.forall₂_same]
    intro c _
    unfold LibraryManager.mergeTrack
    cases saved.music.find? (fun s => s.id == c.id) with
    | none => rfl
    | some s => simp [Track.playState, orZero]
  · rw [List.forall₂_map_right_iff, List.forall₂_same]
    intro c _
    unfold LibraryManager.mergeEpisode
    cases saved.podcasts.find? (fun s => s.id == c.id) with
    | none => rfl
    | some s => simp [Episode.playState, EpisodePlayState.withoutLastPlayed, orZero, orZeroQ]
  · intro s _ hs
    show s.id ∉ (cat.music.map (LibraryManager.mergeTrack saved.music)).map Track.id
    rw [hidm]
    exact hs
  · intro s _ hs
    show s.id ∉ (cat.podcasts.map (LibraryManager.mergeEpisode saved.podcasts)).map Episode.id
    rw [hide]
    exact hs

/-- C15, at the sample catalog and `sampleSaved`, which holds track `t1` with
play count 4 and a track `gone` that is not in the catalog: the result has the
three tracks of the catalog in order, `t1` with count 4. -/
theorem mergeLibraries_keeps_catalog_witness :
    ∃ R, (sampleManager.mergeLibraries sampleSaved).library = some R ∧
      R.music.map (fun t => (t.id, t.playCount, t.lastPlayed))
        = [("t0", none, none), ("t1", some 4, some 8), ("t2", none, none)] := by
  obtain ⟨R, hR, _⟩ := mergeLibraries_keeps_catalog sampleManager sampleLibrary sampleSaved rfl
  refine ⟨R, hR, ?_⟩
  have h2 : (sampleManager.mergeLibraries sampleSaved).library.map
      (fun R => R.music.map (fun t => (t.id, t.playCount, t.lastPlayed)))
      = some [("t0", none, none), ("t1", some 4, some 8), ("t2", none, none)] := by decide
  rw [hR] at h2
  exact Option.some.inj h2

/-- C16. In both engines, with an empty queue, `next()` and `previous()` return
`null` and change nothing: the engine (cursor, current item, playing flag,
element and so playback position) and the library (so every play count) are as
before, and no callback is invoked. -/
theorem empty_queue_is_noop :
    (∀ (pf : Platform) (lib : LibraryManager) (p : MusicPlayer), p.queue = [] →
      ((MusicPlayer.next pf lib p).player = p ∧
       (MusicPlayer.next pf lib p).library = lib ∧
       (MusicPlayer.next pf lib p).result = .ok none ∧
       (MusicPlayer.next pf lib p).emitted = []) ∧
      ((MusicPlayer.previous pf lib p).player = p ∧
       (MusicPlayer.previous pf lib p).library = lib ∧
       (MusicPlayer.previous pf lib p).result = .ok none ∧
       (MusicPlayer.previous pf lib p).emitted = [])) ∧
    (∀ (pf : Platform) (lib : LibraryManager) (p : PodcastPlayer), p.queue = [] →
      ((PodcastPlayer.next pf lib p).player = p ∧
       (PodcastPlayer.next pf lib p).library = lib ∧
       (PodcastPlayer.next pf lib p).result = .ok none ∧
       (PodcastPlayer.next pf lib p).emitted = []) ∧
      ((PodcastPlayer.previous pf lib p).player = p ∧
       (PodcastPlayer.previous pf lib p).library = lib ∧
       (PodcastPlayer.previous pf lib p).result = .ok none ∧
       (PodcastPlayer.previous pf lib p).emitted = [])) := by
  constructor
  · intro pf lib p hq
    simp [MusicPlayer.next, MusicPlayer.previous, hq]
  · intro pf lib p hq
    simp [PodcastPlayer.next, PodcastPlayer.previous, hq]

/-- C16, at new engines (empty queue, cursor -1) and at an engine that lost its
queue while 10 seconds into a track it is playing, with shuffle on. -/
theorem empty_queue_is_noop_witness :
    (MusicPlayer.next (samplePlatform 1) sampleManager MusicPlayer.new).player = MusicPlayer.new ∧
    (MusicPlayer.previous (samplePlatform 1) sampleManager
      { sampleMusic 1 with queue := [], isPlaying := true, isShuffle := true,
                           audio := { (sampleMusic 1).audio with currentTime := 10 } }).player
      = { sampleMusic 1 with queue := [], isPlaying := true, isShuffle := true,
                             audio := { (sampleMusic 1).audio with currentTime := 10 } } ∧
    (PodcastPlayer.next (samplePlatform 1) sampleManager PodcastPlayer.new).result = .ok none ∧
    (PodcastPlayer.previous (samplePlatform 1) sampleManager PodcastPlayer.new).library
      = sampleManager :=
  ⟨((empty_queue_is_noop.1 (samplePlatform 1) sampleManager MusicPlayer.new rfl).1).1,
   ((empty_queue_is_noop.1 (samplePlatform 1) sampleManager
      { sampleMusic 1 with queue := [], isPlaying := true, isShuffle := true,
                           audio := { (sampleMusic 1).audio with currentTime := 10 } } rfl).2).1,
   ((empty_queue_is_noop.2 (samplePlatform 1) sampleManager PodcastPlayer.new rfl).1).2.2.1,
   ((empty_queue_is_noop.2 (samplePlatform 1) sampleManager PodcastPlayer.new rfl).2).2.1⟩

/-! ## Lemmas on a failed load -/

theorem music_next_unfold (pf : Platform) (lib : LibraryManager) (p : MusicPlayer)
    (hq : p.queue ≠ []) (c : Int)
    (hc : c = if p.isShuffle then Int.floor (pf.random * (p.queue.length : ℚ))
      else (p.currentIndex + 1).tmod (p.queue.length : Int)) :
    MusicPlayer.next pf lib p =
      { player := (MusicPlayer.playTrack pf lib { p with currentIndex := c }
            (index p.queue c) (some p.queue) c).player,
        library := (MusicPlayer.playTrack pf lib { p with currentIndex := c }
            (index p.queue c) (some p.queue) c).library,
        result := (MusicPlayer.playTrack pf lib { p with currentIndex := c }
            (index p.queue c) (some p.queue) c).result.map (fun _ => index p.queue c) } := by
  have hne : p.queue.length ≠ 0 := by
    have := List.length_pos.mpr hq
    omega
  subst hc
  unfold MusicPlayer.next
  rw [if_neg hne]
  by_cases hs : p.isShuffle = true
  · simp only [hs, if_true]
  · simp only [hs, if_false]
    rfl

theorem music_previous_unfold (pf : Platform) (lib : LibraryManager) (p : MusicPlayer)
    (hq : p.queue ≠ []) (ht : p.audio.currentTime ≤ 3) (c : Int)
    (hc : c = if p.isShuffle then Int.floor (pf.random * (p.queue.length : ℚ))
      else (p.currentIndex - 1 + (p.queue.length : Int)).tmod (p.queue.length : Int)) :
    MusicPlayer.previous pf lib p =
      { player := (MusicPlayer.playTrack pf lib { p with currentIndex := c }
            (index p.queue c) (some p.queue) c).player,
        library := (MusicPlayer.playTrack pf lib { p with currentIndex := c }
            (index p.queue c) (some p.queue) c).library,
        result := (MusicPlayer.playTrack pf lib { p with currentIndex := c }
            (index p.queue c) (some p.queue) c).result.map (fun _ => index p.queue c) } := by
  have hne : p.queue.length ≠ 0 := by
    have := List.length_pos.mpr hq
    omega
  have hnt : ¬ p.audio.currentTime > 3 := not_lt.mpr ht
  subst hc
  unfold MusicPlayer.previous
  rw [if_neg hne, if_neg hnt]
  by_cases hs : p.isShuffle = true
  · simp only [hs, if_true]
  · simp only [hs, if_false]
    rfl

theorem podcast_next_unfold (pf : Platform) (lib : LibraryManager) (p : PodcastPlayer)
    (hq : p.queue ≠ []) (c : Int)
    (hc : c = (p.currentIndex + 1).tmod (p.queue.length : Int)) :
    PodcastPlayer.next pf lib p =
      { player := (PodcastPlayer.playEpisode pf lib { p with currentIndex := c }
            (index p.queue c) (some p.queue) c).player,
        library := (PodcastPlayer.playEpisode pf lib { p with currentIndex := c }
            (index p.queue c) (some p.queue) c).library,
        result := (PodcastPlayer.playEpisode pf lib { p with currentIndex := c }
            (index p.queue c) (some p.queue) c).result.map (fun _ => index p.queue c) } := by
  have hne : p.queue.length ≠ 0 := by
    have := List.length_pos.mpr hq
    omega
  subst hc
  unfold PodcastPlayer.next
  rw [if_neg hne]

theorem podcast_previous_unfold (pf : Platform) (lib : LibraryManager) (p : PodcastPlayer)
    (hq : p.queue ≠ []) (ht : p.audio.currentTime ≤ 3) (c : Int)
    (hc : c = (p.currentIndex - 1 + (p.queue.length : Int)).tmod (p.queue.length : Int)) :
    PodcastPlayer.previous pf lib p =
      { player := (PodcastPlayer.playEpisode pf lib { p with currentIndex := c }
            (index p.queue c) (some p.queue) c).player,
        library := (PodcastPlayer.playEpisode pf lib { p with currentIndex := c }
            (index p.queue c) (some p.queue) c).library,
        result := (PodcastPlayer.playEpisode pf lib { p with currentIndex := c }
            (index p.queue c) (some p.queue) c).result.map (fun _ => index p.queue c) } := by
  have hne : p.queue.length ≠ 0 := by
    have := List.length_pos.mpr hq
    omega
  have hnt : ¬ p.audio.currentTime > 3 := not_lt.mpr ht
  subst hc
  unfold PodcastPlayer.previous
  rw [if_neg hne, if_neg hnt]

theorem index_mem {α : Type} (arr : List α) (i : Int) (x : α) (h : index arr i = some x) :
    x ∈ arr := by
  unfold index at h
  by_cases h0 : 0 ≤ i
  · rw [if_pos h0] at h
    exact List.get?_mem h
  · rw [if_neg h0] at h
    cases h

theorem playTrack_fails (pf : Platform) (lib : LibraryManager) (p : MusicPlayer)
    (track : Option Track) (queue : Option (List Track)) (i : Int)
    (h : ∀ t, track = some t → pf.probe t.audioFile = none) :
    (∃ err, (MusicPlayer.playTrack pf lib p track queue i).result = .error err) ∧
    (MusicPlayer.playTrack pf lib p track queue i).player.isPlaying = p.isPlaying ∧
    (MusicPlayer.playTrack pf lib p track queue i).library = lib ∧
    (MusicPlayer.playTrack pf lib p track queue i).emitted = [] := by
  cases track with
  | none => cases queue <;> simp [MusicPlayer.playTrack]
  | some t => cases queue <;> simp [MusicPlayer.playTrack, h t rfl]

theorem playEpisode_fails (pf : Platform) (lib : LibraryManager) (p : PodcastPlayer)
    (episode : Option Episode) (queue : Option (List Episode)) (i : Int)
    (h : ∀ e, episode = some e → pf.probe e.audioFile = none) :
    (∃ err, (PodcastPlayer.playEpisode pf lib p episode queue i).result = .error err) ∧
    (PodcastPlayer.playEpisode pf lib p episode queue i).player.isPlaying = p.isPlaying ∧
    (PodcastPlayer.playEpisode pf lib p episode queue i).library = lib ∧
    (PodcastPlayer.playEpisode pf lib p episode queue i).emitted = [] := by
  cases episode with
  | none => cases queue <;> simp [PodcastPlayer.playEpisode]
  | some e => cases queue <;> simp [PodcastPlayer.playEpisode, h e rfl]

theorem except_map_error {ε α β : Type} (f : α → β) (x : Except ε α)
    (h : ∃ err, x = .error err) : ∃ err, x.map f = .error err := by
  obtain ⟨err, rfl⟩ := h
  exact ⟨err, rfl⟩

theorem except_map_error_inv {ε α β : Type} (f : α → β) (x : Except ε α) (err : ε)
    (h : x.map f = .error err) : x = .error err := by
  cases x with
  | error e =>
    have hm : (Except.error e : Except ε α).map f = .error e := rfl
    rw [hm] at h
    cases h
    rfl
  | ok a =>
    have hm : (Except.ok a : Except ε α).map f = .ok (f a) := rfl
    rw [hm] at h
    cases h

theorem playTrack_unopened (pf : Platform) (lib : LibraryManager) (p : MusicPlayer)
    (t : Track) (queue : Option (List Track)) (i : Int) (h : pf.probe t.audioFile = none) :
    (MusicPlayer.playTrack pf lib p (some t) queue i).result
      = .error PlaybackError.notSupported ∧
    (MusicPlayer.playTrack pf lib p (some t) queue i).player.isPlaying = p.isPlaying ∧
    (MusicPlayer.playTrack pf lib p (some t) queue i).library = lib ∧
    (MusicPlayer.playTrack pf lib p (some t) queue i).emitted = [] := by
  cases queue <;> simp [MusicPlayer.playTrack, h]

theorem playEpisode_unopened (pf : Platform) (lib : LibraryManager) (p : PodcastPlayer)
    (e : Episode) (queue : Option (List Episode)) (i : Int) (h : pf.probe e.audioFile = none) :
    (PodcastPlayer.playEpisode pf lib p (some e) queue i).result
      = .error PlaybackError.notSupported ∧
    (PodcastPlayer.playEpisode pf lib p (some e) queue i).player.isPlaying = p.isPlaying ∧
    (PodcastPlayer.playEpisode pf lib p (some e) queue i).library = lib ∧
    (PodcastPlayer.playEpisode pf lib p (some e) queue i).emitted = [] := by
  cases queue <;> simp [PodcastPlayer.playEpisode, h]

theorem playTrack_thrown (pf : Platform) (lib : LibraryManager) (p : MusicPlayer)
    (track : Option Track) (queue : Option (List Track)) (i : Int) (err : PlaybackError)
    (h : (MusicPlayer.playTrack pf lib p track queue i).result = .error err) :
    (MusicPlayer.playTrack pf lib p track queue i).player.isPlaying = p.isPlaying ∧
    (MusicPlayer.playTrack pf lib p track queue i).library = lib := by
  cases track with
  | none => cases queue <;> simp [MusicPlayer.playTrack]
  | some t =>
    cases hp : pf.probe t.audioFile with
    | none => exact ⟨(playTrack_unopened pf lib p t queue i hp).2.1,
        (playTrack_unopened pf lib p t queue i hp).2.2.1⟩
    | some d =>
      have hok : (MusicPlayer.playTrack pf lib p (some t) queue i).result = .ok true := by
        cases queue <;> simp [MusicPlayer.playTrack, hp]
      rw [hok] at h
      cases h

theorem playEpisode_thrown (pf : Platform) (lib : LibraryManager) (p : PodcastPlayer)
    (episode : Option Episode) (queue : Option (List Episode)) (i : Int) (err : PlaybackError)
    (h : (PodcastPlayer.playEpisode pf lib p episode queue i).result = .error err) :
    (PodcastPlayer.playEpisode pf lib p episode queue i).player.isPlaying = p.isPlaying ∧
    (PodcastPlayer.playEpisode pf lib p episode queue i).library = lib := by
  cases episode with
  | none => cases queue <;> simp [PodcastPlayer.playEpisode]
  | some e =>
    cases hp : pf.probe e.audioFile with
    | none => exact ⟨(playEpisode_unopened pf lib p e queue i hp).2.1,
        (playEpisode_unopened pf lib p e queue i hp).2.2.1⟩
    | some d =>
      have hok : (PodcastPlayer.playEpisode pf lib p (some e) queue i).result = .ok true := by
        cases queue <;> simp [PodcastPlayer.playEpisode, hp]
      rw [hok] at h
      cases h

theorem index_some_ne_nil {α : Type} (arr : List α) (i : Int) (x : α)
    (h : index arr i = some x) : arr ≠ [] :=
  List.ne_nil_of_mem (index_mem arr i x h)

theorem music_next_unopened (pf : Platform) (lib : LibraryManager) (p : MusicPlayer)
    (c : Int) (t : Track)
    (hc : c = if p.isShuffle then Int.floor (pf.random * (p.queue.length : ℚ))
      else (p.currentIndex + 1).tmod (p.queue.length : Int))
    (hi : index p.queue c = some t) (h : pf.probe t.audioFile = none) :
    (MusicPlayer.next pf lib p).result = .error PlaybackError.notSupported ∧
    (MusicPlayer.next pf lib p).player.isPlaying = p.isPlaying ∧
    (MusicPlayer.next pf lib p).library = lib ∧
    (MusicPlayer.next pf lib p).emitted = [] := by
  obtain ⟨g1, g2, g3, _⟩ :=
    playTrack_unopened pf lib { p with currentIndex := c } t (some p.queue) c h
  rw [music_next_unfold pf lib p (index_some_ne_nil _ _ _ hi) c hc, hi]
  refine ⟨?_, g2, g3, rfl⟩
  show ((MusicPlayer.playTrack pf lib { p with currentIndex := c } (some t) (some p.queue) c).result).map
    (fun _ => some t) = _
  rw [g1]
  rfl

theorem music_previous_unopened (pf : Platform) (lib : LibraryManager) (p : MusicPlayer)
    (c : Int) (t : Track) (ht : p.audio.currentTime ≤ 3)
    (hc : c = if p.isShuffle then Int.floor (pf.random * (p.queue.length : ℚ))
      else (p.currentIndex - 1 + (p.queue.length : Int)).tmod (p.queue.length : Int))
    (hi : index p.queue c = some t) (h : pf.probe t.audioFile = none) :
    (MusicPlayer.previous pf lib p).result = .error PlaybackError.notSupported ∧
    (MusicPlayer.previous pf lib p).player.isPlaying = p.isPlaying ∧
    (MusicPlayer.previous pf lib p).library = lib ∧
    (MusicPlayer.previous pf lib p).emitted = [] := by
  obtain ⟨g1, g2, g3, _⟩ :=
    playTrack_unopened pf lib { p with currentIndex := c } t (some p.queue) c h
  rw [music_previous_unfold pf lib p (index_some_ne_nil _ _ _ hi) ht c hc, hi]
  refine ⟨?_, g2, g3, rfl⟩
  show ((MusicPlayer.playTrack pf lib { p with currentIndex := c } (some t) (some p.queue) c).result).map
    (fun _ => some t) = _
  rw [g1]
  rfl

theorem podcast_next_unopened (pf : Platform) (lib : LibraryManager) (p : PodcastPlayer)
    (c : Int) (e : Episode)
    (hc : c = (p.currentIndex + 1).tmod (p.queue.length : Int))
    (hi : index p.queue c = some e) (h : pf.probe e.audioFile = none) :
    (PodcastPlayer.next pf lib p).result = .error PlaybackError.notSupported ∧
    (PodcastPlayer.next pf lib p).player.isPlaying = p.isPlaying ∧
    (PodcastPlayer.next pf lib p).library = lib ∧
    (PodcastPlayer.next pf lib p).emitted = [] := by
  obtain ⟨g1, g2, g3, _⟩ :=
    playEpisode_unopened pf lib { p with currentIndex := c } e (some p.queue) c h
  rw [podcast_next_unfold pf lib p (index_some_ne_nil _ _ _ hi) c hc, hi]
  refine ⟨?_, g2, g3, rfl⟩
  show ((PodcastPlayer.playEpisode pf lib { p with currentIndex := c } (some e) (some p.queue) c).result).map
    (fun _ => some e) = _
  rw [g1]
  rfl

theorem podcast_previous_unopened (pf : Platform) (lib : LibraryManager) (p : PodcastPlayer)
    (c : Int) (e : Episode) (ht : p.audio.currentTime ≤ 3)
    (hc : c = (p.currentIndex - 1 + (p.queue.length : Int)).tmod (p.queue.length : Int))
    (hi : index p.queue c = some e) (h : pf.probe e.audioFile = none) :
    (PodcastPlayer.previous pf lib p).result = .error PlaybackError.notSupported ∧
    (PodcastPlayer.previous pf lib p).player.isPlaying = p.isPlaying ∧
    (PodcastPlayer.previous pf lib p).library = lib ∧
    (PodcastPlayer.previous pf lib p).emitted = [] := by
  obtain ⟨g1, g2, g3, _⟩ :=
    playEpisode_unopened pf lib { p with currentIndex := c } e (some p.queue) c h
  rw [podcast_previous_unfold pf lib p (index_some_ne_nil _ _ _ hi) ht c hc, hi]
  refine ⟨?_, g2, g3, rfl⟩
  show ((PodcastPlayer.playEpisode pf lib { p with currentIndex := c } (some e) (some p.queue) c).result).map
    (fun _ => some e) = _
  rw [g1]
  rfl

theorem music_next_thrown (pf : Platform) (lib : LibraryManager) (p : MusicPlayer)
    (err : PlaybackError) (h : (MusicPlayer.next pf lib p).result = .error err) :
    (MusicPlayer.next pf lib p).player.isPlaying = p.isPlaying ∧
    (MusicPlayer.next pf lib p).library = lib := by
  by_cases hq : p.queue = []
  · have hz : p.queue.length = 0 := by rw [hq]; rfl
    unfold MusicPlayer.next at h
    rw [if_pos hz] at h
    cases h
  · rw [music_next_unfold pf lib p hq _ rfl] at h ⊢
    exact playTrack_thrown pf lib _ _ _ _ err (except_map_error_inv _ _ err h)

theorem music_previous_thrown (pf : Platform) (lib : LibraryManager) (p : MusicPlayer)
    (err : PlaybackError) (h : (MusicPlayer.previous pf lib p).result = .error err) :
    (MusicPlayer.previous pf lib p).player.isPlaying = p.isPlaying ∧
    (MusicPlayer.previous pf lib p).library = lib := by
  by_cases hq : p.queue = []
  · have hz : p.queue.length = 0 := by rw [hq]; rfl
    unfold MusicPlayer.previous at h
    rw [if_pos hz] at h
    cases h
  · have hne : p.queue.length ≠ 0 := by
      have := List.length_pos.mpr hq
      omega
    by_cases ht : p.audio.currentTime > 3
    · unfold MusicPlayer.previous at h
      rw [if_neg hne, if_pos ht] at h
      cases h
    · rw [music_previous_unfold pf lib p hq (not_lt.mp ht) _ rfl] at h ⊢
      exact playTrack_thrown pf lib _ _ _ _ err (except_map_error_inv _ _ err h)

theorem podcast_next_thrown (pf : Platform) (lib : LibraryManager) (p : PodcastPlayer)
    (err : PlaybackError) (h : (PodcastPlayer.next pf lib p).result = .error err) :
    (PodcastPlayer.next pf lib p).player.isPlaying = p.isPlaying ∧
    (PodcastPlayer.next pf lib p).library = lib := by
  by_cases hq : p.queue = []
  · have hz : p.queue.length = 0 := by rw [hq]; rfl
    unfold PodcastPlayer.next at h
    rw [if_pos hz] at h
    cases h
  · rw [podcast_next_unfold pf lib p hq _ rfl] at h ⊢
    exact playEpisode_thrown pf lib _ _ _ _ err (except_map_error_inv _ _ err h)

theorem podcast_previous_thrown (pf : Platform) (lib : LibraryManager) (p : PodcastPlayer)
    (err : PlaybackError) (h : (PodcastPlayer.previous pf lib p).result = .error err) :
    (PodcastPlayer.previous pf lib p).player.isPlaying = p.isPlaying ∧
    (PodcastPlayer.previous pf lib p).library = lib := by
  by_cases hq : p.queue = []
  · have hz : p.queue.length = 0 := by rw [hq]; rfl
    unfold PodcastPlayer.previous at h
    rw [if_pos hz] at h
    cases h
  · have hne : p.queue.length ≠ 0 := by
      have := List.length_pos.mpr hq
      omega
    by_cases ht : p.audio.currentTime > 3
    · unfold PodcastPlayer.previous at h
      rw [if_neg hne, if_pos ht] at h
      cases h
    · rw [podcast_previous_unfold pf lib p hq (not_lt.mp ht) _ rfl] at h ⊢
      exact playEpisode_thrown pf lib _ _ _ _ err (except_map_error_inv _ _ err h)

/-- C17, as stated, fails: an engine that is playing the first sample item and
is then asked for an item whose resource does not open reports the failure but
still has its playing flag set, whether the load is asked for directly or
through `next()`. -/
theorem failed_load_idle_counterexample :
    (MusicPlayer.playTrack (samplePlatform 1) sampleManager MusicPlayer.new
      (some (sampleTrack "t0")) (some sampleLibrary.music) 0).player.isPlaying = true ∧
    (MusicPlayer.playTrack (deadPlatform 2) sampleManager
      (MusicPlayer.playTrack (samplePlatform 1) sampleManager MusicPlayer.new
        (some (sampleTrack "t0")) (some sampleLibrary.music) 0).player
      (some (sampleTrack "t1")) (some sampleLibrary.music) 1).result
      = .error PlaybackError.notSupported ∧
    (MusicPlayer.playTrack (deadPlatform 2) sampleManager
      (MusicPlayer.playTrack (samplePlatform 1) sampleManager MusicPlayer.new
        (some (sampleTrack "t0")) (some sampleLibrary.music) 0).player
      (some (sampleTrack "t1")) (some sampleLibrary.music) 1).player.isPlaying = true ∧
    (MusicPlayer.next (deadPlatform 2) sampleManager
      (MusicPlayer.playTrack (samplePlatform 1) sampleManager MusicPlayer.new
        (some (sampleTrack "t0")) (some sampleLibrary.music) 0).player).player.isPlaying = true ∧
    (PodcastPlayer.playEpisode (deadPlatform 2) sampleManager
      (PodcastPlayer.playEpisode (samplePlatform 1) sampleManager PodcastPlayer.new
        (some (sampleEpisode "e0")) (some sampleLibrary.podcasts) 0).player
      (some (sampleEpisode "e1")) (some sampleLibrary.podcasts) 1).result
      = .error PlaybackError.notSupported ∧
    (PodcastPlayer.playEpisode (deadPlatform 2) sampleManager
      (PodcastPlayer.playEpisode (samplePlatform 1) sampleManager PodcastPlayer.new
        (some (sampleEpisode "e0")) (some sampleLibrary.podcasts) 0).player
      (some (sampleEpisode "e1")) (some sampleLibrary.podcasts) 1).player.isPlaying = true := by
  refine ⟨rfl, rfl, rfl, ?_, rfl, rfl⟩
  decide

/-- C17, amended. When a load fails because the resource cannot be opened, the
failure is reported to the caller, no play is recorded, no callback is invoked,
and the playing flag keeps the value it had before the load: the engine is not
playing afterwards exactly when it was not playing before, so an engine that
was playing an earlier item is still flagged as playing.  This holds for
`playTrack` and `playEpisode`, and for `next()` and `previous()` whenever the
resource of the item they reach does not open, whatever the other items of the
queue, the cursor and the shuffle setting.  More generally, whenever one of
these calls throws, the playing flag and the library are as before the call. -/
theorem failed_load_keeps_playing_flag :
    (∀ (pf : Platform) (lib : LibraryManager) (p : MusicPlayer) (t : Track)
        (queue : Option (List Track)) (i : Int), pf.probe t.audioFile = none →
      (MusicPlayer.playTrack pf lib p (some t) queue i).result
        = .error PlaybackError.notSupported ∧
      (MusicPlayer.playTrack pf lib p (some t) queue i).player.isPlaying = p.isPlaying ∧
      (MusicPlayer.playTrack pf lib p (some t) queue i).library = lib ∧
      (MusicPlayer.playTrack pf lib p (some t) queue i).emitted = []) ∧
    (∀ (pf : Platform) (lib : LibraryManager) (p : PodcastPlayer) (e : Episode)
        (queue : Option (List Episode)) (i : Int), pf.probe e.audioFile = none →
      (PodcastPlayer.playEpisode pf lib p (some e) queue i).result
        = .error PlaybackError.notSupported ∧
      (PodcastPlayer.playEpisode pf lib p (some e) queue i).player.isPlaying = p.isPlaying ∧
      (PodcastPlayer.playEpisode pf lib p (some e) queue i).library = lib ∧
      (PodcastPlayer.playEpisode pf lib p (some e) queue i).emitted = []) ∧
    (∀ (pf : Platform) (lib : LibraryManager) (p : MusicPlayer) (c : Int) (t : Track),
      c = (if p.isShuffle then Int.floor (pf.random * (p.queue.length : ℚ))
        else (p.currentIndex + 1).tmod (p.queue.length : Int)) →
      index p.queue c = some t → pf.probe t.audioFile = none →
      (MusicPlayer.next pf lib p).result = .error PlaybackError.notSupported ∧
      (MusicPlayer.next pf lib p).player.isPlaying = p.isPlaying ∧
      (MusicPlayer.next pf lib p).library = lib ∧
      (MusicPlayer.next pf lib p).emitted = []) ∧
    (∀ (pf : Platform) (lib : LibraryManager) (p : MusicPlayer) (c : Int) (t : Track),
      p.audio.currentTime ≤ 3 →
      c = (if p.isShuffle then Int.floor (pf.random * (p.queue.length : ℚ))
        else (p.currentIndex - 1 + (p.queue.length : Int)).tmod (p.queue.length : Int)) →
      index p.queue c = some t → pf.probe t.audioFile = none →
      (MusicPlayer.previous pf lib p).result = .error PlaybackError.notSupported ∧
      (MusicPlayer.previous pf lib p).player.isPlaying = p.isPlaying ∧
      (MusicPlayer.previous pf lib p).library = lib ∧
      (MusicPlayer.previous pf lib p).emitted = []) ∧
    (∀ (pf : Platform) (lib : LibraryManager) (p : PodcastPlayer) (c : Int) (e : Episode),
      c = (p.currentIndex + 1).tmod (p.queue.length : Int) →
      index p.queue c = some e → pf.probe e.audioFile = none →
      (PodcastPlayer.next pf lib p).result = .error PlaybackError.notSupported ∧
      (PodcastPlayer.next pf lib p).player.isPlaying = p.isPlaying ∧
      (PodcastPlayer.next pf lib p).library = lib ∧
      (PodcastPlayer.next pf lib p).emitted = []) ∧
    (∀ (pf : Platform) (lib : LibraryManager) (p : PodcastPlayer) (c : Int) (e : Episode),
      p.audio.currentTime ≤ 3 →
      c = (p.currentIndex - 1 + (p.queue.length : Int)).tmod (p.queue.length : Int) →
      index p.queue c = some e → pf.probe e.audioFile = none →
      (PodcastPlayer.previous pf lib p).result = .error PlaybackError.notSupported ∧
      (PodcastPlayer.previous pf lib p).player.isPlaying = p.isPlaying ∧
      (PodcastPlayer.previous pf lib p).library = lib ∧
      (PodcastPlayer.previous pf lib p).emitted = []) ∧
    (∀ (pf : Platform) (lib : LibraryManager) (p : MusicPlayer) (err : PlaybackError),
      (∀ (track : Option Track) (queue : Option (List Track)) (i : Int),
        (MusicPlayer.playTrack pf lib p track queue i).result = .error err →
        (MusicPlayer.playTrack pf lib p track queue i).player.isPlaying = p.isPlaying ∧
        (MusicPlayer.playTrack pf lib p track queue i).library = lib) ∧
      ((MusicPlayer.next pf lib p).result = .error err →
        (MusicPlayer.next pf lib p).player.isPlaying = p.isPlaying ∧
        (MusicPlayer.next pf lib p).library = lib) ∧
      ((MusicPlayer.previous pf lib p).result = .error err →
        (MusicPlayer.previous pf lib p).player.isPlaying = p.isPlaying ∧
        (MusicPlayer.previous pf lib p).library = lib)) ∧
    (∀ (pf : Platform) (lib : LibraryManager) (p : PodcastPlayer) (err : PlaybackError),
      (∀ (episode : Option Episode) (queue : Option (List Episode)) (i : Int),
        (PodcastPlayer.playEpisode pf lib p episode queue i).result = .error err →
        (PodcastPlayer.playEpisode pf lib p episode queue i).player.isPlaying = p.isPlaying ∧
        (PodcastPlayer.playEpisode pf lib p episode queue i).library = lib) ∧
      ((PodcastPlayer.next pf lib p).result = .error err →
        (PodcastPlayer.next pf lib p).player.isPlaying = p.isPlaying ∧
        (PodcastPlayer.next pf lib p).library = lib) ∧
      ((PodcastPlayer.previous pf lib p).result = .error err →
        (PodcastPlayer.previous pf lib p).player.isPlaying = p.isPlaying ∧
        (PodcastPlayer.previous pf lib p).library = lib)) :=
  ⟨fun pf lib p t queue i h => playTrack_unopened pf lib p t queue i h,
   fun pf lib p e queue i h => playEpisode_unopened pf lib p e queue i h,
   fun pf lib p c t hc hi h => music_next_unopened pf lib p c t hc hi h,
   fun pf lib p c t ht hc hi h => music_previous_unopened pf lib p c t ht hc hi h,
   fun pf lib p c e hc hi h => podcast_next_unopened pf lib p c e hc hi h,
   fun pf lib p c e ht hc hi h => podcast_previous_unopened pf lib p c e ht hc hi h,
   fun pf lib p err => ⟨fun track queue i h => playTrack_thrown pf lib p track queue i err h,
     music_next_thrown pf lib p err, music_previous_thrown pf lib p err⟩,
   fun pf lib p err => ⟨fun episode queue i h => playEpisode_thrown pf lib p episode queue i err h,
     podcast_next_thrown pf lib p err, podcast_previous_thrown pf lib p err⟩⟩

/-- C17 amended, at engines that are playing and a queue with one resource
that does not open.  The music engine plays track `t0` at cursor 0 and `next()`
reaches `t1`, whose resource does not open: the call fails, nothing is recorded
and the engine is still flagged as playing.  The podcast engine plays episode
`e2` at cursor 2 and `previous()` reaches `e1`, with the same outcome. -/
theorem failed_load_keeps_playing_flag_witness :
    playingMusic.player.isPlaying = true ∧
    (MusicPlayer.next (brokenPlatform 2) playingMusic.library playingMusic.player).result
      = .error PlaybackError.notSupported ∧
    (MusicPlayer.next (brokenPlatform 2) playingMusic.library playingMusic.player).player.isPlaying
      = true ∧
    (MusicPlayer.next (brokenPlatform 2) playingMusic.library playingMusic.player).library
      = playingMusic.library ∧
    playingPodcast.player.isPlaying = true ∧
    (PodcastPlayer.previous (brokenPlatform 2) playingPodcast.library
      playingPodcast.player).result = .error PlaybackError.notSupported ∧
    (PodcastPlayer.previous (brokenPlatform 2) playingPodcast.library
      playingPodcast.player).player.isPlaying = true :=
  ⟨by decide,
   (failed_load_keeps_playing_flag.2.2.1 (brokenPlatform 2) playingMusic.library
      playingMusic.player 1 (sampleTrack "t1") (by decide) (by decide) (by decide)).1,
   (failed_load_keeps_playing_flag.2.2.1 (brokenPlatform 2) playingMusic.library
      playingMusic.player 1 (sampleTrack "t1") (by decide) (by decide) (by decide)).2.1.trans
      (by decide),
   (failed_load_keeps_playing_flag.2.2.1 (brokenPlatform 2) playingMusic.library
      playingMusic.player 1 (sampleTrack "t1") (by decide) (by decide) (by decide)).2.2.1,
   by decide,
   (failed_load_keeps_playing_flag.2.2.2.2.2.1 (brokenPlatform 2) playingPodcast.library
      playingPodcast.player 1 (sampleEpisode "e1") (by decide) (by decide) (by decide)
      (by decide)).1,
   (failed_load_keeps_playing_flag.2.2.2.2.2.1 (brokenPlatform 2) playingPodcast.library
      playingPodcast.player 1 (sampleEpisode "e1") (by decide) (by decide) (by decide)
      (by decide)).2.1.trans (by decide)⟩

/-! ## Lemmas on the sorted views -/

/-- The stable sort by a comparator that orders by a key, largest first: the
result is a rearrangement of the array, its keys do not increase, and the
elements of each key are the ones of the array in the array's order. -/
theorem arraySort_desc {α : Type} (compareFn : α → α → Int) (key : α → Nat)
    (hcmp : ∀ a b, compareFn a b ≤ 0 ↔ key b ≤ key a) (l : List α) :
    (arraySort compareFn l).Perm l ∧
    (arraySort compareFn l).Pairwise (fun a b => key b ≤ key a) ∧
    ∀ k, (arraySort compareFn l).filter (fun x => key x == k)
      = l.filter (fun x => key x == k) := by
  haveI : IsTotal α (fun a b => compareFn a b ≤ 0) :=
    ⟨fun a b => by
      rcases Nat.le_total (key b) (key a) with h | h
      · exact Or.inl ((hcmp a b).mpr h)
      · exact Or.inr ((hcmp b a).mpr h)⟩
  haveI : IsTrans α (fun a b => compareFn a b ≤ 0) :=
    ⟨fun a b c hab hbc =>
      (hcmp a c).mpr (le_trans ((hcmp b c).mp hbc) ((hcmp a b).mp hab))⟩
  have hperm : (arraySort compareFn l).Perm l :=
    List.perm_insertionSort (fun a b => compareFn a b ≤ 0) l
  have hsorted : (arraySort compareFn l).Pairwise (fun a b => compareFn a b ≤ 0) :=
    List.sorted_insertionSort (fun a b => compareFn a b ≤ 0) l
  refine ⟨hperm, hsorted.imp (fun h => (hcmp _ _).mp h), ?_⟩
  intro k
  have hpw : (l.filter (fun x => key x == k)).Pairwise (fun a b => compareFn a b ≤ 0) := by
    apply List.pairwise_of_forall_mem_list
    intro a ha b hb
    have hka : key a = k := by simpa using (List.mem_filter.mp ha).2
    have hkb : key b = k := by simpa using (List.mem_filter.mp hb).2
    exact (hcmp a b).mpr (by omega)
  have hsub : List.Sublist (l.filter (fun x => key x == k)) (arraySort compareFn l) :=
    List.sublist_insertionSort hpw (List.filter_sublist l)
  have hsub2 := hsub.filter (fun x => key x == k)
  rw [List.filter_filter] at hsub2
  simp only [Bool.and_self] at hsub2
  exact (hsub2.eq_of_length ((hperm.filter _).length_eq).symm).symm

/-- The first `n` elements of a list whose keys do not increase: their keys do
not increase, and no element left out has a larger key than one taken. -/
theorem take_of_desc {α : Type} (key : α → Nat) (s : List α)
    (hs : s.Pairwise (fun a b => key b ≤ key a)) (n : Nat) :
    (s.take n).Pairwise (fun a b => key b ≤ key a) ∧
    ∀ x ∈ s.take n, ∀ y ∈ s.drop n, key y ≤ key x := by
  have h := hs
  rw [← List.take_append_drop n s, List.pairwise_append] at h
  exact ⟨h.1, h.2.2⟩

theorem byPlayCount_le (a b : Track) :
    LibraryManager.byPlayCount a b ≤ 0 ↔ orZero b.playCount ≤ orZero a.playCount := by
  unfold LibraryManager.byPlayCount
  omega

theorem byAddedDate_le (a b : Track) :
    LibraryManager.byAddedDate a b ≤ 0 ↔ b.addedDate ≤ a.addedDate := by
  unfold LibraryManager.byAddedDate
  omega

theorem byAddedDateEpisode_le (a b : Episode) :
    LibraryManager.byAddedDateEpisode a b ≤ 0 ↔ b.addedDate ≤ a.addedDate := by
  unfold LibraryManager.byAddedDateEpisode
  omega

theorem getPopularMusic_result (m : LibraryManager) (n : Nat) :
    (m.getPopularMusic n).2 = (arraySort LibraryManager.byPlayCount m.getAllMusic).take n := by
  unfold LibraryManager.getPopularMusic LibraryManager.getAllMusic
  cases m.library <;> simp [arraySort]

theorem getNewMusic_result (m : LibraryManager) (n : Nat) :
    (m.getNewMusic n).2 = (arraySort LibraryManager.byAddedDate m.getAllMusic).take n := by
  unfold LibraryManager.getNewMusic LibraryManager.getAllMusic
  cases m.library <;> simp [arraySort]

/-- C18. `getPopularMusic(n)` returns the first `n` tracks of the track list
sorted stably by play count, largest first, an absent count read as 0: it has
`min(n, len)` tracks, its play counts do not increase, for each count its tracks
of that count are the first ones of the list with that count, in the list's
order, and the tracks left out, which with the result make up the list, have no
count above that of a track in the result. -/
theorem getPopularMusic_top (m : LibraryManager) (n : Nat) :
    (m.getPopularMusic n).2 = (arraySort LibraryManager.byPlayCount m.getAllMusic).take n ∧
    (m.getPopularMusic n).2.length = min n m.getAllMusic.length ∧
    (m.getPopularMusic n).2.Pairwise (fun a b => orZero b.playCount ≤ orZero a.playCount) ∧
    (∀ k, List.IsPrefix ((m.getPopularMusic n).2.filter (fun t => orZero t.playCount == k))
      (m.getAllMusic.filter (fun t => orZero t.playCount == k))) ∧
    ∃ omitted, ((m.getPopularMusic n).2 ++ omitted).Perm m.getAllMusic ∧
      ∀ x ∈ (m.getPopularMusic n).2, ∀ y ∈ omitted, orZero y.playCount ≤ orZero x.playCount := by
  obtain ⟨hperm, hdesc, hstable⟩ := arraySort_desc LibraryManager.byPlayCount
    (fun t => orZero t.playCount) byPlayCount_le m.getAllMusic
  obtain ⟨htake, htop⟩ := take_of_desc (fun t : Track => orZero t.playCount) _ hdesc n
  rw [getPopularMusic_result]
  refine ⟨rfl, ?_, htake, ?_, (arraySort LibraryManager.byPlayCount m.getAllMusic).drop n, ?_,
    htop⟩
  · rw [List.length_take, hperm.length_eq]
  · intro k
    rw [← hstable k]
    exact (List.take_prefix n _).filter _
  · rw [List.take_append_drop]
    exact hperm

/-- C18, at `chartLibrary`, whose play counts are 1, none and 5: the two most
played tracks are `t2` and `t0`, and with the limit 6 all three tracks come
back, `t1`, which has no count, last. -/
theorem getPopularMusic_top_witness :
    (chartManager.getPopularMusic 2).2.map Track.id = ["t2", "t0"] ∧
    (chartManager.getPopularMusic 6).2.map Track.id = ["t2", "t0", "t1"] ∧
    (chartManager.getPopularMusic 2).2.length = 2 := by
  refine ⟨?_, ?_, ?_⟩
  · rw [(getPopularMusic_top chartManager 2).1]; decide
  · rw [(getPopularMusic_top chartManager 6).1]; decide
  · rw [(getPopularMusic_top chartManager 2).2.1]; decide

/-- C19, at a failing input. On `chartLibrary`, whose tracks are in the order
`t0`, `t1`, `t2`, a call of `getPopularMusic(6)` leaves the library's track list
in the order `t2`, `t0`, `t1`, and a call of `getNewMusic(6)` leaves it in the
order `t1`, `t2`, `t0`: what `getAllMusic()` returns after the call is not what
it returned before.  The episode list is not written by either. -/
theorem sorted_views_reorder_library :
    chartManager.getAllMusic.map Track.id = ["t0", "t1", "t2"] ∧
    (chartManager.getPopularMusic 6).1.getAllMusic.map Track.id = ["t2", "t0", "t1"] ∧
    (chartManager.getNewMusic 6).1.getAllMusic.map Track.id = ["t1", "t2", "t0"] ∧
    (chartManager.getPopularMusic 6).1.getAllMusic ≠ chartManager.getAllMusic ∧
    (chartManager.getNewMusic 6).1.getAllMusic ≠ chartManager.getAllMusic ∧
    (chartManager.getPopularMusic 6).1.getAllPodcasts = chartManager.getAllPodcasts ∧
    (chartManager.getNewMusic 6).1.getAllPodcasts = chartManager.getAllPodcasts := by
  refine ⟨?_, ?_, ?_, ?_, ?_, ?_, ?_⟩ <;> decide

/-- C20, as stated, fails for episodes: on `chartLibrary` the newest episode,
`e0`, is completed, and `getNewPodcasts(3)` returns the two others only, while
`getNewPodcasts(1)` returns `e2`, added at 20, although `e0` was added at 30. -/
theorem getNewPodcasts_counterexample :
    (chartManager.getNewPodcasts 3).map Episode.id = ["e2", "e1"] ∧
    (chartManager.getNewPodcasts 3).length ≠ min 3 chartManager.getAllPodcasts.length ∧
    (chartManager.getNewPodcasts 1).map (fun e => (e.id, e.addedDate)) = [("e2", 20)] ∧
    (chartManager.getAllPodcasts.map (fun e => (e.id, e.addedDate)))
      = [("e0", 30), ("e1", 10), ("e2", 20)] := by
  refine ⟨?_, ?_, ?_, ?_⟩ <;> decide

/-- C20, amended. `getNewMusic(n)` returns the `min(n, len)` tracks of the whole
track list with the latest `addedDate`, latest first.  `getNewPodcasts(n)` does
the same on the episodes whose `completed` is not true: it returns the
`min(n, k)` latest of these `k` episodes, latest first, and never a completed
episode. -/
theorem new_views_top (m : LibraryManager) (n : Nat) :
    ((m.getNewMusic n).2.length = min n m.getAllMusic.length ∧
      (m.getNewMusic n).2.Pairwise (fun a b => b.addedDate ≤ a.addedDate) ∧
      ∃ omitted, ((m.getNewMusic n).2 ++ omitted).Perm m.getAllMusic ∧
        ∀ x ∈ (m.getNewMusic n).2, ∀ y ∈ omitted, y.addedDate ≤ x.addedDate) ∧
    ((m.getNewPodcasts n).length
        = min n (m.getAllPodcasts.filter (fun e => !(e.completed == some true))).length ∧
      (m.getNewPodcasts n).Pairwise (fun a b => b.addedDate ≤ a.addedDate) ∧
      (∀ e ∈ m.getNewPodcasts n, e ∈ m.getAllPodcasts ∧ e.completed ≠ some true) ∧
      ∃ omitted, ((m.getNewPodcasts n) ++ omitted).Perm
          (m.getAllPodcasts.filter (fun e => !(e.completed == some true))) ∧
        ∀ x ∈ m.getNewPodcasts n, ∀ y ∈ omitted, y.addedDate ≤ x.addedDate) := by
  constructor
  · obtain ⟨hperm, hdesc, _⟩ := arraySort_desc LibraryManager.byAddedDate
      (fun t => t.addedDate) byAddedDate_le m.getAllMusic
    obtain ⟨htake, htop⟩ := take_of_desc (fun t : Track => t.addedDate) _ hdesc n
    rw [getNewMusic_result]
    refine ⟨?_, htake, (arraySort LibraryManager.byAddedDate m.getAllMusic).drop n, ?_, htop⟩
    · rw [List.length_take, hperm.length_eq]
    · rw [List.take_append_drop]
      exact hperm
  · obtain ⟨hperm, hdesc, _⟩ := arraySort_desc LibraryManager.byAddedDateEpisode
      (fun e => e.addedDate) byAddedDateEpisode_le
      (m.getAllPodcasts.filter (fun e => !(e.completed == some true)))
    obtain ⟨htake, htop⟩ := take_of_desc (fun e : Episode => e.addedDate) _ hdesc n
    unfold LibraryManager.getNewPodcasts
    refine ⟨?_, htake, ?_, (arraySort LibraryManager.byAddedDateEpisode
      (m.getAllPodcasts.filter (fun e => !(e.completed == some true)))).drop n, ?_, htop⟩
    · rw [List.length_take, hperm.length_eq]
    · intro e he
      have h1 := hperm.mem_iff.mp (List.mem_of_mem_take he)
      have h2 := List.mem_filter.mp h1
      exact ⟨h2.1, by simpa using h2.2⟩
    · rw [List.take_append_drop]
      exact hperm

/-- C20 amended, at `chartLibrary`: of its three episodes the two that are not
completed come back, and of its three tracks the two newest. -/
theorem new_views_top_witness :
    (chartManager.getNewPodcasts 2).length = 2 ∧
    (∀ e ∈ chartManager.getNewPodcasts 2,
      e ∈ chartManager.getAllPodcasts ∧ e.completed ≠ some true) ∧
    (chartManager.getNewMusic 2).2.length = 2 := by
  obtain ⟨⟨hm, _⟩, hp, _, hnc, _⟩ := new_views_top chartManager 2
  refine ⟨?_, hnc, ?_⟩
  · rw [hp]; decide
  · rw [hm]; decide

/-! ## Lemmas on the episodes in progress -/

theorem byLastListened_le (a b : Episode) :
    LibraryManager.byLastListened a b ≤ 0 ↔ orZero b.lastListened ≤ orZero a.lastListened := by
  unfold LibraryManager.byLastListened
  omega

theorem getInProgressPodcasts_eq (m : LibraryManager) :
    m.getInProgressPodcasts = arraySort LibraryManager.byLastListened
      (m.getAllPodcasts.filter (fun e => decide e.partlyHeard)) := by
  unfold LibraryManager.getInProgressPodcasts
  congr 1
  apply List.filter_congr
  intro e _
  rcases e with ⟨id, ti, sh, de, au, co, ad, pl, lp, progress, percentComplete, ll, cd, ca⟩
  cases progress <;> cases percentComplete <;> simp [Episode.partlyHeard]

/-- C21, as stated, fails: on `progressLibrary` the episode `e0`, at 50 percent
but with no position, is not returned, and the episode `e1`, at 0 percent with
position 30, is. -/
theorem getInProgressPodcasts_counterexample :
    progressManager.getInProgressPodcasts.map (fun e => (e.id, e.percentComplete))
      = [("e3", some 20), ("e1", some 0), ("e2", some 40)] ∧
    (progressManager.getAllPodcasts.filter (fun e =>
        decide (0 < orZeroQ e.percentComplete) && decide (orZeroQ e.percentComplete < 100))).map
        Episode.id
      = ["e0", "e2", "e3"] := by
  constructor <;> decide

/-- C21, amended. `getInProgressPodcasts()` returns exactly the episodes that
have a position above 0 and a percentage below 100, both present, each as often
as it is in the list, ordered by `lastListened` latest first, an absent
`lastListened` read as the epoch: after an episode with no `lastListened` come
only episodes with none or with the epoch, and episodes of one `lastListened`
keep the order of the list. -/
theorem getInProgressPodcasts_selects (m : LibraryManager) :
    m.getInProgressPodcasts.Perm (m.getAllPodcasts.filter (fun e => decide e.partlyHeard)) ∧
    (∀ e, e ∈ m.getInProgressPodcasts ↔ e ∈ m.getAllPodcasts ∧
      ∃ pr pc, e.progress = some pr ∧ 0 < pr ∧ e.percentComplete = some pc ∧ pc < 100) ∧
    m.getInProgressPodcasts.Pairwise
      (fun a b => orZero b.lastListened ≤ orZero a.lastListened) ∧
    m.getInProgressPodcasts.Pairwise
      (fun a b => a.lastListened = none → b.lastListened = none ∨ b.lastListened = some 0) ∧
    ∀ k, m.getInProgressPodcasts.filter (fun e => orZero e.lastListened == k)
      = (m.getAllPodcasts.filter (fun e => decide e.partlyHeard)).filter
          (fun e => orZero e.lastListened == k) := by
  obtain ⟨hperm, hdesc, hstable⟩ := arraySort_desc LibraryManager.byLastListened
    (fun e => orZero e.lastListened) byLastListened_le
    (m.getAllPodcasts.filter (fun e => decide e.partlyHeard))
  rw [getInProgressPodcasts_eq]
  refine ⟨hperm, ?_, hdesc, ?_, hstable⟩
  · intro e
    rw [hperm.mem_iff, List.mem_filter]
    constructor
    · rintro ⟨h1, h2⟩
      have h3 : e.partlyHeard := by simpa using h2
      obtain ⟨⟨pr, hpr, hpos⟩, ⟨pc, hpc, hlt⟩⟩ := h3
      exact ⟨h1, pr, pc, hpr, hpos, hpc, hlt⟩
    · rintro ⟨h1, pr, pc, hpr, hpos, hpc, hlt⟩
      exact ⟨h1, by simpa using (⟨⟨pr, hpr, hpos⟩, ⟨pc, hpc, hlt⟩⟩ : e.partlyHeard)⟩
  · refine hdesc.imp ?_
    intro a b hab hnone
    simp only [hnone, orZero, Option.getD_none, Nat.le_zero] at hab
    cases hb : b.lastListened with
    | none => exact Or.inl rfl
    | some t =>
      right
      rw [hb] at hab
      simp only [Option.getD_some] at hab
      rw [hab]

/-- C21 amended, at `progressLibrary`: the three episodes with a position and a
percentage below 100 come back, the one listened to at 9 first and the one with
no `lastListened` last. -/
theorem getInProgressPodcasts_selects_witness :
    progressManager.getInProgressPodcasts.map (fun e => (e.id, e.lastListened))
      = [("e3", some 9), ("e1", some 5), ("e2", none)] ∧
    ∀ e ∈ progressManager.getInProgressPodcasts, e ∈ progressManager.getAllPodcasts :=
  ⟨by decide, fun e he => (((getInProgressPodcasts_selects progressManager).2.1 e).mp he).1⟩

/-! ## Lemmas on search -/

/-- An optional field as the search reads it (present and not empty) against the
match as specified (present): they differ only when the field is the empty
string, and then the query is empty and matches the title. -/
theorem optional_field_match (toLowerCase : String → String) (h0 : toLowerCase "" = "")
    (lq title : String) (o : Option String) :
    (includes title lq = true ∨
      (match o with
       | some a => a != "" && includes (toLowerCase a) lq
       | none => false) = true) ↔
    (lq.toList <:+: title.toList ∨ ∃ a, o = some a ∧ lq.toList <:+: (toLowerCase a).toList) := by
  cases o with
  | none => simp [includes]
  | some a =>
    by_cases ha : a = ""
    · subst ha
      simp only [includes, decide_eq_true_eq, bne_self_eq_false, Bool.false_and,
        Bool.false_eq_true, or_false, Option.some.injEq, exists_eq_left', h0]
      constructor
      · intro h; exact Or.inl h
      · rintro (h | h)
        · exact h
        · have hnil : lq.toList = [] := by
            have : lq.toList <:+: [] := h
            exact List.eq_nil_of_infix_nil this
          rw [hnil]
          exact List.nil_infix
    · simp [includes, ha]

theorem track_search_iff (toLowerCase : String → String) (h0 : toLowerCase "" = "")
    (query : String) (t : Track) :
    (includes (toLowerCase t.title) (toLowerCase query) ||
      includes (toLowerCase t.artist) (toLowerCase query) ||
      (match t.album with
       | some album => album != "" && includes (toLowerCase album) (toLowerCase query)
       | none => false) ||
      (match t.genre with
       | some genre => genre != "" && includes (toLowerCase genre) (toLowerCase query)
       | none => false)) = true ↔ t.matchesQuery toLowerCase query := by
  have hA : includes (toLowerCase t.title) (toLowerCase query) = true ↔
      (toLowerCase query).toList <:+: (toLowerCase t.title).toList := by simp [includes]
  have hB : includes (toLowerCase t.artist) (toLowerCase query) = true ↔
      (toLowerCase query).toList <:+: (toLowerCase t.artist).toList := by simp [includes]
  have hC := optional_field_match toLowerCase h0 (toLowerCase query) (toLowerCase t.title)
    t.album
  have hD := optional_field_match toLowerCase h0 (toLowerCase query) (toLowerCase t.title)
    t.genre
  simp only [Bool.or_eq_true]
  unfold Track.matchesQuery
  constructor
  · rintro (((a | b) | c) | d)
    · exact Or.inl (hA.mp a)
    · exact Or.inr (Or.inl (hB.mp b))
    · rcases hC.mp (Or.inr c) with h | h
      · exact Or.inl h
      · exact Or.inr (Or.inr (Or.inl h))
    · rcases hD.mp (Or.inr d) with h | h
      · exact Or.inl h
      · exact Or.inr (Or.inr (Or.inr h))
  · rintro (a | b | c | d)
    · exact Or.inl (Or.inl (Or.inl (hA.mpr a)))
    · exact Or.inl (Or.inl (Or.inr (hB.mpr b)))
    · rcases hC.mpr (Or.inr c) with h | h
      · exact Or.inl (Or.inl (Or.inl h))
      · exact Or.inl (Or.inr h)
    · rcases hD.mpr (Or.inr d) with h | h
      · exact Or.inl (Or.inl (Or.inl h))
      · exact Or.inr h

theorem episode_search_iff (toLowerCase : String → String) (h0 : toLowerCase "" = "")
    (query : String) (e : Episode) :
    (includes (toLowerCase e.title) (toLowerCase query) ||
      includes (toLowerCase e.showName) (toLowerCase query) ||
      (match e.description with
       | some description =>
         description != "" && includes (toLowerCase description) (toLowerCase query)
       | none => false)) = true ↔ e.matchesQuery toLowerCase query := by
  have hA : includes (toLowerCase e.title) (toLowerCase query) = true ↔
      (toLowerCase query).toList <:+: (toLowerCase e.title).toList := by simp [includes]
  have hB : includes (toLowerCase e.showName) (toLowerCase query) = true ↔
      (toLowerCase query).toList <:+: (toLowerCase e.showName).toList := by simp [includes]
  have hC := optional_field_match toLowerCase h0 (toLowerCase query) (toLowerCase e.title)
    e.description
  simp only [Bool.or_eq_true]
  unfold Episode.matchesQuery
  constructor
  · rintro ((a | b) | c)
    · exact Or.inl (hA.mp a)
    · exact Or.inr (Or.inl (hB.mp b))
    · rcases hC.mp (Or.inr c) with h | h
      · exact Or.inl h
      · exact Or.inr (Or.inr h)
  · rintro (a | b | c)
    · exact Or.inl (Or.inl (hA.mpr a))
    · exact Or.inl (Or.inr (hB.mpr b))
    · rcases hC.mpr (Or.inr c) with h | h
      · exact Or.inl (Or.inl h)
      · exact Or.inr h

theorem searchMusic_eq_filter (toLowerCase : String → String) (h0 : toLowerCase "" = "")
    (m : LibraryManager) (query : String) :
    m.searchMusic toLowerCase query
      = m.getAllMusic.filter (fun t => decide (t.matchesQuery toLowerCase query)) := by
  unfold LibraryManager.searchMusic
  apply List.filter_congr
  intro t _
  rw [Bool.eq_iff_iff, track_search_iff toLowerCase h0 query t]
  simp

theorem searchPodcasts_eq_filter (toLowerCase : String → String) (h0 : toLowerCase "" = "")
    (m : LibraryManager) (query : String) :
    m.searchPodcasts toLowerCase query
      = m.getAllPodcasts.filter (fun e => decide (e.matchesQuery toLowerCase query)) := by
  unfold LibraryManager.searchPodcasts
  apply List.filter_congr
  intro e _
  rw [Bool.eq_iff_iff, episode_search_iff toLowerCase h0 query e]
  simp

/-- C22. For a lower-casing that leaves the empty string empty, `searchMusic(q)`
and `searchPodcasts(q)` return the items of the catalog, in catalog order and
each as often as it is there, for which the lower-cased `q` is a substring of
the lower-cased title, of the lower-cased artist or show, or of the lower-cased
album, genre or description when the item has one.  Two queries with the same
lower-casing return the same, and the empty query returns every item. -/
theorem search_matches (toLowerCase : String → String) (h0 : toLowerCase "" = "")
    (m : LibraryManager) (query : String) :
    (m.searchMusic toLowerCase query
        = m.getAllMusic.filter (fun t => decide (t.matchesQuery toLowerCase query)) ∧
      List.Sublist (m.searchMusic toLowerCase query) m.getAllMusic ∧
      (∀ t, t ∈ m.searchMusic toLowerCase query ↔
        t ∈ m.getAllMusic ∧ t.matchesQuery toLowerCase query) ∧
      (∀ q2, toLowerCase q2 = toLowerCase query →
        m.searchMusic toLowerCase q2 = m.searchMusic toLowerCase query) ∧
      m.searchMusic toLowerCase "" = m.getAllMusic) ∧
    (m.searchPodcasts toLowerCase query
        = m.getAllPodcasts.filter (fun e => decide (e.matchesQuery toLowerCase query)) ∧
      List.Sublist (m.searchPodcasts toLowerCase query) m.getAllPodcasts ∧
      (∀ e, e ∈ m.searchPodcasts toLowerCase query ↔
        e ∈ m.getAllPodcasts ∧ e.matchesQuery toLowerCase query) ∧
      (∀ q2, toLowerCase q2 = toLowerCase query →
        m.searchPodcasts toLowerCase q2 = m.searchPodcasts toLowerCase query) ∧
      m.searchPodcasts toLowerCase "" = m.getAllPodcasts) := by
  have hnil : (toLowerCase "").toList = [] := by rw [h0]; rfl
  constructor
  · refine ⟨searchMusic_eq_filter toLowerCase h0 m query, ?_, ?_, ?_, ?_⟩
    · rw [searchMusic_eq_filter toLowerCase h0 m query]
      exact List.filter_sublist _
    · intro t
      rw [searchMusic_eq_filter toLowerCase h0 m query, List.mem_filter]
      simp
    · intro q2 h
      unfold LibraryManager.searchMusic
      simp only [h]
    · rw [searchMusic_eq_filter toLowerCase h0 m "", List.filter_eq_self]
      intro t _
      have : t.matchesQuery toLowerCase "" := by
        unfold Track.matchesQuery
        rw [hnil]
        exact Or.inl List.nil_infix
      simpa using this
  · refine ⟨searchPodcasts_eq_filter toLowerCase h0 m query, ?_, ?_, ?_, ?_⟩
    · rw [searchPodcasts_eq_filter toLowerCase h0 m query]
      exact List.filter_sublist _
    · intro e
      rw [searchPodcasts_eq_filter toLowerCase h0 m query, List.mem_filter]
      simp
    · intro q2 h
      unfold LibraryManager.searchPodcasts
      simp only [h]
    · rw [searchPodcasts_eq_filter toLowerCase h0 m "", List.filter_eq_self]
      intro e _
      have : e.matchesQuery toLowerCase "" := by
        unfold Episode.matchesQuery
        rw [hnil]
        exact Or.inl List.nil_infix
      simpa using this

/-- C22, at the sample catalog with the lower-casing of the letters `A` to `Z`:
the query `T1` finds track `t1`, the queries `ARTIST` and `artist` find the same
three tracks, and the empty query returns the three episodes. -/
theorem search_matches_witness :
    (sampleManager.searchMusic lowerAscii "T1").map Track.id = ["t1"] ∧
    sampleManager.searchMusic lowerAscii "ARTIST" = sampleManager.searchMusic lowerAscii "artist" ∧
    (sampleManager.searchMusic lowerAscii "artist").map Track.id = ["t0", "t1", "t2"] ∧
    sampleManager.searchPodcasts lowerAscii "" = sampleManager.getAllPodcasts := by
  have h := search_matches lowerAscii (by decide) sampleManager "artist"
  refine ⟨by decide, h.1.2.2.2.1 "ARTIST" (by decide), by decide, h.2.2.2.2.2⟩

/-- C23. In the podcast engine, on an element of duration `d` at a position `c`
with `0 ≤ c ≤ d`, and for a skip amount `s ≥ 0`, `skipForward(s)` sets the
position to `min(c + s, d)` and `skipBackward(s)` sets it to `max(c - s, 0)`,
nothing else of the engine changing; the position is in `[0, d]` after either
call.  Without an argument the amount is 30. -/
theorem skip_stays_in_range (p : PodcastPlayer) (d s : ℚ)
    (hd : p.audio.duration = some d) (hc0 : 0 ≤ p.audio.currentTime)
    (hcd : p.audio.currentTime ≤ d) (hs : 0 ≤ s) :
    p.skipForward s
      = { p with audio := { p.audio with currentTime := min (p.audio.currentTime + s) d } } ∧
    p.skipBackward s
      = { p with audio := { p.audio with currentTime := max (p.audio.currentTime - s) 0 } } ∧
    (p.skipForward s).getCurrentTime = min (p.audio.currentTime + s) d ∧
    (p.skipBackward s).getCurrentTime = max (p.audio.currentTime - s) 0 ∧
    0 ≤ (p.skipForward s).getCurrentTime ∧ (p.skipForward s).getCurrentTime ≤ d ∧
    0 ≤ (p.skipBackward s).getCurrentTime ∧ (p.skipBackward s).getCurrentTime ≤ d ∧
    p.skipForward = p.skipForward 30 ∧ p.skipBackward = p.skipBackward 30 := by
  have hf : p.skipForward s
      = { p with audio := { p.audio with currentTime := min (p.audio.currentTime + s) d } } := by
    have h1 : min (p.audio.currentTime + s) d ≤ d := min_le_right _ _
    have h0 : 0 ≤ min (p.audio.currentTime + s) d := le_min (by linarith) (le_trans hc0 hcd)
    have hu : p.skipForward s
        = { p with audio := p.audio.setCurrentTime (min (p.audio.currentTime + s) d) } := by
      simp only [PodcastPlayer.skipForward, hd]
    rw [hu, setCurrentTime_in_range p.audio _ d hd h0 h1]
  have hb : p.skipBackward s
      = { p with audio := { p.audio with currentTime := max (p.audio.currentTime - s) 0 } } := by
    have h1 : max (p.audio.currentTime - s) 0 ≤ d := max_le (by linarith) (le_trans hc0 hcd)
    have h0 : 0 ≤ max (p.audio.currentTime - s) 0 := le_max_right _ _
    unfold PodcastPlayer.skipBackward
    rw [setCurrentTime_in_range p.audio _ d hd h0 h1]
  refine ⟨hf, hb, ?_, ?_, ?_, ?_, ?_, ?_, rfl, rfl⟩
  · rw [hf]; rfl
  · rw [hb]; rfl
  · rw [hf]
    exact le_min (by linarith) (le_trans hc0 hcd)
  · rw [hf]
    exact min_le_right _ _
  · rw [hb]
    exact le_max_right _ _
  · rw [hb]
    exact max_le (by linarith) (le_trans hc0 hcd)

/-- C23, at position 590 of 600: `skipForward()` stops at 600; at position 10:
`skipBackward()` stops at 0; at position 100, `skipForward(30)` gives 130 and
`skipBackward(30)` gives 70. -/
theorem skip_stays_in_range_witness :
    (PodcastPlayer.skipForward
      { samplePodcast 0 with audio := { (samplePodcast 0).audio with
          duration := some 600, currentTime := 590 } } 30).getCurrentTime = 600 ∧
    (PodcastPlayer.skipBackward
      { samplePodcast 0 with audio := { (samplePodcast 0).audio with
          duration := some 600, currentTime := 10 } } 30).getCurrentTime = 0 ∧
    (PodcastPlayer.skipForward
      { samplePodcast 0 with audio := { (samplePodcast 0).audio with
          duration := some 600, currentTime := 100 } } 30).getCurrentTime = 130 ∧
    (PodcastPlayer.skipBackward
      { samplePodcast 0 with audio := { (samplePodcast 0).audio with
          duration := some 600, currentTime := 100 } } 30).getCurrentTime = 70 := by
  have h1 := skip_stays_in_range
    { samplePodcast 0 with audio := { (samplePodcast 0).audio with
        duration := some 600, currentTime := 590 } } 600 30 rfl
    (by norm_num) (by norm_num) (by norm_num)
  have h2 := skip_stays_in_range
    { samplePodcast 0 with audio := { (samplePodcast 0).audio with
        duration := some 600, currentTime := 10 } } 600 30 rfl
    (by norm_num) (by norm_num) (by norm_num)
  have h3 := skip_stays_in_range
    { samplePodcast 0 with audio := { (samplePodcast 0).audio with
        duration := some 600, currentTime := 100 } } 600 30 rfl
    (by norm_num) (by norm_num) (by norm_num)
  refine ⟨?_, ?_, ?_, ?_⟩
  · rw [h1.2.2.1]; norm_num
  · rw [h2.2.2.2.1]; norm_num
  · rw [h3.2.2.1]; norm_num
  · rw [h3.2.2.2.1]; norm_num

/-- C24. In both engines, while no item is loaded (the element has no source
and the engine is not playing, as in a new engine), `play()` and `togglePlay()`
leave the engine as it is and `pause()` leaves it not playing with the same
current item, queue and cursor (and wholly as it is when the element is paused);
once an item is loaded (the element has a source), `togglePlay()` inverts the
playing flag and two consecutive calls give the flag back, the current item, the
queue and the cursor staying. -/
theorem transport_toggles :
    (∀ p : MusicPlayer, p.audio.src = "" → p.isPlaying = false →
      p.play = p ∧ p.togglePlay = p ∧
      p.pause.isPlaying = false ∧ p.pause.currentTrack = p.currentTrack ∧
      p.pause.queue = p.queue ∧ p.pause.currentIndex = p.currentIndex ∧
      (p.audio.paused = true → p.pause = p)) ∧
    (∀ p : MusicPlayer, p.audio.src ≠ "" →
      p.togglePlay.isPlaying = !p.isPlaying ∧
      p.togglePlay.togglePlay.isPlaying = p.isPlaying ∧
      p.togglePlay.currentTrack = p.currentTrack ∧ p.togglePlay.queue = p.queue ∧
      p.togglePlay.currentIndex = p.currentIndex ∧ p.togglePlay.audio.src = p.audio.src) ∧
    (∀ p : PodcastPlayer, p.audio.src = "" → p.isPlaying = false →
      p.play = p ∧ p.togglePlay = p ∧
      p.pause.isPlaying = false ∧ p.pause.currentEpisode = p.currentEpisode ∧
      p.pause.queue = p.queue ∧ p.pause.currentIndex = p.currentIndex ∧
      (p.audio.paused = true → p.pause = p)) ∧
    (∀ p : PodcastPlayer, p.audio.src ≠ "" →
      p.togglePlay.isPlaying = !p.isPlaying ∧
      p.togglePlay.togglePlay.isPlaying = p.isPlaying ∧
      p.togglePlay.currentEpisode = p.currentEpisode ∧ p.togglePlay.queue = p.queue ∧
      p.togglePlay.currentIndex = p.currentIndex ∧ p.togglePlay.audio.src = p.audio.src) := by
  refine ⟨?_, ?_, ?_, ?_⟩
  · intro p hsrc hplay
    refine ⟨?_, ?_, rfl, rfl, rfl, rfl, ?_⟩
    · simp [MusicPlayer.play, hsrc]
    · simp [MusicPlayer.togglePlay, MusicPlayer.play, hsrc, hplay]
    · intro hpaused
      rcases p with ⟨⟨src, ct, du, vo, pa, ra⟩, tr, q, ci, ip, sh, rm⟩
      simp only at hplay hpaused
      subst hplay hpaused
      rfl
  · intro p hsrc
    cases hp : p.isPlaying <;>
      simp [MusicPlayer.togglePlay, MusicPlayer.play, MusicPlayer.pause, hsrc, hp]
  · intro p hsrc hplay
    refine ⟨?_, ?_, rfl, rfl, rfl, rfl, ?_⟩
    · simp [PodcastPlayer.play, hsrc]
    · simp [PodcastPlayer.togglePlay, PodcastPlayer.play, hsrc, hplay]
    · intro hpaused
      rcases p with ⟨⟨src, ct, du, vo, pa, ra⟩, ep, q, ci, ip, ps⟩
      simp only at hplay hpaused
      subst hplay hpaused
      rfl
  · intro p hsrc
    cases hp : p.isPlaying <;>
      simp [PodcastPlayer.togglePlay, PodcastPlayer.play, PodcastPlayer.pause, hsrc, hp]

/-- C24, at new engines, where the three calls change nothing, and at the
sample engines, which have a source and are not playing: one `togglePlay()`
makes them play. -/
theorem transport_toggles_witness :
    MusicPlayer.new.play = MusicPlayer.new ∧ MusicPlayer.new.pause = MusicPlayer.new ∧
    MusicPlayer.new.togglePlay = MusicPlayer.new ∧
    PodcastPlayer.new.togglePlay = PodcastPlayer.new ∧
    (sampleMusic 0).togglePlay.isPlaying = true ∧
    (samplePodcast 0).togglePlay.togglePlay.isPlaying = false :=
  ⟨(transport_toggles.1 MusicPlayer.new rfl rfl).1,
   (transport_toggles.1 MusicPlayer.new rfl rfl).2.2.2.2.2.2 rfl,
   (transport_toggles.1 MusicPlayer.new rfl rfl).2.1,
   (transport_toggles.2.2.1 PodcastPlayer.new rfl rfl).2.1,
   (transport_toggles.2.1 (sampleMusic 0) (by decide)).1,
   (transport_toggles.2.2.2 (samplePodcast 0) (by decide)).2.1⟩

/-! ## Lemmas on the range of the cursor -/

theorem prev_cursor_in_range (i : Int) (n : Nat) (hn : 0 < n) (hi : -1 ≤ i) :
    0 ≤ (i - 1 + (n : Int)).tmod (n : Int) ∧ (i - 1 + (n : Int)).tmod (n : Int) < (n : Int) := by
  by_cases h : 0 ≤ i - 1 + (n : Int)
  · rw [tmod_cursor _ _ h]
    exact cursor_in_range _ n hn
  · have h1 : n = 1 := by omega
    have h2 : i = -1 := by omega
    subst h1 h2
    decide

theorem next_cursor_in_range (i : Int) (n : Nat) (hn : 0 < n) (hi : -1 ≤ i) :
    0 ≤ (i + 1).tmod (n : Int) ∧ (i + 1).tmod (n : Int) < (n : Int) := by
  rw [tmod_cursor _ _ (by omega)]
  exact cursor_in_range _ n hn

theorem shuffle_cursor_in_range (r : ℚ) (n : Nat) (hn : 0 < n) (h0 : 0 ≤ r) (h1 : r < 1) :
    0 ≤ Int.floor (r * (n : ℚ)) ∧ Int.floor (r * (n : ℚ)) < (n : Int) := by
  have hnq : (0 : ℚ) < (n : ℚ) := by exact_mod_cast hn
  constructor
  · exact Int.floor_nonneg.mpr (mul_nonneg h0 (le_of_lt hnq))
  · rw [Int.floor_lt]
    have : r * (n : ℚ) < 1 * (n : ℚ) := mul_lt_mul_of_pos_right h1 hnq
    simpa using this

/-- A load of the item at an index inside the queue: the cursor is that index,
the item there is the current one, and it is what the caller returns when the
resource opens. -/
theorem music_load_at (pf : Platform) (lib : LibraryManager) (p : MusicPlayer)
    (q : List Track) (c : Int) (h0 : 0 ≤ c) (h1 : c < (q.length : Int)) :
    (MusicPlayer.playTrack pf lib p (index q c) (some q) c).player.currentIndex = c ∧
    (MusicPlayer.playTrack pf lib p (index q c) (some q) c).player.queue = q ∧
    ∃ t, index q c = some t ∧
      (MusicPlayer.playTrack pf lib p (index q c) (some q) c).player.currentTrack = some t ∧
      ((pf.probe t.audioFile).isSome →
        (MusicPlayer.playTrack pf lib p (index q c) (some q) c).result.map
          (fun _ => index q c) = .ok (some t)) := by
  obtain ⟨t, ht⟩ := index_isSome q c h0 h1
  rw [ht]
  obtain ⟨f1, f2, f3, _⟩ := playTrack_some_fields pf lib p t q c
  refine ⟨f1, f2, t, rfl, f3, ?_⟩
  intro hsome
  obtain ⟨d, hd⟩ := Option.isSome_iff_exists.mp hsome
  rw [(playTrack_some_ok pf lib p t q c d hd).1]
  rfl

theorem podcast_load_at (pf : Platform) (lib : LibraryManager) (p : PodcastPlayer)
    (q : List Episode) (c : Int) (h0 : 0 ≤ c) (h1 : c < (q.length : Int)) :
    (PodcastPlayer.playEpisode pf lib p (index q c) (some q) c).player.currentIndex = c ∧
    (PodcastPlayer.playEpisode pf lib p (index q c) (some q) c).player.queue = q ∧
    ∃ e, index q c = some e ∧
      (PodcastPlayer.playEpisode pf lib p (index q c) (some q) c).player.currentEpisode
        = some e ∧
      ((pf.probe e.audioFile).isSome →
        (PodcastPlayer.playEpisode pf lib p (index q c) (some q) c).result.map
          (fun _ => index q c) = .ok (some e)) := by
  obtain ⟨e, he⟩ := index_isSome q c h0 h1
  rw [he]
  obtain ⟨f1, f2, f3, _⟩ := playEpisode_some_fields pf lib p e q c
  refine ⟨f1, f2, e, rfl, f3, ?_⟩
  intro hsome
  obtain ⟨d, hd⟩ := Option.isSome_iff_exists.mp hsome
  rw [(playEpisode_some_ok pf lib p e q c d hd).1]
  rfl

theorem music_step_safe (pf : Platform) (lib : LibraryManager) (p : MusicPlayer) (c : Int)
    (h0 : 0 ≤ c) (h1 : c < (p.queue.length : Int)) (S : Step MusicPlayer (Option Track))
    (hS : S =
      { player := (MusicPlayer.playTrack pf lib { p with currentIndex := c }
            (index p.queue c) (some p.queue) c).player,
        library := (MusicPlayer.playTrack pf lib { p with currentIndex := c }
            (index p.queue c) (some p.queue) c).library,
        result := (MusicPlayer.playTrack pf lib { p with currentIndex := c }
            (index p.queue c) (some p.queue) c).result.map (fun _ => index p.queue c) }) :
    S.player.currentIndex = c ∧ S.player.queue = p.queue ∧
    ∃ t, index p.queue S.player.currentIndex = some t ∧ S.player.currentTrack = some t ∧
      ((pf.probe t.audioFile).isSome → S.result = .ok (some t)) := by
  subst hS
  obtain ⟨g1, g2, t, ht, g3, g4⟩ := music_load_at pf lib { p with currentIndex := c }
    p.queue c h0 h1
  exact ⟨g1, g2, t, by simp only [g1]; exact ht, g3, g4⟩

theorem podcast_step_safe (pf : Platform) (lib : LibraryManager) (p : PodcastPlayer) (c : Int)
    (h0 : 0 ≤ c) (h1 : c < (p.queue.length : Int)) (S : Step PodcastPlayer (Option Episode))
    (hS : S =
      { player := (PodcastPlayer.playEpisode pf lib { p with currentIndex := c }
            (index p.queue c) (some p.queue) c).player,
        library := (PodcastPlayer.playEpisode pf lib { p with currentIndex := c }
            (index p.queue c) (some p.queue) c).library,
        result := (PodcastPlayer.playEpisode pf lib { p with currentIndex := c }
            (index p.queue c) (some p.queue) c).result.map (fun _ => index p.queue c) }) :
    S.player.currentIndex = c ∧ S.player.queue = p.queue ∧
    ∃ e, index p.queue S.player.currentIndex = some e ∧ S.player.currentEpisode = some e ∧
      ((pf.probe e.audioFile).isSome → S.result = .ok (some e)) := by
  subst hS
  obtain ⟨g1, g2, e, he, g3, g4⟩ := podcast_load_at pf lib { p with currentIndex := c }
    p.queue c h0 h1
  exact ⟨g1, g2, e, by simp only [g1]; exact he, g3, g4⟩

/-- C25. From a non-empty queue of length `len` and a cursor `i` with
`-1 ≤ i < len`, with a random draw `r` in `[0, 1)`: after `next()`, and after
`previous()` at a position of at most 3 seconds, the cursor is in `[0, len)`,
the item of the queue at the cursor is the current item, and it is the item
returned when its resource opens.  In the music engine the new cursor is
`floor(r * len)` with shuffle on, and the circular successor or predecessor with
shuffle off; a shuffled `next()` can leave the cursor where it was. -/
theorem cursor_stays_in_queue :
    (∀ (pf : Platform) (lib : LibraryManager) (p : MusicPlayer), p.queue ≠ [] →
      -1 ≤ p.currentIndex → p.currentIndex < (p.queue.length : Int) →
      0 ≤ pf.random → pf.random < 1 →
      (0 ≤ (MusicPlayer.next pf lib p).player.currentIndex ∧
        (MusicPlayer.next pf lib p).player.currentIndex < (p.queue.length : Int) ∧
        (MusicPlayer.next pf lib p).player.queue = p.queue ∧
        (p.isShuffle = true → (MusicPlayer.next pf lib p).player.currentIndex
          = Int.floor (pf.random * (p.queue.length : ℚ))) ∧
        (p.isShuffle = false → (MusicPlayer.next pf lib p).player.currentIndex
          = (p.currentIndex + 1) % (p.queue.length : Int)) ∧
        ∃ t, index p.queue (MusicPlayer.next pf lib p).player.currentIndex = some t ∧
          (MusicPlayer.next pf lib p).player.currentTrack = some t ∧
          ((pf.probe t.audioFile).isSome →
            (MusicPlayer.next pf lib p).result = .ok (some t))) ∧
      (p.audio.currentTime ≤ 3 →
        0 ≤ (MusicPlayer.previous pf lib p).player.currentIndex ∧
        (MusicPlayer.previous pf lib p).player.currentIndex < (p.queue.length : Int) ∧
        (MusicPlayer.previous pf lib p).player.queue = p.queue ∧
        (p.isShuffle = true → (MusicPlayer.previous pf lib p).player.currentIndex
          = Int.floor (pf.random * (p.queue.length : ℚ))) ∧
        (p.isShuffle = false → (MusicPlayer.previous pf lib p).player.currentIndex
          = (p.currentIndex - 1 + (p.queue.length : Int)).tmod (p.queue.length : Int)) ∧
        ∃ t, index p.queue (MusicPlayer.previous pf lib p).player.currentIndex = some t ∧
          (MusicPlayer.previous pf lib p).player.currentTrack = some t ∧
          ((pf.probe t.audioFile).isSome →
            (MusicPlayer.previous pf lib p).result = .ok (some t)))) ∧
    (∀ (pf : Platform) (lib : LibraryManager) (p : PodcastPlayer), p.queue ≠ [] →
      -1 ≤ p.currentIndex → p.currentIndex < (p.queue.length : Int) →
      (0 ≤ (PodcastPlayer.next pf lib p).player.currentIndex ∧
        (PodcastPlayer.next pf lib p).player.currentIndex < (p.queue.length : Int) ∧
        (PodcastPlayer.next pf lib p).player.queue = p.queue ∧
        (PodcastPlayer.next pf lib p).player.currentIndex
          = (p.currentIndex + 1) % (p.queue.length : Int) ∧
        ∃ e, index p.queue (PodcastPlayer.next pf lib p).player.currentIndex = some e ∧
          (PodcastPlayer.next pf lib p).player.currentEpisode = some e ∧
          ((pf.probe e.audioFile).isSome →
            (PodcastPlayer.next pf lib p).result = .ok (some e))) ∧
      (p.audio.currentTime ≤ 3 →
        0 ≤ (PodcastPlayer.previous pf lib p).player.currentIndex ∧
        (PodcastPlayer.previous pf lib p).player.currentIndex < (p.queue.length : Int) ∧
        (PodcastPlayer.previous pf lib p).player.queue = p.queue ∧
        (PodcastPlayer.previous pf lib p).player.currentIndex
          = (p.currentIndex - 1 + (p.queue.length : Int)).tmod (p.queue.length : Int) ∧
        ∃ e, index p.queue (PodcastPlayer.previous pf lib p).player.currentIndex = some e ∧
          (PodcastPlayer.previous pf lib p).player.currentEpisode = some e ∧
          ((pf.probe e.audioFile).isSome →
            (PodcastPlayer.previous pf lib p).result = .ok (some e)))) ∧
    (∃ (pf : Platform) (lib : LibraryManager) (p : MusicPlayer), p.queue ≠ [] ∧
      p.isShuffle = true ∧ 0 ≤ pf.random ∧ pf.random < 1 ∧ 0 ≤ p.currentIndex ∧
      (MusicPlayer.next pf lib p).player.currentIndex = p.currentIndex) := by
  refine ⟨?_, ?_, ?_⟩
  · intro pf lib p hq hi hl hr0 hr1
    have hlen : 0 < p.queue.length := List.length_pos.mpr hq
    have hsh := shuffle_cursor_in_range pf.random p.queue.length hlen hr0 hr1
    constructor
    · have hnx := next_cursor_in_range p.currentIndex p.queue.length hlen hi
      have hc : 0 ≤ (if p.isShuffle then Int.floor (pf.random * (p.queue.length : ℚ))
            else (p.currentIndex + 1).tmod (p.queue.length : Int)) ∧
          (if p.isShuffle then Int.floor (pf.random * (p.queue.length : ℚ))
            else (p.currentIndex + 1).tmod (p.queue.length : Int)) < (p.queue.length : Int) := by
        by_cases hs : p.isShuffle = true
        · simp only [hs, if_true]; exact hsh
        · simp only [hs, if_false]; exact hnx
      obtain ⟨g1, g2, g3⟩ := music_step_safe pf lib p _ hc.1 hc.2 _
        (music_next_unfold pf lib p hq _ rfl)
      refine ⟨by rw [g1]; exact hc.1, by rw [g1]; exact hc.2, g2, ?_, ?_, g3⟩
      · intro hs
        rw [g1]
        simp only [hs, if_true]
      · intro hs
        rw [g1]
        simp only [hs, Bool.false_eq_true, if_false]
        exact tmod_cursor _ _ (by omega)
    · intro ht
      have hpv := prev_cursor_in_range p.currentIndex p.queue.length hlen hi
      have hc : 0 ≤ (if p.isShuffle then Int.floor (pf.random * (p.queue.length : ℚ))
            else (p.currentIndex - 1 + (p.queue.length : Int)).tmod (p.queue.length : Int)) ∧
          (if p.isShuffle then Int.floor (pf.random * (p.queue.length : ℚ))
            else (p.currentIndex - 1 + (p.queue.length : Int)).tmod (p.queue.length : Int))
            < (p.queue.length : Int) := by
        by_cases hs : p.isShuffle = true
        · simp only [hs, if_true]; exact hsh
        · simp only [hs, if_false]; exact hpv
      obtain ⟨g1, g2, g3⟩ := music_step_safe pf lib p _ hc.1 hc.2 _
        (music_previous_unfold pf lib p hq ht _ rfl)
      refine ⟨by rw [g1]; exact hc.1, by rw [g1]; exact hc.2, g2, ?_, ?_, g3⟩
      · intro hs
        rw [g1]
        simp only [hs, if_true]
      · intro hs
        rw [g1]
        simp only [hs, Bool.false_eq_true, if_false]
  · intro pf lib p hq hi hl
    have hlen : 0 < p.queue.length := List.length_pos.mpr hq
    constructor
    · have hnx := next_cursor_in_range p.currentIndex p.queue.length hlen hi
      obtain ⟨g1, g2, g3⟩ := podcast_step_safe pf lib p _ hnx.1 hnx.2 _
        (podcast_next_unfold pf lib p hq _ rfl)
      exact ⟨by rw [g1]; exact hnx.1, by rw [g1]; exact hnx.2, g2,
        by rw [g1]; exact tmod_cursor _ _ (by omega), g3⟩
    · intro ht
      have hpv := prev_cursor_in_range p.currentIndex p.queue.length hlen hi
      obtain ⟨g1, g2, g3⟩ := podcast_step_safe pf lib p _ hpv.1 hpv.2 _
        (podcast_previous_unfold pf lib p hq ht _ rfl)
      exact ⟨by rw [g1]; exact hpv.1, by rw [g1]; exact hpv.2, g2, g1, g3⟩
  · refine ⟨{ now := 1, random := 2 / 5, probe := fun _ => some 600 }, sampleManager,
      { sampleMusic 1 with isShuffle := true }, by simp [sampleMusic, sampleLibrary], rfl,
      by norm_num, by norm_num, by decide, ?_⟩
    have hfl : Int.floor ((2 / 5 : ℚ) * ((3 : Nat) : ℚ)) = 1 := by
      rw [Int.floor_eq_iff]
      constructor <;> norm_num
    have hun := music_next_unfold { now := 1, random := 2 / 5, probe := fun _ => some 600 }
      sampleManager { sampleMusic 1 with isShuffle := true }
      (by simp [sampleMusic, sampleLibrary]) 1 (by
        show (1 : Int) = Int.floor ((2 / 5 : ℚ) * ((3 : Nat) : ℚ))
        exact hfl.symm)
    rw [hun]
    rfl

/-- C25, at the cursor `-1`: on the three sample tracks `next()` gives the
cursor 0 and `previous()` the cursor 1; on a queue of one track `previous()`
gives the cursor 0; on the three sample episodes `next()` gives the cursor 0. -/
theorem cursor_stays_in_queue_witness :
    (MusicPlayer.next (samplePlatform 1) sampleManager (sampleMusic (-1))).player.currentIndex
      = 0 ∧
    (MusicPlayer.previous (samplePlatform 1) sampleManager
      (sampleMusic (-1))).player.currentIndex = 1 ∧
    (MusicPlayer.previous (samplePlatform 1) sampleManager
      { sampleMusic (-1) with queue := [sampleTrack "t0"] }).player.currentIndex = 0 ∧
    (PodcastPlayer.next (samplePlatform 1) sampleManager
      (samplePodcast (-1))).player.currentIndex = 0 := by
  have hm := cursor_stays_in_queue.1 (samplePlatform 1) sampleManager (sampleMusic (-1))
    (by simp [sampleMusic, sampleLibrary]) (by decide) (by decide) (le_refl _) (by norm_num [samplePlatform])
  have h1 := cursor_stays_in_queue.1 (samplePlatform 1) sampleManager
    { sampleMusic (-1) with queue := [sampleTrack "t0"] }
    (by simp) (by decide) (by decide) (le_refl _) (by norm_num [samplePlatform])
  have hp := cursor_stays_in_queue.2.1 (samplePlatform 1) sampleManager (samplePodcast (-1))
    (by simp [samplePodcast, sampleLibrary]) (by decide) (by decide)
  refine ⟨?_, ?_, ?_, ?_⟩
  · rw [hm.1.2.2.2.2.1 rfl]; decide
  · rw [(hm.2 (le_of_lt (by norm_num [sampleMusic, MusicPlayer.new, Audio.new]))).2.2.2.2.1 rfl]
    decide
  · rw [(h1.2 (le_of_lt (by norm_num [sampleMusic, MusicPlayer.new, Audio.new]))).2.2.2.2.1 rfl]
    decide
  · rw [hp.1.2.2.2.1]; decide

/-! ## Lemmas on the coordinator -/

theorem onTrackEnded_idle (pf : Platform) (lib : LibraryManager) (p : MusicPlayer)
    (hr : p.repeatMode = RepeatMode.off)
    (hi : p.currentIndex = (p.queue.length : Int) - 1) :
    MusicPlayer.onTrackEnded pf lib p =
      { player := { p with isPlaying := false }, library := lib, result := .ok (),
        emitted := [Notification.onPlaybackEnded] } := by
  have h1 : ¬ (p.repeatMode = RepeatMode.one) := by rw [hr]; decide
  have h2 : ¬ (p.repeatMode = RepeatMode.all ∨ p.currentIndex < (p.queue.length : Int) - 1) := by
    rw [hr, hi]
    simp
  unfold MusicPlayer.onTrackEnded
  rw [if_neg h1, if_neg h2]

theorem musicAudioEnded_idle (pf : Platform) (app : VibeStreamApp)
    (hr : app.musicPlayer.repeatMode = RepeatMode.off)
    (hi : app.musicPlayer.currentIndex = (app.musicPlayer.queue.length : Int) - 1) :
    app.musicAudioEnded pf
      = (VibeStreamApp.next pf
          { app with musicPlayer := { app.musicPlayer with isPlaying := false } }).1 := by
  unfold VibeStreamApp.musicAudioEnded
  rw [onTrackEnded_idle pf app.library app.musicPlayer hr hi]
  rfl

theorem app_next_music (pf : Platform) (app : VibeStreamApp)
    (hmode : app.currentMode = Kind.music) :
    (app.next pf).1 =
      { app with musicPlayer := (app.musicPlayer.next pf app.library).player,
                 library := (app.musicPlayer.next pf app.library).library } := by
  unfold VibeStreamApp.next
  rw [hmode]

/-- C26. With the coordinator's handlers registered and `currentMode` music,
for a non-empty music queue with shuffle off and repeat off and the cursor at
the last index: at the natural end of the track the engine clears its playing
flag and invokes `onPlaybackEnded` once, the coordinator's handler for it calls
`next()` on the music engine, and when the event has been handled the cursor is
0, `queue[0]` is the current track and the source of the element, playing from
position 0 when its resource opens; the podcast engine is as it was. -/
theorem ended_makes_coordinator_advance (pf : Platform) (app : VibeStreamApp)
    (hmode : app.currentMode = Kind.music) (hq : app.musicPlayer.queue ≠ [])
    (hs : app.musicPlayer.isShuffle = false)
    (hr : app.musicPlayer.repeatMode = RepeatMode.off)
    (hi : app.musicPlayer.currentIndex = (app.musicPlayer.queue.length : Int) - 1) :
    (MusicPlayer.onTrackEnded pf app.library app.musicPlayer).emitted
      = [Notification.onPlaybackEnded] ∧
    (MusicPlayer.onTrackEnded pf app.library app.musicPlayer).player.isPlaying = false ∧
    app.handle pf Notification.onPlaybackEnded = (app.next pf).1 ∧
    app.musicAudioEnded pf
      = (VibeStreamApp.next pf
          { app with musicPlayer := { app.musicPlayer with isPlaying := false } }).1 ∧
    (app.musicAudioEnded pf).musicPlayer.currentIndex = 0 ∧
    (app.musicAudioEnded pf).musicPlayer.queue = app.musicPlayer.queue ∧
    (app.musicAudioEnded pf).podcastPlayer = app.podcastPlayer ∧
    (app.musicAudioEnded pf).currentMode = Kind.music ∧
    ∃ t, index app.musicPlayer.queue 0 = some t ∧
      (app.musicAudioEnded pf).musicPlayer.currentTrack = some t ∧
      (app.musicAudioEnded pf).musicPlayer.audio.src = t.audioFile ∧
      ((pf.probe t.audioFile).isSome →
        (app.musicAudioEnded pf).musicPlayer.isPlaying = true ∧
        (app.musicAudioEnded pf).musicPlayer.audio.currentTime = 0 ∧
        (app.musicAudioEnded pf).library
          = app.library.incrementPlayCount pf.now t.id Kind.music) := by
  have hlen : 0 < app.musicPlayer.queue.length := List.length_pos.mpr hq
  have hidle := onTrackEnded_idle pf app.library app.musicPlayer hr hi
  have hev := musicAudioEnded_idle pf app hr hi
  have hnext := app_next_music pf
    { app with musicPlayer := { app.musicPlayer with isPlaying := false } } hmode
  have hc : (0 : Int) = (app.musicPlayer.currentIndex + 1) % (app.musicPlayer.queue.length : Int) := by
    rw [hi, sub_add_cancel]
    exact Int.emod_self.symm
  obtain ⟨t, hidx⟩ := index_isSome app.musicPlayer.queue 0 (le_refl _) (by omega)
  have heq := music_next_eq pf app.library { app.musicPlayer with isPlaying := false } hq hs
    (by show 0 ≤ app.musicPlayer.currentIndex; omega) 0 hc
  rw [show index ({ app.musicPlayer with isPlaying := false } : MusicPlayer).queue 0 = some t
    from hidx] at heq
  obtain ⟨f1, f2, f3, f4, _, _⟩ := playTrack_some_fields pf app.library
    { app.musicPlayer with isPlaying := false, currentIndex := 0 } t app.musicPlayer.queue 0
  have hfinal : app.musicAudioEnded pf =
      { app with
        musicPlayer := (MusicPlayer.playTrack pf app.library
          { app.musicPlayer with isPlaying := false, currentIndex := 0 } (some t)
          (some app.musicPlayer.queue) 0).player,
        library := (MusicPlayer.playTrack pf app.library
          { app.musicPlayer with isPlaying := false, currentIndex := 0 } (some t)
          (some app.musicPlayer.queue) 0).library } := by
    rw [hev, hnext]
    simp only [heq]
  refine ⟨by rw [hidle], by rw [hidle], rfl, hev, ?_, ?_, ?_, ?_, t, hidx, ?_, ?_, ?_⟩
  · rw [hfinal]; exact f1
  · rw [hfinal]; exact f2
  · rw [hfinal]
  · rw [hfinal]; exact hmode
  · rw [hfinal]; exact f3
  · rw [hfinal]; exact f4
  · intro hsome
    obtain ⟨d, hd⟩ := Option.isSome_iff_exists.mp hsome
    obtain ⟨_, g2, g3, g4⟩ := playTrack_some_ok pf app.library
      { app.musicPlayer with isPlaying := false, currentIndex := 0 } t app.musicPlayer.queue 0 d hd
    rw [hfinal]
    exact ⟨g2, g3, g4⟩

/-- C26, at the scenario of the spec: three tracks, shuffle off, repeat off,
the coordinator in music mode, natural end at index 2: when the event has been
handled the cursor is 0 and the first track is loaded and playing. -/
theorem ended_makes_coordinator_advance_witness :
    ((sampleApp 2).musicAudioEnded (samplePlatform 1)).musicPlayer.currentIndex = 0 ∧
    ((sampleApp 2).musicAudioEnded (samplePlatform 1)).musicPlayer.currentTrack
      = some (sampleTrack "t0") ∧
    ((sampleApp 2).musicAudioEnded (samplePlatform 1)).musicPlayer.isPlaying = true := by
  obtain ⟨_, _, _, _, h5, _, _, _, t, ht, h9, _, h11⟩ :=
    ended_makes_coordinator_advance (samplePlatform 1) (sampleApp 2) rfl
      (by simp [sampleApp, sampleMusic, sampleLibrary]) rfl rfl (by decide)
  have ht0 : t = sampleTrack "t0" := by
    have : index (sampleApp 2).musicPlayer.queue 0 = some (sampleTrack "t0") := by decide
    exact Option.some.inj (ht.symm.trans this)
  subst ht0
  exact ⟨h5, h9, (h11 rfl).1⟩

end VibeStream
